import Mathlib

/-!
Poloniex API client: the push API (decoders, topic registry and liveness
monitor), and parts of the public and the trading API.

A shallow embedding of `pushapi/pushapi.go`, `pushapi/ticker.go`,
`pushapi/trollbox.go` and `pushapi/orderbookandtrade.go` (namespace `Pushapi`),
of `publicapi/currency.go`, `publicapi/chartdata.go`, `publicapi/orderbook.go`
and `publicapi/ticker.go` (namespace `Publicapi`), and of
`tradingapi/tradingapi.go` (namespace `Tradingapi`).

Conventions of the embedding:

* A Go `interface{}` received from the bus is a `Value`.  JSON objects are kept
  as their key/value pairs in ascending key order, the order in which
  `json.Marshal` writes a Go map and `json.Unmarshal` then reads it back.
* `float64` is an abstract type `F`; the library functions on it
  (`strconv.ParseFloat`, the comparison with zero, the conversions to integers,
  the literal parsers of `encoding/json`, `time.Parse`) are the fields of
  `FloatOps`.
* A Go function that can return an error or crash with a run-time panic returns
  a `Result`.
* Times and durations are integers, in nanoseconds as in package `time`.
* The embedding is sequential: a method, a handler invocation or a monitor
  cycle runs to completion on a `State`.  What the surroundings decide (the
  clock reading, the result of a bus call, whether a consumer is receiving) is
  an argument of the operation.  A blocking channel send that completes is
  recorded in the list of values sent on that channel.
-/

namespace Pushapi

/-! ## Values and results -/

/-- Go values carried by a bus message (`[]interface{}` / `map[string]interface{}`). -/
inductive Value (F : Type) where
  | null : Value F
  | bool (b : Bool) : Value F
  | num (x : F) : Value F
  | str (s : String) : Value F
  | arr (xs : List (Value F)) : Value F
  | obj (kvs : List (String × Value F)) : Value F

/-- Go `error` values returned by the package: which check or call failed. -/
inductive GoError where
  | typeAssertion (field : String) : GoError
  | parseFloat (field : String) : GoError
  | notString (field : String) : GoError
  | json (what : String) : GoError
  | timeParse : GoError
  | bus (call : String) : GoError
deriving DecidableEq, Repr

/-- Outcome of a Go call: a value, a returned error, or a run-time panic. -/
inductive Result (α : Type) where
  | ok (v : α) : Result α
  | error (e : GoError) : Result α
  | panic : Result α
deriving DecidableEq, Repr

/-- Sequencing of Go statements: the first error or panic ends the function. -/
def Result.bind {α β : Type} (r : Result α) (f : α → Result β) : Result β :=
  match r with
  | .ok v => f v
  | .error e => .error e
  | .panic => .panic

instance : Monad Result where
  pure := Result.ok
  bind := Result.bind

/-- Whether the call returned a value. -/
def Result.isOk {α : Type} : Result α → Bool
  | .ok _ => true
  | _ => false

/-- Whether the call returned an error value (`err != nil`). -/
def Result.isError {α : Type} : Result α → Bool
  | .error _ => true
  | _ => false

/-- The library operations on `float64`, integers and times used by the decoders. -/
structure FloatOps (F : Type) where
  /-- The zero value of `float64`. -/
  zero : F
  /-- The call `strconv.ParseFloat(s, 64)`: `none` when it returns an error. -/
  parseFloat : String → Option F
  /-- The comparison `v == 0`. -/
  isZero : F → Bool
  /-- The conversion `int64(v)`. -/
  toInt64 : F → Int
  /-- The conversion `int(v)`. -/
  toInt : F → Int
  /-- The `float64` that `encoding/json` stores for the number literal inside
  a quoted (`,string`) member: `none` when it reports an error. -/
  jsonFloat : String → Option F
  /-- The `int64` that `encoding/json` stores for the number literal inside
  a quoted (`,string`) member: `none` when it reports an error. -/
  jsonInt64 : String → Option Int
  /-- The call `time.Parse("2006-01-02 15:04:05", s)` followed by `Unix()`:
  `none` when the parse returns an error. -/
  parseTimeUnix : String → Option Int

/-- The indexing expression `args[i]`: a run-time panic when `i` is out of range. -/
def index {F : Type} (args : List (Value F)) (i : Nat) : Result (Value F) :=
  match args.get? i with
  | some v => .ok v
  | none => .panic

/-- The function `convertStringToFloat` of `pushapi.go`. -/
def convertStringToFloat {F : Type} (ops : FloatOps F) (field : String) (arg : Value F) :
    Result F :=
  match arg with
  | .str v =>
    match ops.parseFloat v with
    | some val => .ok val
    | none => .error (.parseFloat field)
  | _ => .error (.typeAssertion field)

/-! ## Ticker -/

/-- The struct `Tick` of `ticker.go`. -/
structure Tick (F : Type) where
  CurrencyPair : String
  Last : F
  LowestAsk : F
  HighestBid : F
  PercentChange : F
  BaseVolume : F
  QuoteVolume : F
  IsFrozen : Bool
  High24hr : F
  Low24hr : F
deriving DecidableEq, Repr

/-- The function `convertArgsToTick` of `ticker.go`. -/
def convertArgsToTick {F : Type} (ops : FloatOps F) (args : List (Value F)) :
    Result (Tick F) := do
  let a0 ← index args 0
  let pair ← (match a0 with
    | .str v => Result.ok v
    | _ => Result.error (.typeAssertion "CurrencyPair"))
  let last ← (index args 1).bind (convertStringToFloat ops "Last")
  let lowestAsk ← (index args 2).bind (convertStringToFloat ops "LowestAsk")
  let highestBid ← (index args 3).bind (convertStringToFloat ops "HighestBid")
  let percentChange ← (index args 4).bind (convertStringToFloat ops "PercentChange")
  let baseVolume ← (index args 5).bind (convertStringToFloat ops "BaseVolume")
  let quoteVolume ← (index args 6).bind (convertStringToFloat ops "QuoteVolume")
  let a7 ← index args 7
  let isFrozen ← (match a7 with
    | .num v => Result.ok (if ops.isZero v then false else true)
    | _ => Result.error (.typeAssertion "IsFrozen"))
  let high24hr ← (index args 8).bind (convertStringToFloat ops "High24hr")
  let low24hr ← (index args 9).bind (convertStringToFloat ops "Low24hr")
  return { CurrencyPair := pair, Last := last, LowestAsk := lowestAsk,
           HighestBid := highestBid, PercentChange := percentChange,
           BaseVolume := baseVolume, QuoteVolume := quoteVolume,
           IsFrozen := isFrozen, High24hr := high24hr, Low24hr := low24hr }

/-! ## Trollbox -/

/-- The struct `TrollboxMessage` of `trollbox.go`. -/
structure TrollboxMessage where
  TypeMessage : String
  MessageNumber : Int
  Username : String
  Message : String
  Reputation : Int
deriving DecidableEq, Repr

/-- The function `convertArgsToTrollboxMessage` of `trollbox.go`. -/
def convertArgsToTrollboxMessage {F : Type} (ops : FloatOps F) (args : List (Value F)) :
    Result TrollboxMessage := do
  let a0 ← index args 0
  let typeMessage ← (match a0 with
    | .str v => Result.ok v
    | _ => Result.error (.typeAssertion "TypeMessage"))
  let a1 ← index args 1
  let messageNumber ← (match a1 with
    | .num v => Result.ok (ops.toInt64 v)
    | _ => Result.error (.typeAssertion "MessageNumber"))
  let a2 ← index args 2
  let username ← (match a2 with
    | .str v => Result.ok v
    | _ => Result.error (.typeAssertion "Username"))
  let a3 ← index args 3
  let message ← (match a3 with
    | .str v => Result.ok v
    | _ => Result.error (.typeAssertion "Message"))
  let reputation ← (if args.length = 5 then do
      let a4 ← index args 4
      match a4 with
      | .num v => Result.ok (ops.toInt v)
      | _ => Result.error (.typeAssertion "Reputation")
    else Result.ok (-1))
  return { TypeMessage := typeMessage, MessageNumber := messageNumber,
           Username := username, Message := message, Reputation := reputation }

/-! ## Market updates -/

/-- The struct `OrderBookModify` of `orderbookandtrade.go`. -/
structure OrderBookModify (F : Type) where
  Rate : F
  TypeOrder : String
  Amount : F
deriving DecidableEq, Repr

/-- The struct `OrderBookRemove` of `orderbookandtrade.go`. -/
structure OrderBookRemove (F : Type) where
  Rate : F
  TypeOrder : String
deriving DecidableEq, Repr

/-- The struct `NewTrade` of `orderbookandtrade.go`; `Date` is a Unix timestamp. -/
structure NewTrade (F : Type) where
  TradeId : Int
  Rate : F
  Amount : F
  Date : Int
  Total : F
  TypeOrder : String
deriving DecidableEq, Repr

/-- What the field `MarketUpdate.Data` (an `interface{}`) holds.  `raw msg` is
the pointer to the local `json.RawMessage` it is initialised with, `msg` being
the undecoded JSON stored there (`none` while it is empty); `null` is the nil
interface left by a JSON `null`; `generic` is a value decoded into the nil
interface. -/
inductive UpdateData (F : Type) where
  | raw (msg : Option (Value F)) : UpdateData F
  | null : UpdateData F
  | generic (v : Value F) : UpdateData F
  | modify (obm : OrderBookModify F) : UpdateData F
  | remove (obr : OrderBookRemove F) : UpdateData F
  | trade (nt : NewTrade F) : UpdateData F

/-- The struct `MarketUpdate` of `orderbookandtrade.go`. -/
structure MarketUpdate (F : Type) where
  Data : UpdateData F
  TypeUpdate : String

/-- The struct `MarketUpdates` of `orderbookandtrade.go`. -/
structure MarketUpdates (F : Type) where
  Sequence : Int
  Updates : List (MarketUpdate F)

/-- How `encoding/json` matches an object key with a struct field name: the
names are equal up to the case of their letters.  (Every field name used here
is made of ASCII letters other than `k` and `s`, for which the folding of
`encoding/json` is the ASCII one.) -/
def keyMatches (name key : String) : Bool :=
  key.toList.map Char.toLower == name.toList.map Char.toLower

/-- Storing a JSON value in a plain `string` field: a string is stored, `null`
leaves the field as it is, anything else is an `UnmarshalTypeError`. -/
def storeString {F : Type} (field : String) (cur : String) : Value F → Result String
  | .str s => .ok s
  | .null => .ok cur
  | _ => .error (.notString field)

/-- Storing a JSON value in a `float64` field tagged `,string`: the value has
to be a JSON string holding a number literal; `null`, bare or quoted, leaves
the field as it is. -/
def storeQuotedFloat {F : Type} (ops : FloatOps F) (field : String) (cur : F) :
    Value F → Result F
  | .str s =>
    if s = "null" then .ok cur
    else match ops.jsonFloat s with
      | some x => .ok x
      | none => .error (.json field)
  | .null => .ok cur
  | _ => .error (.json field)

/-- Storing a JSON value in an `int64` field tagged `,string`. -/
def storeQuotedInt64 {F : Type} (ops : FloatOps F) (field : String) (cur : Int) :
    Value F → Result Int
  | .str s =>
    if s = "null" then .ok cur
    else match ops.jsonInt64 s with
      | some x => .ok x
      | none => .error (.json field)
  | .null => .ok cur
  | _ => .error (.json field)

/-- One member of the JSON object decoded into an `OrderBookModify`. -/
def OrderBookModify.member {F : Type} (ops : FloatOps F) (obm : OrderBookModify F)
    (kv : String × Value F) : Result (OrderBookModify F) :=
  if keyMatches "rate" kv.1 then
    (storeQuotedFloat ops "rate" obm.Rate kv.2).bind (fun x => .ok { obm with Rate := x })
  else if keyMatches "type" kv.1 then
    (storeString "type" obm.TypeOrder kv.2).bind (fun x => .ok { obm with TypeOrder := x })
  else if keyMatches "amount" kv.1 then
    (storeQuotedFloat ops "amount" obm.Amount kv.2).bind
      (fun x => .ok { obm with Amount := x })
  else .ok obm

/-- One member of the JSON object decoded into an `OrderBookRemove`. -/
def OrderBookRemove.member {F : Type} (ops : FloatOps F) (obr : OrderBookRemove F)
    (kv : String × Value F) : Result (OrderBookRemove F) :=
  if keyMatches "rate" kv.1 then
    (storeQuotedFloat ops "rate" obr.Rate kv.2).bind (fun x => .ok { obr with Rate := x })
  else if keyMatches "type" kv.1 then
    (storeString "type" obr.TypeOrder kv.2).bind (fun x => .ok { obr with TypeOrder := x })
  else .ok obr

/-- The local struct `aux` of `NewTrade.UnmarshalJSON`: the `Date` string next
to the embedded `NewTrade`, whose own `Date` field it shadows. -/
structure NewTradeAux (F : Type) where
  Date : String
  aliased : NewTrade F

/-- One member of the JSON object decoded into `aux`. -/
def NewTradeAux.member {F : Type} (ops : FloatOps F) (aux : NewTradeAux F)
    (kv : String × Value F) : Result (NewTradeAux F) :=
  if keyMatches "Date" kv.1 then
    (storeString "Date" aux.Date kv.2).bind (fun x => .ok { aux with Date := x })
  else if keyMatches "tradeID" kv.1 then
    (storeQuotedInt64 ops "tradeID" aux.aliased.TradeId kv.2).bind
      (fun x => .ok { aux with aliased := { aux.aliased with TradeId := x } })
  else if keyMatches "rate" kv.1 then
    (storeQuotedFloat ops "rate" aux.aliased.Rate kv.2).bind
      (fun x => .ok { aux with aliased := { aux.aliased with Rate := x } })
  else if keyMatches "amount" kv.1 then
    (storeQuotedFloat ops "amount" aux.aliased.Amount kv.2).bind
      (fun x => .ok { aux with aliased := { aux.aliased with Amount := x } })
  else if keyMatches "total" kv.1 then
    (storeQuotedFloat ops "total" aux.aliased.Total kv.2).bind
      (fun x => .ok { aux with aliased := { aux.aliased with Total := x } })
  else if keyMatches "type" kv.1 then
    (storeString "type" aux.aliased.TypeOrder kv.2).bind
      (fun x => .ok { aux with aliased := { aux.aliased with TypeOrder := x } })
  else .ok aux

/-- Decoding the members of a JSON object one after the other, in the order in
which they are written, into a struct. -/
def decodeMembers {F σ : Type} (step : σ → String × Value F → Result σ) :
    σ → List (String × Value F) → Result σ
  | st, [] => .ok st
  | st, kv :: rest => (step st kv).bind (fun st1 => decodeMembers step st1 rest)

/-- The call `json.Unmarshal(data, &v)` for a struct `v` without a decoder of its
own: an object is decoded member by member, `null` changes nothing, any other
JSON value is an error. -/
def unmarshalStruct {F σ : Type} (what : String)
    (step : σ → String × Value F → Result σ) (st : σ) : Value F → Result σ
  | .obj kvs => decodeMembers step st kvs
  | .null => .ok st
  | _ => .error (.json what)

/-- The method `NewTrade.UnmarshalJSON`. -/
def NewTrade.UnmarshalJSON {F : Type} (ops : FloatOps F) (n : NewTrade F) (data : Value F) :
    Result (NewTrade F) :=
  (unmarshalStruct "NewTrade" (NewTradeAux.member ops) { Date := "", aliased := n } data).bind
    (fun aux =>
      match ops.parseTimeUnix aux.Date with
      | none => .error .timeParse
      | some timestamp => .ok { aux.aliased with Date := timestamp })

/-- What the interface field `Data` holds while the `MarketUpdate` is being
decoded: still the pointer to the local `dataField`, nil, or a decoded value. -/
inductive DataRef (F : Type) where
  | pointer : DataRef F
  | null : DataRef F
  | generic (v : Value F) : DataRef F

/-- The local variables `marketUpdate` and `dataField` of the loop body of
`convertArgsToMarketUpdateSlice` during the first `json.Unmarshal`. -/
structure Envelope (F : Type) where
  Data : DataRef F
  dataField : Option (Value F)
  TypeUpdate : String

/-- One member of the JSON object decoded into `marketUpdate`: a `null` for
`Data` sets the interface to nil, another value is stored through the pointer
into `dataField` (or, once the interface is nil, into the interface itself). -/
def Envelope.member {F : Type} (env : Envelope F) (kv : String × Value F) :
    Result (Envelope F) :=
  if keyMatches "Data" kv.1 then
    match kv.2, env.Data with
    | .null, _ => .ok { env with Data := .null }
    | v, .pointer => .ok { env with dataField := some v }
    | v, _ => .ok { env with Data := .generic v }
  else if keyMatches "type" kv.1 then
    (storeString "type" env.TypeUpdate kv.2).bind (fun x => .ok { env with TypeUpdate := x })
  else .ok env

/-- The value of `marketUpdate.Data` when no case of the `switch` replaces it. -/
def Envelope.data {F : Type} (env : Envelope F) : UpdateData F :=
  match env.Data with
  | .pointer => .raw env.dataField
  | .null => .null
  | .generic v => .generic v

/-- The call `json.Unmarshal(dataField, &v)` of the `switch`: an empty
`dataField` is the error "unexpected end of JSON input". -/
def unmarshalDataField {F σ : Type} (decode : Value F → Result σ) :
    Option (Value F) → Result σ
  | none => .error (.json "unexpected end of JSON input")
  | some v => decode v

/-- The body of the loop of `convertArgsToMarketUpdateSlice` for one element
`val` of `args`.  (`json.Marshal` of a value received from the bus does not
fail and `json.Unmarshal` reads back the same value.) -/
def convertMarketUpdate {F : Type} (ops : FloatOps F) (val : Value F) :
    Result (MarketUpdate F) :=
  (unmarshalStruct "MarketUpdate" Envelope.member
      { Data := .pointer, dataField := none, TypeUpdate := "" } val).bind
    (fun env =>
      if env.TypeUpdate = "orderBookModify" then
        (unmarshalDataField
            (unmarshalStruct "OrderBookModify" (OrderBookModify.member ops)
              { Rate := ops.zero, TypeOrder := "", Amount := ops.zero })
            env.dataField).bind
          (fun obm => .ok { Data := .modify obm, TypeUpdate := env.TypeUpdate })
      else if env.TypeUpdate = "orderBookRemove" then
        (unmarshalDataField
            (unmarshalStruct "OrderBookRemove" (OrderBookRemove.member ops)
              { Rate := ops.zero, TypeOrder := "" })
            env.dataField).bind
          (fun obr => .ok { Data := .remove obr, TypeUpdate := env.TypeUpdate })
      else if env.TypeUpdate = "newTrade" then
        (unmarshalDataField
            (NewTrade.UnmarshalJSON ops
              { TradeId := 0, Rate := ops.zero, Amount := ops.zero, Date := 0,
                Total := ops.zero, TypeOrder := "" })
            env.dataField).bind
          (fun nt => .ok { Data := .trade nt, TypeUpdate := env.TypeUpdate })
      else .ok { Data := env.data, TypeUpdate := env.TypeUpdate })

/-- The function `convertArgsToMarketUpdateSlice` of `orderbookandtrade.go`:
the elements are decoded in order and the first failure ends the function. -/
def convertArgsToMarketUpdateSlice {F : Type} (ops : FloatOps F) :
    List (Value F) → Result (List (MarketUpdate F))
  | [] => .ok []
  | val :: rest =>
    (convertMarketUpdate ops val).bind (fun marketUpdate =>
      (convertArgsToMarketUpdateSlice ops rest).bind (fun res =>
        .ok (marketUpdate :: res)))

/-! ## Client state: session lock, topic registry, channels and signals -/

/-- The constant `TICKER` of `ticker.go`. -/
def TICKER : String := "ticker"

/-- The constant `TROLLBOX` of `trollbox.go`. -/
def TROLLBOX : String := "trollbox"

/-- The duration `time.Second`, in clock units (nanoseconds). -/
def Second : Int := 1000000000

/-- The duration `time.Minute`. -/
def Minute : Int := 60 * Second

/-- Lookup `m[k]` in a Go map kept as an association list. -/
def mapGet {α : Type} : List (String × α) → String → Option α
  | [], _ => none
  | (k1, v) :: rest, k => if k1 = k then some v else mapGet rest k

/-- The statement `delete(m, k)`. -/
def mapDelete {α : Type} (m : List (String × α)) (k : String) : List (String × α) :=
  m.filter (fun kv => decide (kv.1 ≠ k))

/-- The statement `m[k] = v`. -/
def mapSet {α : Type} (m : List (String × α)) (k : String) (v : α) : List (String × α) :=
  (k, v) :: mapDelete m k

/-- The keys of a Go map. -/
def mapKeys {α : Type} (m : List (String × α)) : List String :=
  m.map Prod.fst

/-- The three `subscribe` closures stored in the registry: the one built by
`SubscribeTicker`, by `SubscribeTrollbox`, and by `SubscribeMarket` for a
currency pair. -/
inductive Closure where
  | ticker : Closure
  | trollbox : Closure
  | market (currencyPair : String) : Closure
deriving DecidableEq, Repr

/-- The topic a `subscribe` closure passes to `wampClient.Subscribe`. -/
def Closure.topic : Closure → String
  | .ticker => TICKER
  | .trollbox => TROLLBOX
  | .market currencyPair => currencyPair

/-- An unsubscribed signal, a `chan struct{}`: `id` tells one `make` from
another, `closed` whether `close` was called on it. -/
structure Signal where
  id : Nat
  closed : Bool
deriving DecidableEq, Repr

/-- The struct `marketUpdaterInfo`: `updater` is the sequence of values sent on
the channel so far (`none` is the nil sentinel), `updaterId` the identity of
the channel. -/
structure MarketUpdaterInfo (F : Type) where
  updaterId : Nat
  updater : List (Option (MarketUpdates F))
  unsubscribed : Signal

/-- The calls and statements whose order is observed. -/
inductive Action where
  | busSubscribe (topic : String) (ok : Bool) : Action
  | busUnsubscribe (topic : String) (ok : Bool) : Action
  | busClose (ok : Bool) : Action
  | busConnect (ok : Bool) : Action
  | registryAdd (topic : String) : Action
  | registryRemove (topic : String) : Action
  | send (topic : String) (sentinel : Bool) : Action
  | fire (topic : String) : Action
  | resubscribe (topic : String) : Action
  | logReconnecting : Action
  | logStale (topic : String) : Action
deriving DecidableEq, Repr

/-- The state of a `Client` and of the package variables.  `wampReaders` is
the number of holders of the read lock of `wampClientMu`; `lastTimestamp`,
`topicLastTimestamp` and `subscription` are the fields of `pushLastUpdate`;
`ticker` and `trollbox` are the values sent so far on the two package
channels; `nextChan` numbers the channels made; `trace` lists the observed
actions, oldest first. -/
structure State (F : Type) where
  wampReaders : Nat
  session : Nat
  lastTimestamp : Int
  topicLastTimestamp : List (String × Int)
  subscription : List (String × Closure)
  ticker : List (Option (Tick F))
  tickerUnsubscribed : Signal
  trollbox : List (Option TrollboxMessage)
  trollboxUnsubscribed : Signal
  marketUpdaterInfos : List (String × MarketUpdaterInfo F)
  nextChan : Nat
  trace : List Action

/-- The call `wampClientMu.RLock()`. -/
def rlock {F : Type} (s : State F) : State F :=
  { s with wampReaders := s.wampReaders + 1 }

/-- The call `wampClientMu.RUnlock()`. -/
def runlock {F : Type} (s : State F) : State F :=
  { s with wampReaders := s.wampReaders - 1 }

/-- Appends an observed action to the trace. -/
def record {F : Type} (a : Action) (s : State F) : State F :=
  { s with trace := s.trace ++ [a] }

/-- The method `addSubscription`, `now` being the reading of `time.Now()`. -/
def addSubscription {F : Type} (now : Int) (topic : String) (subscribe : Closure)
    (s : State F) : State F :=
  record (.registryAdd topic)
    { s with subscription := mapSet s.subscription topic subscribe,
             topicLastTimestamp := mapSet s.topicLastTimestamp topic now }

/-- The method `removeSubscription`. -/
def removeSubscription {F : Type} (topic : String) (s : State F) : State F :=
  record (.registryRemove topic)
    { s with subscription := mapDelete s.subscription topic,
             topicLastTimestamp := mapDelete s.topicLastTimestamp topic }

/-- The method `updateTopicTimestamp`, `now` being the reading of `time.Now()`. -/
def updateTopicTimestamp {F : Type} (now : Int) (topic : String) (s : State F) : State F :=
  { s with lastTimestamp := now,
           topicLastTimestamp := mapSet s.topicLastTimestamp topic now }

/-- A call of a stored `subscribe` closure: read lock, `wampClient.Subscribe`
(whose result `ok` is given by the bus), deferred unlock. -/
def Closure.call {F : Type} (c : Closure) (ok : Bool) (s : State F) :
    State F × Result Unit :=
  let s1 := record (.busSubscribe c.topic ok) (rlock s)
  (runlock s1, if ok then .ok () else .error (.bus "turnpike.Client.Subscribe"))

/-- The `select` with `default` of the subscribe functions: a closed signal is
replaced by a newly made one, an open one is kept. -/
def resetSignal (sig : Signal) (fresh : Nat) : Signal :=
  if sig.closed then { id := fresh, closed := false } else sig

/-- The channel a subscribe function returns. -/
inductive ChannelRef where
  | ticker : ChannelRef
  | trollbox : ChannelRef
  | market (updaterId : Nat) : ChannelRef
deriving DecidableEq, Repr

/-- The method `SubscribeTicker`; `busOk` is the result of the bus call. -/
def SubscribeTicker {F : Type} (now : Int) (busOk : Bool) (s : State F) :
    State F × Result ChannelRef :=
  match Closure.ticker.call busOk s with
  | (s1, .ok _) =>
    let s2 := { s1 with tickerUnsubscribed := resetSignal s1.tickerUnsubscribed s1.nextChan,
                        nextChan := s1.nextChan + 1 }
    (addSubscription now TICKER .ticker s2, .ok .ticker)
  | (s1, .error e) => (s1, .error e)
  | (s1, .panic) => (s1, .panic)

/-- The method `SubscribeTrollbox`. -/
def SubscribeTrollbox {F : Type} (now : Int) (busOk : Bool) (s : State F) :
    State F × Result ChannelRef :=
  match Closure.trollbox.call busOk s with
  | (s1, .ok _) =>
    let s2 := { s1 with
      trollboxUnsubscribed := resetSignal s1.trollboxUnsubscribed s1.nextChan,
      nextChan := s1.nextChan + 1 }
    (addSubscription now TROLLBOX .trollbox s2, .ok .trollbox)
  | (s1, .error e) => (s1, .error e)
  | (s1, .panic) => (s1, .panic)

/-- The method `SubscribeMarket`. -/
def SubscribeMarket {F : Type} (now : Int) (busOk : Bool) (currencyPair : String)
    (s : State F) : State F × Result ChannelRef :=
  let updaterInfo : MarketUpdaterInfo F :=
    match mapGet s.marketUpdaterInfos currencyPair with
    | some info => info
    | none => { updaterId := s.nextChan, updater := [],
                unsubscribed := { id := s.nextChan + 1, closed := false } }
  let s0 : State F :=
    match mapGet s.marketUpdaterInfos currencyPair with
    | some _ => s
    | none => { s with marketUpdaterInfos := mapSet s.marketUpdaterInfos currencyPair updaterInfo,
                       nextChan := s.nextChan + 2 }
  match (Closure.market currencyPair).call busOk s0 with
  | (s1, .ok _) =>
    let info1 := { updaterInfo with
      unsubscribed := resetSignal updaterInfo.unsubscribed s1.nextChan }
    let s2 := { s1 with marketUpdaterInfos := mapSet s1.marketUpdaterInfos currencyPair info1,
                        nextChan := s1.nextChan + 1 }
    (addSubscription now currencyPair (.market currencyPair) s2, .ok (.market info1.updaterId))
  | (s1, .error e) =>
    ({ s1 with marketUpdaterInfos := mapDelete s1.marketUpdaterInfos currencyPair }, .error e)
  | (s1, .panic) => (s1, .panic)

/-- The statement `close(unsubscribed)`: closing a closed channel panics. -/
def closeSignal (sig : Signal) : Result Signal :=
  if sig.closed then .panic else .ok { sig with closed := true }

/-- The method `UnsubscribeTicker`; `busOk` is the result of the bus call.  The
send of the sentinel is recorded as completed (a consumer receives it). -/
def UnsubscribeTicker {F : Type} (busOk : Bool) (s : State F) : State F × Result Unit :=
  let s1 := record (.busUnsubscribe TICKER busOk) (rlock s)
  if busOk then
    let s2 := removeSubscription TICKER (runlock s1)
    let s3 := record (.send TICKER true) { s2 with ticker := s2.ticker ++ [none] }
    match closeSignal s3.tickerUnsubscribed with
    | .ok sig => (record (.fire TICKER) { s3 with tickerUnsubscribed := sig }, .ok ())
    | .error e => (s3, .error e)
    | .panic => (s3, .panic)
  else (s1, .error (.bus "turnpike.Client.Unsuscribe"))

/-- The method `UnsubscribeTrollbox`. -/
def UnsubscribeTrollbox {F : Type} (busOk : Bool) (s : State F) : State F × Result Unit :=
  let s1 := record (.busUnsubscribe TROLLBOX busOk) (rlock s)
  if busOk then
    let s2 := removeSubscription TROLLBOX (runlock s1)
    let s3 := record (.send TROLLBOX true) { s2 with trollbox := s2.trollbox ++ [none] }
    match closeSignal s3.trollboxUnsubscribed with
    | .ok sig => (record (.fire TROLLBOX) { s3 with trollboxUnsubscribed := sig }, .ok ())
    | .error e => (s3, .error e)
    | .panic => (s3, .panic)
  else (s1, .error (.bus "turnpike.Client.Unsuscribe"))

/-- The method `UnsubscribeMarket`: a pair without an entry in
`marketUpdaterInfos` gives a nil `updaterInfo`, whose use panics. -/
def UnsubscribeMarket {F : Type} (busOk : Bool) (currencyPair : String) (s : State F) :
    State F × Result Unit :=
  let s1 := record (.busUnsubscribe currencyPair busOk) (rlock s)
  if busOk then
    let s2 := removeSubscription currencyPair (runlock s1)
    match mapGet s2.marketUpdaterInfos currencyPair with
    | none => (s2, .panic)
    | some updaterInfo =>
      let info1 := { updaterInfo with updater := updaterInfo.updater ++ [none] }
      let s3 := record (.send currencyPair true)
        { s2 with marketUpdaterInfos := mapSet s2.marketUpdaterInfos currencyPair info1 }
      match closeSignal info1.unsubscribed with
      | .ok sig =>
        (record (.fire currencyPair)
          { s3 with marketUpdaterInfos :=
              mapSet s3.marketUpdaterInfos currencyPair { info1 with unsubscribed := sig } },
         .ok ())
      | .error e => (s3, .error e)
      | .panic => (s3, .panic)
  else (s1, .error (.bus "turnpike.Client.Unsuscribe"))

/-! ## Message handlers -/

/-- What surrounds a handler at its `select`: whether a consumer is receiving
on the channel, and which case the runtime picks when both are ready. -/
structure SelectEnv where
  consumer : Bool
  pickSend : Bool
deriving DecidableEq, Repr

/-- Outcome of the `select` between the channel send and the signal. -/
inductive Delivery where
  | sent : Delivery
  | abandoned : Delivery
  | blocked : Delivery
deriving DecidableEq, Repr

/-- The `select` of the handlers: the send can proceed when a consumer is
receiving, the other case when the signal is closed; with neither the handler
stays blocked. -/
def selectSend (env : SelectEnv) (closed : Bool) : Delivery :=
  match env.consumer, closed with
  | true, true => if env.pickSend then .sent else .abandoned
  | true, false => .sent
  | false, true => .abandoned
  | false, false => .blocked

/-- How a handler invocation ends. -/
inductive Handled where
  | delivered : Handled
  | abandoned : Handled
  | blocked : Handled
  | dropped (e : GoError) : Handled
  | heartbeat : Handled
  | crashed : Handled
deriving DecidableEq, Repr

/-- The `handler` closure of `SubscribeTicker`. -/
def tickerHandler {F : Type} (ops : FloatOps F) (now : Int) (env : SelectEnv)
    (args : List (Value F)) (s : State F) : State F × Handled :=
  let s1 := updateTopicTimestamp now TICKER s
  match convertArgsToTick ops args with
  | .error e => (s1, .dropped e)
  | .panic => (s1, .crashed)
  | .ok tick =>
    match selectSend env s1.tickerUnsubscribed.closed with
    | .sent =>
      (record (.send TICKER false) { s1 with ticker := s1.ticker ++ [some tick] }, .delivered)
    | .abandoned => (s1, .abandoned)
    | .blocked => (s1, .blocked)

/-- The `handler` closure of `SubscribeTrollbox`. -/
def trollboxHandler {F : Type} (ops : FloatOps F) (now : Int) (env : SelectEnv)
    (args : List (Value F)) (s : State F) : State F × Handled :=
  let s1 := updateTopicTimestamp now TROLLBOX s
  match convertArgsToTrollboxMessage ops args with
  | .error e => (s1, .dropped e)
  | .panic => (s1, .crashed)
  | .ok tbMsg =>
    match selectSend env s1.trollboxUnsubscribed.closed with
    | .sent =>
      (record (.send TROLLBOX false) { s1 with trollbox := s1.trollbox ++ [some tbMsg] },
       .delivered)
    | .abandoned => (s1, .abandoned)
    | .blocked => (s1, .blocked)

/-- The `handler` closure of `SubscribeMarket` for `currencyPair`. -/
def marketHandler {F : Type} (ops : FloatOps F) (currencyPair : String) (now : Int)
    (env : SelectEnv) (args : List (Value F)) (kwargs : List (String × Value F))
    (s : State F) : State F × Handled :=
  let s1 := updateTopicTimestamp now currencyPair s
  match mapGet kwargs "seq" with
  | some (.num seq) =>
    if args.length = 0 then (s1, .heartbeat)
    else
      match convertArgsToMarketUpdateSlice ops args with
      | .error e => (s1, .dropped e)
      | .panic => (s1, .crashed)
      | .ok updates =>
        match mapGet s1.marketUpdaterInfos currencyPair with
        | none => (s1, .crashed)
        | some updaterInfo =>
          match selectSend env updaterInfo.unsubscribed.closed with
          | .sent =>
            let batch : MarketUpdates F :=
              { Sequence := ops.toInt64 seq, Updates := updates }
            (record (.send currencyPair false)
              { s1 with marketUpdaterInfos :=
                  (mapSet s1.marketUpdaterInfos currencyPair
                    { updaterInfo with updater := updaterInfo.updater ++ [some batch] }) },
             .delivered)
          | .abandoned => (s1, .abandoned)
          | .blocked => (s1, .blocked)
  | _ => (s1, .dropped (.typeAssertion "seq"))

/-! ## Liveness monitor -/

/-- The struct `apiConf`, the two fields read by the monitor. -/
structure Conf where
  TimeoutSec : Int
  TopicTimeoutMin : Int
deriving DecidableEq, Repr

/-- The value of an `int64` expression whose exact value is `n`: the arithmetic
of Go integers wraps around. -/
def wrapInt64 (n : Int) : Int :=
  (n + 2 ^ 63) % 2 ^ 64 - 2 ^ 63

/-- The local variable `topicTimeout` of `autoReconnect`, the `int64` product
`time.Duration(conf.TopicTimeoutMin) * time.Minute`. -/
def topicTimeout (conf : Conf) : Int :=
  wrapInt64 (conf.TopicTimeoutMin * Minute)

/-- What surrounds one cycle of `autoReconnect`: the clock reading after the
sleep, the result of closing the session, the result of each connect attempt
(new client and realm join) by its number, and the result of the bus subscribe
call for each topic. -/
structure CycleEnv where
  now : Int
  closeOk : Bool
  connectOk : Nat → Bool
  subscribeOk : String → Bool

/-- How a monitor cycle ends: after a reconnect, after the per-topic pass, with
the exclusive lock never obtained, or with a panic. -/
inductive CycleOutcome where
  | reconnected (attempts : Nat) : CycleOutcome
  | checked : CycleOutcome
  | blocked : CycleOutcome
  | crashed : CycleOutcome
deriving DecidableEq, Repr

/-- The inner `for` loop of `autoReconnect`: connect attempts number `attempt`,
`attempt + 1`, ... until one succeeds; the result is the state after the
successful attempt and the number of attempts made (`none` when `fuel`
attempts all failed). -/
def connectLoop {F : Type} (connectOk : Nat → Bool) :
    Nat → Nat → State F → Option (State F × Nat)
  | 0, _, _ => none
  | fuel + 1, attempt, s =>
    if connectOk attempt then
      some ({ (record (.busConnect true) s) with session := s.session + 1 }, attempt + 1)
    else connectLoop connectOk fuel (attempt + 1) (record (.busConnect false) s)

/-- The loop `for _, subscribe := range client.plu.subscription` of the
reconnect branch: every stored closure is called, errors are logged only. -/
def resubscribeAll {F : Type} (subscribeOk : String → Bool) :
    List (String × Closure) → State F → State F
  | [], s => s
  | (topic, subscribe) :: rest, s =>
    resubscribeAll subscribeOk rest
      (subscribe.call (subscribeOk subscribe.topic) (record (.resubscribe topic) s)).1

/-- The map `topicsError` of the per-topic pass: the topics whose last
timestamp is older than `topicTimeout`. -/
def topicsError (now topicTimeout : Int) (m : List (String × Int)) : List (String × Int) :=
  m.filter (fun kv => decide (now - kv.2 > topicTimeout))

/-- The loop `for topic, timestamp := range topicsError`: the closure stored
for the topic is called; a topic without a stored closure gives a nil function,
whose call panics (result `false`). -/
def resubscribeStale {F : Type} (subscribeOk : String → Bool) :
    List (String × Int) → State F → State F × Bool
  | [], s => (s, true)
  | (topic, _) :: rest, s =>
    let s1 := record (.logStale topic) s
    match mapGet s1.subscription topic with
    | none => (s1, false)
    | some subscribe =>
      resubscribeStale subscribeOk rest
        (subscribe.call (subscribeOk subscribe.topic) (record (.resubscribe topic) s1)).1

/-- The method `Close`. -/
def Client.Close {F : Type} (ok : Bool) (s : State F) : State F :=
  runlock (record (.busClose ok) (rlock s))

/-- One iteration of the outer `for` loop of `autoReconnect`, after its sleep.
`timeout` is the argument of `autoReconnect`; `fuel` bounds the number of
connect attempts followed (`none`: all of them failed).  The exclusive lock is
obtained only when no read lock is held.  The clock advances by the 5 second
sleep of each connect attempt, so the reading of `time.Now()` after the
`attempts`-th attempt is `env.now + 5 * Second * attempts`. -/
def autoReconnectCycle {F : Type} (conf : Conf) (timeout : Int) (env : CycleEnv) (fuel : Nat)
    (s : State F) : Option (State F × CycleOutcome) :=
  if env.now - s.lastTimestamp > timeout then
    let s1 := Client.Close env.closeOk (record .logReconnecting s)
    if s1.wampReaders ≠ 0 then some (s1, .blocked)
    else
      match connectLoop env.connectOk fuel 0 s1 with
      | none => none
      | some (s2, attempts) =>
        let s3 := { s2 with lastTimestamp := env.now + 5 * Second * attempts }
        some (resubscribeAll env.subscribeOk s3.subscription s3, .reconnected attempts)
  else
    match resubscribeStale env.subscribeOk
        (topicsError env.now (topicTimeout conf) s.topicLastTimestamp) s with
    | (s1, true) => some (s1, .checked)
    | (s1, false) => some (s1, .crashed)

/-! ## An exact decimal instance of the float operations

Used to evaluate the decoders on concrete payloads: a number is a mantissa and
a count of decimal places, the literal `0.05` being `5 / 10 ^ 2`. -/

/-- A decimal number `mant / 10 ^ scale`. -/
structure Decimal where
  mant : Int
  scale : Nat
deriving DecidableEq, Repr

/-- Value of a decimal digit character. -/
def digitVal (c : Char) : Option Nat :=
  if c.isDigit then some (c.toNat - 48) else none

/-- Reads the characters of an unsigned decimal literal: `acc` is the mantissa
so far, `scale` the number of digits read after the point (`none` before it),
`seen` whether a digit has been read. -/
def readDecimal : List Char → Nat → Option Nat → Bool → Option Decimal
  | [], acc, scale, seen =>
    if seen then some ⟨(acc : Int), scale.getD 0⟩ else none
  | c :: cs, acc, scale, seen =>
    if c = '.' then
      match scale with
      | none => readDecimal cs acc (some 0) seen
      | some _ => none
    else
      match digitVal c with
      | some d => readDecimal cs (acc * 10 + d) (scale.map (· + 1)) true
      | none => none

/-- Parses a decimal literal with an optional leading minus sign. -/
def parseDecimal (s : String) : Option Decimal :=
  match s.toList with
  | '-' :: cs => (readDecimal cs 0 none false).map (fun d => ⟨-d.mant, d.scale⟩)
  | cs => readDecimal cs 0 none false

/-- Parses a run of decimal digits into an integer. -/
def parseDigits (s : String) : Option Int :=
  match parseDecimal s with
  | some ⟨m, 0⟩ => some m
  | _ => none

/-- Value of two decimal digit characters. -/
def twoDigits (a b : Char) : Option Nat :=
  match digitVal a, digitVal b with
  | some x, some y => some (10 * x + y)
  | _, _ => none

/-- Leap years of the Gregorian calendar. -/
def isLeap (y : Nat) : Bool :=
  y % 4 == 0 && (y % 100 != 0 || y % 400 == 0)

/-- Number of days of month `m` of year `y`. -/
def daysIn (y m : Nat) : Nat :=
  if m = 2 then (if isLeap y then 29 else 28)
  else if m = 4 ∨ m = 6 ∨ m = 9 ∨ m = 11 then 30 else 31

/-- Days from 1970-01-01 to the civil date `y`-`m`-`d`. -/
def daysFromCivil (y m d : Nat) : Int :=
  let y1 : Int := if m ≤ 2 then (y : Int) - 1 else (y : Int)
  let era : Int := y1 / 400
  let yoe : Int := y1 - era * 400
  let mp : Int := ((m + 9) % 12 : Nat)
  let doy : Int := (153 * mp + 2) / 5 + (d : Int) - 1
  let doe : Int := yoe * 365 + yoe / 4 - yoe / 100 + doy
  era * 146097 + doe - 719468

/-- Reads a date-time written in the layout `2006-01-02 15:04:05` (without
fractional seconds) as UTC and gives its Unix time. -/
def parseLayout (s : String) : Option Int :=
  match s.toList with
  | [y1, y2, y3, y4, '-', m1, m2, '-', d1, d2, ' ', h1, h2, ':', n1, n2, ':', s1, s2] =>
    match twoDigits y1 y2, twoDigits y3 y4, twoDigits m1 m2, twoDigits d1 d2,
          twoDigits h1 h2, twoDigits n1 n2, twoDigits s1 s2 with
    | some yh, some yl, some m, some d, some h, some n, some sec =>
      let y := 100 * yh + yl
      if 1 ≤ m ∧ m ≤ 12 ∧ 1 ≤ d ∧ d ≤ daysIn y m ∧ h < 24 ∧ n < 60 ∧ sec < 60 then
        some (daysFromCivil y m d * 86400 + (h * 3600 + n * 60 + sec : Nat))
      else none
    | _, _, _, _, _, _, _ => none
  | _ => none

/-- The float operations on exact decimals. -/
def decimalOps : FloatOps Decimal where
  zero := ⟨0, 0⟩
  parseFloat := parseDecimal
  isZero := fun d => d.mant == 0
  toInt64 := fun d => Int.tdiv d.mant (10 ^ d.scale)
  toInt := fun d => Int.tdiv d.mant (10 ^ d.scale)
  jsonFloat := parseDecimal
  jsonInt64 := parseDigits
  parseTimeUnix := parseLayout

/-- The state made by `NewClient` at time `now` (the connection succeeding)
together with the initial values of the package variables. -/
def NewClient {F : Type} (now : Int) : State F :=
  { wampReaders := 0, session := 0, lastTimestamp := now, topicLastTimestamp := [],
    subscription := [], ticker := [], tickerUnsubscribed := { id := 0, closed := false },
    trollbox := [], trollboxUnsubscribed := { id := 1, closed := false },
    marketUpdaterInfos := [], nextChan := 2, trace := [] }

/-! ## Well-formed market sub-events

The sub-events the exchange documents, by the strings of their `data` object,
the bus value that carries each of them, and the update each of them stands
for. -/

/-- A documented sub-event of a market message. -/
inductive SubEvent where
  | orderBookModify (rate typeOrder amount : String) : SubEvent
  | orderBookRemove (rate typeOrder : String) : SubEvent
  | newTrade (tradeID rate amount date total typeOrder : String) : SubEvent
deriving DecidableEq, Repr

/-- The type discriminator of a sub-event. -/
def SubEvent.typeName : SubEvent → String
  | .orderBookModify _ _ _ => "orderBookModify"
  | .orderBookRemove _ _ => "orderBookRemove"
  | .newTrade _ _ _ _ _ _ => "newTrade"

/-- The bus value of a sub-event: the object with members `data` and `type`,
the members of each object in ascending key order. -/
def SubEvent.toValue {F : Type} : SubEvent → Value F
  | .orderBookModify rate typeOrder amount =>
    .obj [("data", .obj [("amount", .str amount), ("rate", .str rate),
                         ("type", .str typeOrder)]),
          ("type", .str "orderBookModify")]
  | .orderBookRemove rate typeOrder =>
    .obj [("data", .obj [("rate", .str rate), ("type", .str typeOrder)]),
          ("type", .str "orderBookRemove")]
  | .newTrade tradeID rate amount date total typeOrder =>
    .obj [("data", .obj [("amount", .str amount), ("date", .str date), ("rate", .str rate),
                         ("total", .str total), ("tradeID", .str tradeID),
                         ("type", .str typeOrder)]),
          ("type", .str "newTrade")]

/-- The number written in a quoted member: the string is a number literal. -/
def quotedNumber {α : Type} (parse : String → Option α) (s : String) : Option α :=
  if s = "null" then none else parse s

/-- The update a well-formed sub-event stands for: the variant of its type
holding the parsed values of its fields; `none` when a field is not well
formed. -/
def SubEvent.parsed {F : Type} (ops : FloatOps F) : SubEvent → Option (MarketUpdate F)
  | .orderBookModify rate typeOrder amount =>
    match quotedNumber ops.jsonFloat rate, quotedNumber ops.jsonFloat amount with
    | some r, some a =>
      some { Data := .modify { Rate := r, TypeOrder := typeOrder, Amount := a },
             TypeUpdate := "orderBookModify" }
    | _, _ => none
  | .orderBookRemove rate typeOrder =>
    match quotedNumber ops.jsonFloat rate with
    | some r =>
      some { Data := .remove { Rate := r, TypeOrder := typeOrder },
             TypeUpdate := "orderBookRemove" }
    | none => none
  | .newTrade tradeID rate amount date total typeOrder =>
    match quotedNumber ops.jsonInt64 tradeID, quotedNumber ops.jsonFloat rate,
          quotedNumber ops.jsonFloat amount, ops.parseTimeUnix date,
          quotedNumber ops.jsonFloat total with
    | some i, some r, some a, some d, some t =>
      some { Data := .trade { TradeId := i, Rate := r, Amount := a, Date := d, Total := t,
                              TypeOrder := typeOrder },
             TypeUpdate := "newTrade" }
    | _, _, _, _, _ => none

/-- The updates a list of well-formed sub-events stands for, in order. -/
def parsedAll {F : Type} (ops : FloatOps F) : List SubEvent → Option (List (MarketUpdate F))
  | [] => some []
  | e :: rest =>
    match e.parsed ops, parsedAll ops rest with
    | some u, some us => some (u :: us)
    | _, _ => none

/-! ## Topics by kind

The three adapters have the same shape; the definitions below select, for a
kind of topic, its subscribe and unsubscribe method, its signal and the
values sent on its channel. -/

/-- The subscribe method of a kind of topic. -/
def Subscribe {F : Type} (t : Closure) (now : Int) (busOk : Bool) (s : State F) :
    State F × Result ChannelRef :=
  match t with
  | .ticker => SubscribeTicker now busOk s
  | .trollbox => SubscribeTrollbox now busOk s
  | .market currencyPair => SubscribeMarket now busOk currencyPair s

/-- The unsubscribe method of a kind of topic. -/
def Unsubscribe {F : Type} (t : Closure) (busOk : Bool) (s : State F) :
    State F × Result Unit :=
  match t with
  | .ticker => UnsubscribeTicker busOk s
  | .trollbox => UnsubscribeTrollbox busOk s
  | .market currencyPair => UnsubscribeMarket busOk currencyPair s

/-- The unsubscribed signal of a topic (`none` for a pair without an entry in
`marketUpdaterInfos`). -/
def signalOf {F : Type} (t : Closure) (s : State F) : Option Signal :=
  match t with
  | .ticker => some s.tickerUnsubscribed
  | .trollbox => some s.trollboxUnsubscribed
  | .market currencyPair =>
    (mapGet s.marketUpdaterInfos currencyPair).map (fun info => info.unsubscribed)

/-- The values sent so far on the channel of a topic, each reduced to whether
it is the nil sentinel. -/
def sentOn {F : Type} (t : Closure) (s : State F) : List Bool :=
  match t with
  | .ticker => s.ticker.map Option.isNone
  | .trollbox => s.trollbox.map Option.isNone
  | .market currencyPair =>
    match mapGet s.marketUpdaterInfos currencyPair with
    | some info => info.updater.map Option.isNone
    | none => []

/-- The state after the successful calls subscribe, (unsubscribe, subscribe)
`n` times on one topic, the `i`-th subscribe reading the time `clock i`. -/
def alternate {F : Type} (t : Closure) (clock : Nat → Int) : Nat → State F → State F
  | 0, s => (Subscribe t (clock 0) true s).1
  | n + 1, s =>
    (Subscribe t (clock (n + 1)) true (Unsubscribe t true (alternate t clock n s)).1).1

/-! ## Traces of the monitor loops -/

/-- The actions of the loop of the reconnect branch over the stored closures:
for each entry the call of its closure and the bus call the closure makes. -/
def resubscribeAllTrace (subscribeOk : String → Bool) : List (String × Closure) → List Action
  | [] => []
  | (topic, subscribe) :: rest =>
    .resubscribe topic :: .busSubscribe subscribe.topic (subscribeOk subscribe.topic)
      :: resubscribeAllTrace subscribeOk rest

/-- The actions of the loop of the per-topic pass over the stale topics: the
log line, the call of the stored closure and its bus call; the loop ends at a
topic without a stored closure. -/
def resubscribeStaleTrace (subscription : List (String × Closure))
    (subscribeOk : String → Bool) : List (String × Int) → List Action
  | [] => []
  | (topic, _) :: rest =>
    match mapGet subscription topic with
    | none => [.logStale topic]
    | some subscribe =>
      .logStale topic :: .resubscribe topic
        :: .busSubscribe subscribe.topic (subscribeOk subscribe.topic)
        :: resubscribeStaleTrace subscription subscribeOk rest

/-- The actions of the connect attempts of a reconnect that succeeds at its
`n`-th attempt. -/
def connectTrace (n : Nat) : List Action :=
  List.replicate (n - 1) (.busConnect false) ++ [.busConnect true]

/-- Whether the per-topic pass at time `now` finds the topic stale. -/
def topicStale {F : Type} (conf : Conf) (now : Int) (s : State F) (topic : String) : Bool :=
  match mapGet s.topicLastTimestamp topic with
  | some timestamp => decide (now - timestamp > topicTimeout conf)
  | none => false

/-! ## Sample client and surroundings

Concrete inputs on which the theorems are evaluated. -/

/-- A client made at time 0 and subscribed at once to the ticker, the trollbox
and the pair `BTC_ETH`. -/
def sampleClient : State Decimal :=
  (SubscribeMarket 0 true "BTC_ETH"
    (SubscribeTrollbox 0 true (SubscribeTicker 0 true (NewClient 0)).1).1).1

/-- A configuration with a global timeout of 60 seconds and a topic timeout of
2 minutes. -/
def sampleConf : Conf :=
  { TimeoutSec := 60, TopicTimeoutMin := 2 }

/-- Surroundings of a monitor cycle at time `now`: the close succeeds, the
first connect attempt fails and the second succeeds, the bus rejects the
subscribe call for the ticker and accepts the others. -/
def sampleEnv (now : Int) : CycleEnv :=
  { now := now, closeOk := true, connectOk := fun i => decide (1 ≤ i),
    subscribeOk := fun topic => decide (topic ≠ TICKER) }

/-- The ticker payload of the specification. -/
def samplePayload : List (Value Decimal) :=
  [.str "BTC_ETH", .str "0.05", .str "0.051", .str "0.049", .str "0.01", .str "100.0",
   .str "2000.0", .num ⟨0, 0⟩, .str "0.06", .str "0.04"]

/-! ## Batches with sub-events of an unknown type -/

/-- Whether a type discriminator is one of the three documented ones. -/
def isDocumentedType (typeUpdate : String) : Bool :=
  typeUpdate = "orderBookModify" || typeUpdate = "orderBookRemove" || typeUpdate = "newTrade"

/-- Whether a value is the JSON `null`. -/
def Value.isNull {F : Type} : Value F → Bool
  | .null => true
  | _ => false

/-- An element of a market message: a documented sub-event, or an object whose
type discriminator is some other string, with its `data` member. -/
inductive BatchItem (F : Type) where
  | known (e : SubEvent) : BatchItem F
  | unknown (typeUpdate : String) (data : Value F) : BatchItem F

/-- The bus value of an element of a market message. -/
def BatchItem.toValue {F : Type} : BatchItem F → Value F
  | .known e => e.toValue
  | .unknown typeUpdate data => .obj [("data", data), ("type", .str typeUpdate)]

/-- The update an element of a market message stands for: a documented
sub-event gives its parsed variant, an element of another type with a `data`
member other than `null` gives that member undecoded. -/
def BatchItem.parsed {F : Type} (ops : FloatOps F) : BatchItem F → Option (MarketUpdate F)
  | .known e => e.parsed ops
  | .unknown typeUpdate data =>
    if isDocumentedType typeUpdate || data.isNull then none
    else some { Data := .raw (some data), TypeUpdate := typeUpdate }

/-- The updates a list of elements stands for, in order. -/
def parsedItems {F : Type} (ops : FloatOps F) :
    List (BatchItem F) → Option (List (MarketUpdate F))
  | [] => some []
  | item :: rest =>
    match item.parsed ops, parsedItems ops rest with
    | some u, some us => some (u :: us)
    | _, _ => none

/-! ## Well-formed elements of a ticker payload -/

/-- Whether the element `v` at index `i` of a ticker payload has the type and
content the decoder asks for: a string at index 0, a number at index 7, a
string accepted by `strconv.ParseFloat` at the other indices. -/
def tickElementOk {F : Type} (ops : FloatOps F) (i : Nat) (v : Value F) : Bool :=
  if i = 0 then
    match v with
    | .str _ => true
    | _ => false
  else if i = 7 then
    match v with
    | .num _ => true
    | _ => false
  else
    match v with
    | .str s => (ops.parseFloat s).isSome
    | _ => false

/-! ## The library call `time.Parse` for the layout of `NewTrade.UnmarshalJSON`

A model of `time.Parse("2006-01-02 15:04:05", s)` followed by `Unix()`, after
the parser of package `time` (as in current Go releases): the layout is read
chunk by chunk; the year takes four digits; month, day, minute and second take
two digits each, the hour one or two; the space of the layout stands for a run
of spaces; a fractional second may follow the seconds although the layout has
none ("when parsing (only), the input may contain a fractional second field
immediately after the seconds field, even if the layout does not signify its
presence"); the date is read as UTC. -/

/-- The function `cutspace` of package `time`: drops the leading spaces. -/
def cutspace : List Char → List Char
  | [] => []
  | c :: cs => if c = ' ' then cutspace cs else c :: cs

/-- The function `getnum` of package `time`: reads one or two decimal digits,
two being required when `fixed` is set. -/
def getnum (fixed : Bool) : List Char → Option (Nat × List Char)
  | [] => none
  | [a] =>
    match digitVal a with
    | some x => if fixed then none else some (x, [])
    | none => none
  | a :: b :: rest =>
    match digitVal a, digitVal b with
    | some x, some y => some (10 * x + y, rest)
    | some x, none => if fixed then none else some (x, b :: rest)
    | none, _ => none

/-- A literal character of the layout, other than the space. -/
def expectChar (c : Char) : List Char → Option (List Char)
  | [] => none
  | d :: rest => if d = c then some rest else none

/-- The space of the layout: the value has to go on with one or more spaces
(an empty rest fails at the hour that follows). -/
def expectSpaces : List Char → Option (List Char)
  | [] => none
  | d :: rest => if d = ' ' then some (cutspace rest) else none

/-- The special case after the seconds: a period or comma followed by a digit
starts a fractional second, which is read up to its last digit. -/
def skipFraction : List Char → List Char
  | c :: d :: rest =>
    if (c = '.' ∨ c = ',') ∧ d.isDigit = true then rest.dropWhile Char.isDigit
    else c :: d :: rest
  | cs => cs

/-- The chunks `-01-02 ` of the layout: month, day and the rest of the value
after the spaces. -/
def parseMonthDay (v0 : List Char) : Option (Nat × Nat × List Char) :=
  (expectChar '-' v0).bind fun v1 =>
  (getnum true v1).bind fun mv =>
  (expectChar '-' mv.2).bind fun v3 =>
  (getnum true v3).bind fun dv =>
  (expectSpaces dv.2).bind fun v5 =>
  some (mv.1, dv.1, v5)

/-- The chunks `15:04:05` of the layout with the optional fractional second,
up to the end of the value: hour, minute and second. -/
def parseClock (v5 : List Char) : Option (Nat × Nat × Nat) :=
  (getnum false v5).bind fun hv =>
  (expectChar ':' hv.2).bind fun v7 =>
  (getnum true v7).bind fun nv =>
  (expectChar ':' nv.2).bind fun v9 =>
  (getnum true v9).bind fun sv =>
  match skipFraction sv.2 with
  | [] => some (hv.1, nv.1, sv.1)
  | _ :: _ => none

/-- The range checks of the parser and the Unix time of the UTC date. -/
def unixOfDate (y m d h n sec : Nat) : Option Int :=
  if 1 ≤ m ∧ m ≤ 12 ∧ 1 ≤ d ∧ d ≤ daysIn y m ∧ h < 24 ∧ n < 60 ∧ sec < 60 then
    some (daysFromCivil y m d * 86400 + (h * 3600 + n * 60 + sec : Nat))
  else none

/-- The calls `time.Parse("2006-01-02 15:04:05", s)` and `Unix()`: `none` when
the parse returns an error. -/
def timeParseUnix (s : String) : Option Int :=
  match s.toList with
  | y1 :: y2 :: y3 :: y4 :: v0 =>
    match twoDigits y1 y2, twoDigits y3 y4, parseMonthDay v0 with
    | some yh, some yl, some (m, d, v5) =>
      match parseClock v5 with
      | some (h, n, sec) => unixOfDate (100 * yh + yl) m d h n sec
      | none => none
    | _, _, _ => none
  | _ => none

/-- The float operations on exact decimals with the model of `time.Parse`. -/
def goTimeOps : FloatOps Decimal :=
  { decimalOps with parseTimeUnix := timeParseUnix }

/-- The `data` object of a trade, the members in ascending key order. -/
def newTradeData {F : Type} (tradeID rate amount date total typeOrder : String) : Value F :=
  .obj [("amount", .str amount), ("date", .str date), ("rate", .str rate),
        ("total", .str total), ("tradeID", .str tradeID), ("type", .str typeOrder)]

/-- The `data` object of a trade without its `date` member. -/
def newTradeDataNoDate {F : Type} (tradeID rate amount total typeOrder : String) : Value F :=
  .obj [("amount", .str amount), ("rate", .str rate), ("total", .str total),
        ("tradeID", .str tradeID), ("type", .str typeOrder)]

/-- The zero value of `NewTrade`, into which `convertArgsToMarketUpdateSlice`
decodes. -/
def NewTrade.zero {F : Type} (ops : FloatOps F) : NewTrade F :=
  { TradeId := 0, Rate := ops.zero, Amount := ops.zero, Date := 0, Total := ops.zero,
    TypeOrder := "" }

/-! ## Handlers by kind of topic -/

/-- The handler of a kind of topic, applied to a message (`kwargs` is read by
the market handler only). -/
def handle {F : Type} (ops : FloatOps F) (t : Closure) (now : Int) (env : SelectEnv)
    (args : List (Value F)) (kwargs : List (String × Value F)) (s : State F) :
    State F × Handled :=
  match t with
  | .ticker => tickerHandler ops now env args s
  | .trollbox => trollboxHandler ops now env args s
  | .market currencyPair => marketHandler ops currencyPair now env args kwargs s

/-- Whether the handler of a kind of topic gets as far as its `select` on a
message, that is has an event to deliver: the payload decodes, and for a
market message `seq` is a number and the positional list is not empty. -/
def attemptsDelivery {F : Type} (ops : FloatOps F) (t : Closure) (args : List (Value F))
    (kwargs : List (String × Value F)) : Bool :=
  match t with
  | .ticker => (convertArgsToTick ops args).isOk
  | .trollbox => (convertArgsToTrollboxMessage ops args).isOk
  | .market _ =>
    match mapGet kwargs "seq" with
    | some (.num _) => decide (args.length ≠ 0) && (convertArgsToMarketUpdateSlice ops args).isOk
    | _ => false

/-! ## Sequences of registry calls -/

/-- A call of one of the three registry methods. -/
inductive RegistryCall where
  | add (now : Int) (topic : String) (subscribe : Closure) : RegistryCall
  | remove (topic : String) : RegistryCall
  | update (now : Int) (topic : String) : RegistryCall
deriving DecidableEq, Repr

/-- The state after a registry call. -/
def RegistryCall.apply {F : Type} (c : RegistryCall) (s : State F) : State F :=
  match c with
  | .add now topic subscribe => addSubscription now topic subscribe s
  | .remove topic => removeSubscription topic s
  | .update now topic => updateTopicTimestamp now topic s

/-- The state after a sequence of registry calls, made in order. -/
def applyCalls {F : Type} (calls : List RegistryCall) (s : State F) : State F :=
  calls.foldl (fun acc c => c.apply acc) s

/-- The state a monitor cycle leaves (the state itself when the connect
attempts followed all failed). -/
def afterCycle {F : Type} (conf : Conf) (timeout : Int) (env : CycleEnv) (fuel : Nat)
    (s : State F) : State F :=
  match autoReconnectCycle conf timeout env fuel s with
  | some r => r.1
  | none => s

/-! ## A ticker message in flight during an unsubscribe -/

/-- The trollbox payload of the documentation. -/
def sampleTrollboxPayload : List (Value Decimal) :=
  [.str "trollboxMessage", .num ⟨2094211, 0⟩, .str "boxOfTroll", .str "Trololol",
   .num ⟨4, 0⟩]

/-- The state of a client after `UnsubscribeTicker`, a ticker message that was
still in flight and is handled at time `late` while nobody receives, and a
trollbox message delivered at time `last`. -/
def afterLateTicker (late last : Int) (s : State Decimal) : State Decimal :=
  (trollboxHandler decimalOps last { consumer := true, pickSend := true }
    sampleTrollboxPayload
    (tickerHandler decimalOps late { consumer := false, pickSend := false } samplePayload
      (UnsubscribeTicker true s).1).1).1

/-- The sample client after a ticker message delivered at 170 seconds. -/
def activeTickerClient : State Decimal :=
  (tickerHandler decimalOps (170 * Second) { consumer := true, pickSend := true }
    samplePayload sampleClient).1

end Pushapi

namespace Publicapi

open Pushapi

/-! ## Currencies (`publicapi/currency.go`) -/

/-- The struct `Currency`. -/
structure Currency (F : Type) where
  Id : Int
  Name : String
  TxFee : F
  MinConf : Int
  DepositAddress : String
  Disabled : Bool
  Delisted : Bool
  Frozen : Bool

/-- The type `Currencies`, a Go map from currency code to `*Currency`, kept as
an association list; a pointer is the value it points to, which `Filter` only
reads. -/
abbrev Currencies (F : Type) : Type := List (String × Currency F)

/-- The method `Filter`: the loop over the collection stores in the new map
`res` every entry whose currency satisfies `f`. -/
def Currencies.Filter {F : Type} (collection : Currencies F) (f : Currency F → Bool) :
    Currencies F :=
  collection.foldl (fun res kv => if f kv.2 then mapSet res kv.1 kv.2 else res) []

/-- A collection of three currencies, the second one disabled and the third
one delisted and frozen. -/
def sampleCurrencies : Currencies Decimal :=
  [("1CR", { Id := 1, Name := "1CRedit", TxFee := ⟨1, 2⟩, MinConf := 3, DepositAddress := "",
             Disabled := false, Delisted := false, Frozen := false }),
   ("ABY", { Id := 2, Name := "ArtByte", TxFee := ⟨1, 2⟩, MinConf := 8, DepositAddress := "",
             Disabled := true, Delisted := false, Frozen := false }),
   ("AC", { Id := 3, Name := "AsiaCoin", TxFee := ⟨1, 2⟩, MinConf := 15, DepositAddress := "",
            Disabled := false, Delisted := true, Frozen := true })]

/-! ## Chart data (`publicapi/chartdata.go`) -/

/-- The struct `CandleStick`. -/
structure CandleStick (F : Type) where
  Date : Int
  High : F
  Low : F
  Open : F
  Close : F
  Volume : F
  QuoteVolume : F
  WeighedtAverage : F

/-- The type `ChartData`, a slice of `*CandleStick` (`none` is a nil pointer). -/
abbrev ChartData (F : Type) : Type := List (Option (CandleStick F))

/-- The call `strconv.Itoa(n)`, also the verb `%d` of `fmt.Errorf`: the decimal
string of an integer. -/
def Itoa (n : Int) : String :=
  toString n

/-- What surrounds a method of the public API client: the library function
`strings.ToUpper`, the method `client.do` (the response body, or the message
of the error it returns, for a map of parameters), and `json.Unmarshal` of a
response body into a `ChartData`. -/
structure Surroundings (F : Type) where
  ToUpper : String → String
  clientDo : List (String × String) → Except String String
  unmarshalChartData : String → Except String (ChartData F)

/-- What a method of the public API client does: the parameter maps it hands
to `client.do`, in order, and the value or the error message it returns. -/
structure Outcome (α : Type) where
  requests : List (List (String × String))
  result : Except String α

/-- The method `GetChartData`; `start` and `stop` are the readings `Unix()` of
its two `time.Time` arguments. -/
def GetChartData {F : Type} (env : Surroundings F) (currencyPair : String) (start stop : Int)
    (period : Int) : Outcome (ChartData F) :=
  if period = 300 ∨ period = 900 ∨ period = 1800 ∨ period = 7200 ∨ period = 14400
      ∨ period = 86400 then
    let params : List (String × String) :=
      [("command", "returnChartData"),
       ("currencyPair", env.ToUpper currencyPair),
       ("start", Itoa start),
       ("end", Itoa stop),
       ("period", Itoa period)]
    match env.clientDo params with
    | .error err => { requests := [params], result := .error ("PublicClient.do: " ++ err) }
    | .ok resp =>
      match env.unmarshalChartData resp with
      | .error err => { requests := [params], result := .error ("json.Unmarshal: " ++ err) }
      | .ok res => { requests := [params], result := .ok res }
  else { requests := [], result := .error ("Wrong period parameter: " ++ Itoa period) }

/-- The candlestick periods, in seconds, that the exchange documents. -/
def validPeriods : List Int :=
  [300, 900, 1800, 7200, 14400, 86400]

/-- Surroundings in which `strings.ToUpper` is evaluated on ASCII text, the
exchange answers every request with an empty array and the array decodes. -/
def sampleSurroundings : Surroundings Decimal :=
  { ToUpper := fun s => String.mk (s.toList.map Char.toUpper),
    clientDo := fun _ => .ok "[]",
    unmarshalChartData := fun _ => .ok [] }

/-! ## Order books and tickers (`publicapi/orderbook.go`, `publicapi/ticker.go`) -/

/-- The folding of a character by which `encoding/json` compares an object key
with a field name: the case of ASCII letters is ignored, and the long s and
the Kelvin sign count as `s` and `k`. -/
def foldRune (c : Char) : Char :=
  if c = Char.ofNat 0x017F then 's'
  else if c = Char.ofNat 0x212A then 'k'
  else c.toLower

/-- Whether `encoding/json` stores the member with key `key` in the field
named `name`. -/
def fieldMatches (name key : String) : Bool :=
  key.toList.map foldRune == name.toList.map foldRune

/-- The library operation of `encoding/json` on a bare number literal stored
in an integer field. -/
structure NumberOps (F : Type) where
  /-- The integer stored in an `int` or `int64` field for a number literal:
  `none` when the literal has a fraction or an exponent or is out of range. -/
  toInt : F → Option Int

/-- Storing a JSON value in an `int` or `int64` field: a number literal that
is an integer is stored, `null` leaves the field as it is. -/
def storeInt {F : Type} (nops : NumberOps F) (field : String) (cur : Int) :
    Value F → Result Int
  | .num x =>
    match nops.toInt x with
    | some n => .ok n
    | none => .error (.json field)
  | .null => .ok cur
  | _ => .error (.json field)

/-- The struct `Order`. -/
structure Order (F : Type) where
  Rate : F
  Quantity : F

/-- The struct `OrderBook`; a nil pointer in a slice is `none`. -/
structure OrderBook (F : Type) where
  Asks : List (Option (Order F))
  Bids : List (Option (Order F))
  IsFrozen : Bool
  Seq : Int

/-- The method `Order.UnmarshalJSON`: the array is decoded into the slice
`tmp` of the two pointers `&rateStr` and `&o.Quantity`, which then has as many
elements as the array; the rate string is parsed afterwards. -/
def Order.UnmarshalJSON {F : Type} (ops : FloatOps F) (o : Order F) (data : Value F) :
    Result (Order F) :=
  match data with
  | .arr xs =>
    let rateStr : Result String :=
      match xs.get? 0 with
      | none => .ok ""
      | some v => storeString "rate" "" v
    let quantity : Result F :=
      match xs.get? 1 with
      | none => .ok o.Quantity
      | some (.num x) => .ok x
      | some .null => .ok o.Quantity
      | some _ => .error (.json "quantity")
    rateStr.bind (fun rate =>
      quantity.bind (fun q =>
        if xs.length ≠ 2 then .error (.json "wrong number of fields in Order")
        else
          match ops.parseFloat rate with
          | some val => .ok { Rate := val, Quantity := q }
          | none => .error (.parseFloat "rate")))
  | .null => .error (.json "wrong number of fields in Order")
  | _ => .error (.json "Order")

/-- Decoding the elements of a JSON array into a new slice of `*Order`: a
`null` gives a nil pointer, any other element goes to `Order.UnmarshalJSON`. -/
def decodeOrderList {F : Type} (ops : FloatOps F) : List (Value F) →
    Result (List (Option (Order F)))
  | [] => .ok []
  | .null :: rest => (decodeOrderList ops rest).bind (fun os => .ok (none :: os))
  | v :: rest =>
    (Order.UnmarshalJSON ops { Rate := ops.zero, Quantity := ops.zero } v).bind (fun o =>
      (decodeOrderList ops rest).bind (fun os => .ok (some o :: os)))

/-- Storing a JSON value in a field of type `[]*Order` of a new order book: an
array is decoded element by element, `null` gives the nil slice. -/
def storeOrders {F : Type} (ops : FloatOps F) (field : String) :
    Value F → Result (List (Option (Order F)))
  | .arr xs => decodeOrderList ops xs
  | .null => .ok []
  | _ => .error (.json field)

/-- The local struct `aux` of `OrderBook.UnmarshalJSON`: the `IsFrozen` string
next to the embedded order book, whose own `IsFrozen` field it shadows. -/
structure OrderBookAux (F : Type) where
  IsFrozen : String
  aliased : OrderBook F

/-- One member of the JSON object decoded into `aux`. -/
def OrderBookAux.member {F : Type} (ops : FloatOps F) (nops : NumberOps F)
    (aux : OrderBookAux F) (kv : String × Value F) : Result (OrderBookAux F) :=
  if fieldMatches "IsFrozen" kv.1 then
    (storeString "IsFrozen" aux.IsFrozen kv.2).bind (fun x => .ok { aux with IsFrozen := x })
  else if fieldMatches "asks" kv.1 then
    (storeOrders ops "asks" kv.2).bind
      (fun x => .ok { aux with aliased := { aux.aliased with Asks := x } })
  else if fieldMatches "bids" kv.1 then
    (storeOrders ops "bids" kv.2).bind
      (fun x => .ok { aux with aliased := { aux.aliased with Bids := x } })
  else if fieldMatches "Seq" kv.1 then
    (storeInt nops "Seq" aux.aliased.Seq kv.2).bind
      (fun x => .ok { aux with aliased := { aux.aliased with Seq := x } })
  else .ok aux

/-- The method `OrderBook.UnmarshalJSON`, on a new order book `o`. -/
def OrderBook.UnmarshalJSON {F : Type} (ops : FloatOps F) (nops : NumberOps F)
    (o : OrderBook F) (data : Value F) : Result (OrderBook F) :=
  (unmarshalStruct "OrderBook" (OrderBookAux.member ops nops)
      { IsFrozen := "", aliased := o } data).bind
    (fun aux =>
      if aux.IsFrozen ≠ "0" then .ok { aux.aliased with IsFrozen := false }
      else .ok { aux.aliased with IsFrozen := true })

/-- The struct `Tick` of `publicapi/ticker.go`. -/
structure Tick (F : Type) where
  Id : Int
  Last : F
  LowestAsk : F
  HighestBid : F
  PercentChange : F
  BaseVolume : F
  QuoteVolume : F
  IsFrozen : Bool
  High24hr : F
  Low24hr : F

/-- The local struct `aux` of `Tick.UnmarshalJSON`. -/
structure TickAux (F : Type) where
  IsFrozen : String
  aliased : Tick F

/-- One member of the JSON object decoded into `aux`. -/
def TickAux.member {F : Type} (ops : FloatOps F) (nops : NumberOps F) (aux : TickAux F)
    (kv : String × Value F) : Result (TickAux F) :=
  if fieldMatches "IsFrozen" kv.1 then
    (storeString "IsFrozen" aux.IsFrozen kv.2).bind (fun x => .ok { aux with IsFrozen := x })
  else if fieldMatches "id" kv.1 then
    (storeInt nops "id" aux.aliased.Id kv.2).bind
      (fun x => .ok { aux with aliased := { aux.aliased with Id := x } })
  else if fieldMatches "last" kv.1 then
    (storeQuotedFloat ops "last" aux.aliased.Last kv.2).bind
      (fun x => .ok { aux with aliased := { aux.aliased with Last := x } })
  else if fieldMatches "lowestAsk" kv.1 then
    (storeQuotedFloat ops "lowestAsk" aux.aliased.LowestAsk kv.2).bind
      (fun x => .ok { aux with aliased := { aux.aliased with LowestAsk := x } })
  else if fieldMatches "highestBid" kv.1 then
    (storeQuotedFloat ops "highestBid" aux.aliased.HighestBid kv.2).bind
      (fun x => .ok { aux with aliased := { aux.aliased with HighestBid := x } })
  else if fieldMatches "percentChange" kv.1 then
    (storeQuotedFloat ops "percentChange" aux.aliased.PercentChange kv.2).bind
      (fun x => .ok { aux with aliased := { aux.aliased with PercentChange := x } })
  else if fieldMatches "baseVolume" kv.1 then
    (storeQuotedFloat ops "baseVolume" aux.aliased.BaseVolume kv.2).bind
      (fun x => .ok { aux with aliased := { aux.aliased with BaseVolume := x } })
  else if fieldMatches "quoteVolume" kv.1 then
    (storeQuotedFloat ops "quoteVolume" aux.aliased.QuoteVolume kv.2).bind
      (fun x => .ok { aux with aliased := { aux.aliased with QuoteVolume := x } })
  else if fieldMatches "high24hr" kv.1 then
    (storeQuotedFloat ops "high24hr" aux.aliased.High24hr kv.2).bind
      (fun x => .ok { aux with aliased := { aux.aliased with High24hr := x } })
  else if fieldMatches "low24hr" kv.1 then
    (storeQuotedFloat ops "low24hr" aux.aliased.Low24hr kv.2).bind
      (fun x => .ok { aux with aliased := { aux.aliased with Low24hr := x } })
  else .ok aux

/-- The method `Tick.UnmarshalJSON`. -/
def Tick.UnmarshalJSON {F : Type} (ops : FloatOps F) (nops : NumberOps F) (t : Tick F)
    (data : Value F) : Result (Tick F) :=
  (unmarshalStruct "Tick" (TickAux.member ops nops) { IsFrozen := "", aliased := t } data).bind
    (fun aux =>
      if aux.IsFrozen ≠ "0" then .ok { aux.aliased with IsFrozen := true }
      else .ok { aux.aliased with IsFrozen := false })

/-- The integer of an exact decimal without decimal places. -/
def decimalNumberOps : NumberOps Decimal :=
  { toInt := fun x => if x.scale = 0 then some x.mant else none }

/-- The value `OrderBook{}`. -/
def OrderBook.zero {F : Type} : OrderBook F :=
  { Asks := [], Bids := [], IsFrozen := false, Seq := 0 }

/-- The value `Tick{}`. -/
def Tick.zero {F : Type} (ops : FloatOps F) : Tick F :=
  { Id := 0, Last := ops.zero, LowestAsk := ops.zero, HighestBid := ops.zero,
    PercentChange := ops.zero, BaseVolume := ops.zero, QuoteVolume := ops.zero,
    IsFrozen := false, High24hr := ops.zero, Low24hr := ops.zero }

/-- An order-book response of the documented shape with the given `isFrozen`
wire string. -/
def orderBookResponse {F : Type} (asks bids : Value F) (isFrozen : String) (seq : F) :
    Value F :=
  .obj [("asks", asks), ("bids", bids), ("isFrozen", .str isFrozen), ("seq", .num seq)]

/-- The sample order book of the documentation of `GetOrderBook`, with the
given `isFrozen` wire string. -/
def sampleOrderBook (isFrozen : String) : Value Decimal :=
  orderBookResponse
    (.arr [.arr [.str "0.00001315", .num ⟨3693709233522, 8⟩],
           .arr [.str "0.00001332", .num ⟨8365874, 3⟩]])
    (.arr [.arr [.str "0.00001311", .num ⟨600600485372, 8⟩],
           .arr [.str "0.00001309", .num ⟨660296320483, 8⟩]])
    isFrozen ⟨28233022, 0⟩

/-- The sample ticker entry of the documentation of `GetTickers`, with the
given `isFrozen` wire string. -/
def sampleTick (isFrozen : String) : Value Decimal :=
  .obj [("id", .num ⟨6, 0⟩), ("last", .str "0.00024306"), ("lowestAsk", .str "0.00024306"),
        ("highestBid", .str "0.00024305"), ("percentChange", .str "-0.10662697"),
        ("baseVolume", .str "21.86898934"), ("quoteVolume", .str "85944.61508131"),
        ("isFrozen", .str isFrozen), ("high24hr", .str "0.00027359"),
        ("low24hr", .str "0.00023653")]

/-- The field `IsFrozen` that `OrderBook.UnmarshalJSON` leaves in a new order
book (`none` when it returns an error). -/
def orderBookFrozen {F : Type} (ops : FloatOps F) (nops : NumberOps F) (data : Value F) :
    Option Bool :=
  match OrderBook.UnmarshalJSON ops nops OrderBook.zero data with
  | .ok r => some r.IsFrozen
  | _ => none

/-- The field `IsFrozen` that `Tick.UnmarshalJSON` leaves in a new tick. -/
def tickFrozen {F : Type} (ops : FloatOps F) (nops : NumberOps F) (data : Value F) :
    Option Bool :=
  match Tick.UnmarshalJSON ops nops (Tick.zero ops) data with
  | .ok r => some r.IsFrozen
  | _ => none

end Publicapi

namespace Tradingapi

open Pushapi

/-! ## Forms and their encoding (`net/url`, `encoding/hex`) -/

/-- The type `url.Values`, a Go map from a key to its list of values, kept as
an association list. -/
abbrev Values : Type := List (String × List String)

/-- The method `Values.Add`: `v[key] = append(v[key], value)`. -/
def Values.Add (v : Values) (key value : String) : Values :=
  mapSet v key ((mapGet v key).getD [] ++ [value])

/-- The method `Values.Get`: the first value of the key, or the empty string. -/
def Values.Get (v : Values) (key : String) : String :=
  match mapGet v key with
  | some (x :: _) => x
  | _ => ""

/-- The order of `sort.Strings` on the characters of two strings: a proper
prefix comes first, otherwise the first differing character decides. -/
def keyLess : List Char → List Char → Bool
  | _, [] => false
  | [], _ :: _ => true
  | a :: as, b :: bs => decide (a.toNat < b.toNat) || (decide (a.toNat = b.toNat) && keyLess as bs)

/-- Inserts a key in an ascending list of keys. -/
def insertKey (k : String) : List String → List String
  | [] => [k]
  | x :: xs => if keyLess k.toList x.toList then k :: x :: xs else x :: insertKey k xs

/-- The call `sort.Strings(keys)`. -/
def sortStrings : List String → List String
  | [] => []
  | k :: ks => insertKey k (sortStrings ks)

/-- The keys of a form in the order of `sort.Strings`. -/
def sortedKeys (v : Values) : List String :=
  sortStrings (mapKeys v)

/-- The parameters `key=value` that `Values.Encode` writes: the keys in
ascending order, the values of a key in their order, key and value escaped. -/
def Values.parameters (escape : String → String) (v : Values) : List String :=
  (sortedKeys v).flatMap
    (fun k => ((mapGet v k).getD []).map (fun x => escape k ++ "=" ++ escape x))

/-- Strings joined by `&`. -/
def joinAmp : List String → String
  | [] => ""
  | [x] => x
  | x :: y :: rest => x ++ "&" ++ joinAmp (y :: rest)

/-- The method `Values.Encode`. -/
def Values.Encode (escape : String → String) (v : Values) : String :=
  joinAmp (v.parameters escape)

/-- A lower-case hexadecimal digit. -/
def hexDigit (n : Nat) : Char :=
  "0123456789abcdef".toList.getD n '0'

/-- The function `hex.EncodeToString` on a list of bytes (numbers below 256). -/
def EncodeToString (bytes : List Nat) : String :=
  String.mk (bytes.flatMap (fun b => [hexDigit (b / 16), hexDigit (b % 16)]))

/-- The function `strconv.Itoa`. -/
def Itoa (n : Int) : String :=
  toString n

/-- The bytes of the UTF-8 encoding of a character. -/
def utf8Bytes (c : Char) : List Nat :=
  let n := c.toNat
  if n < 128 then [n]
  else if n < 2048 then [192 + n / 64, 128 + n % 64]
  else if n < 65536 then [224 + n / 4096, 128 + n / 64 % 64, 128 + n % 64]
  else [240 + n / 262144, 128 + n / 4096 % 64, 128 + n / 64 % 64, 128 + n % 64]

/-- An upper-case hexadecimal digit. -/
def upperHexDigit (n : Nat) : Char :=
  "0123456789ABCDEF".toList.getD n '0'

/-- The function `url.QueryEscape`: letters, digits and the characters
`-`, `_`, `.`, `~` are kept, a space becomes `+`, every other byte is written
as `%` and two hexadecimal digits. -/
def QueryEscape (s : String) : String :=
  String.mk (s.toList.flatMap (fun c =>
    if c.isAlphanum || c = '-' || c = '_' || c = '.' || c = '~' then [c]
    else if c = ' ' then ['+']
    else (utf8Bytes c).flatMap (fun b => ['%', upperHexDigit (b / 16), upperHexDigit (b % 16)])))

/-! ## The trading client (`tradingapi/tradingapi.go`) -/

/-- The library functions used by the trading client: `url.QueryEscape`; the
error of `Write` and the bytes of `Sum(nil)` of the HMAC-SHA512 of a message
under a key; and the reading of a JSON text by `json.Unmarshal` (`none` for a
text that is not valid JSON). -/
structure Library (F : Type) where
  QueryEscape : String → String
  hmacWrite : String → String → Option String
  hmacSum : String → String → List Nat
  Unmarshal : String → Option (Value F)

/-- The function `strings.Contains` on lists of characters. -/
def hasInfix : List Char → List Char → Bool
  | [], sub => sub.isEmpty
  | c :: cs, sub => sub.isPrefixOf (c :: cs) || hasInfix cs sub

/-- The function `strings.Contains`. -/
def Contains (s substr : String) : Bool :=
  hasInfix s.toList substr.toList

/-- The struct `APIError`. -/
structure APIError where
  Err : String
deriving DecidableEq, Repr

/-- One member of the JSON object decoded into an `APIError`. -/
def APIError.member {F : Type} (ae : APIError) (kv : String × Value F) : Result APIError :=
  if keyMatches "error" kv.1 then
    (storeString "error" ae.Err kv.2).bind (fun x => .ok { ae with Err := x })
  else .ok ae

/-- The function `checkAPIError`: the message of the error it returns, `none`
when it returns nil. -/
def checkAPIError {F : Type} (lib : Library F) (body : String) : Option String :=
  if ¬ Contains body "\"error\":" then none
  else
    match lib.Unmarshal body with
    | none => none
    | some v =>
      match unmarshalStruct "APIError" APIError.member { Err := "" } v with
      | .ok ae => some ("API error: " ++ ae.Err)
      | _ => none

/-- The function `signForm`: the signature, or the message of the error. -/
def signForm {F : Type} (lib : Library F) (form : Values) (apiSecret : String) :
    Except String String :=
  match lib.hmacWrite apiSecret (Values.Encode lib.QueryEscape form) with
  | some err => .error ("hash.Hash.Write: " ++ err)
  | none =>
    .ok (EncodeToString (lib.hmacSum apiSecret (Values.Encode lib.QueryEscape form)))

/-- The struct `Client`, the two fields read by `do`. -/
structure Client where
  apiKey : String
  apiSecret : String
deriving DecidableEq, Repr

/-- An HTTP request as `do` builds it. -/
structure Request where
  method : String
  url : String
  body : String
  header : List (String × String)
deriving DecidableEq, Repr

/-- What `httpClient.Do` and `ioutil.ReadAll` give for a request: an error of
the exchange, or a response with its status code, status line, the body read
and the error of the read. -/
inductive Exchange where
  | failed (err : String) : Exchange
  | answered (statusCode : Nat) (status : String) (body : String)
      (readErr : Option String) : Exchange
deriving DecidableEq, Repr

/-- What surrounds a call of `do`: the reading of `time.Now().UnixNano()`, the
configured URL, the error of `http.NewRequest` (`none` when it succeeds), and
the outcome of the HTTP exchange for the request. -/
structure CallEnv where
  now : Int
  APIUrl : String
  newRequestErr : Option String
  exchange : Request → Exchange

/-- What a call of `do` leaves: the value `int(nonce)` of its local variable;
the form of the caller, to which the nonce was added; the request handed to
`httpClient.Do`, if any; and the two results, the body (`none` is nil) and the
message of the error (`none` is nil). -/
structure DoResult where
  nonce : Int
  form : Values
  sent : Option Request
  body : Option String
  err : Option String
deriving DecidableEq, Repr

/-- The method `do` of the trading client (`int` has 64 bits). -/
def Client.doCall {F : Type} (lib : Library F) (c : Client) (env : CallEnv) (form : Values) :
    DoResult :=
  let nonce := env.now
  let form1 := Values.Add form "nonce" (Itoa nonce)
  match env.newRequestErr with
  | some err =>
    { nonce := nonce, form := form1, sent := none, body := none,
      err := some ("http.NewRequest: " ++ err ++ " (API command: "
        ++ Values.Get form1 "command" ++ ")") }
  | none =>
    let req : Request :=
      { method := "POST", url := env.APIUrl, body := Values.Encode lib.QueryEscape form1,
        header := [("Content-Type", "application/x-www-form-urlencoded"),
                   ("Accept", "application/json"), ("Key", c.apiKey)] }
    match signForm lib form1 c.apiSecret with
    | .error err =>
      { nonce := nonce, form := form1, sent := none, body := none, err := some ("signForm: " ++ err) }
    | .ok sig =>
      let req1 : Request := { req with header := req.header ++ [("Sign", sig)] }
      match env.exchange req1 with
      | .failed err =>
        { nonce := nonce, form := form1, sent := some req1, body := none,
          err := some ("http.Client.Do: " ++ err) }
      | .answered statusCode status body readErr =>
        match readErr with
        | some err =>
          { nonce := nonce, form := form1, sent := some req1, body := some body,
            err := some ("ioutil.readAll: " ++ err) }
        | none =>
          if statusCode ≠ 200 then
            { nonce := nonce, form := form1, sent := some req1, body := some body,
              err := some ("Status code: " ++ status ++ " (API command: "
                ++ Values.Get form1 "command" ++ ")") }
          else
            match checkAPIError lib body with
            | some err => { nonce := nonce, form := form1, sent := some req1, body := none, err := some err }
            | none => { nonce := nonce, form := form1, sent := some req1, body := some body, err := none }

/-! ## A reader of JSON texts

Used to evaluate `checkAPIError` on concrete response bodies: objects, arrays,
strings without escape sequences, numbers without exponent, `true`, `false`
and `null`, with white space between the tokens. -/

/-- Skips the white space of JSON. -/
def skipWs : List Char → List Char
  | [] => []
  | c :: cs => if c = ' ' ∨ c = '\n' ∨ c = '\t' ∨ c = '\r' then skipWs cs else c :: cs

/-- Reads a string after its opening quote, up to the closing quote. -/
def readString : List Char → List Char → Option (String × List Char)
  | [], _ => none
  | c :: cs, acc =>
    if c = '"' then some (String.mk acc.reverse, cs)
    else if c = '\\' then none
    else readString cs (c :: acc)

/-- Whether a character can occur in a number literal without exponent. -/
def isNumberChar (c : Char) : Bool :=
  c.isDigit || c = '-' || c = '.'

/-- Reads a number literal. -/
def readNumber (cs : List Char) : Option (Decimal × List Char) :=
  (parseDecimal (String.mk (cs.takeWhile isNumberChar))).map
    (fun d => (d, cs.dropWhile isNumberChar))

mutual

/-- Reads a JSON value. -/
def readValue : Nat → List Char → Option (Value Decimal × List Char)
  | 0, _ => none
  | fuel + 1, cs =>
    match skipWs cs with
    | '{' :: rest =>
      match skipWs rest with
      | '}' :: r => some (.obj [], r)
      | r => readMembers fuel r []
    | '[' :: rest =>
      match skipWs rest with
      | ']' :: r => some (.arr [], r)
      | r => readElements fuel r []
    | '"' :: rest => (readString rest []).map (fun p => (.str p.1, p.2))
    | 't' :: 'r' :: 'u' :: 'e' :: r => some (.bool true, r)
    | 'f' :: 'a' :: 'l' :: 's' :: 'e' :: r => some (.bool false, r)
    | 'n' :: 'u' :: 'l' :: 'l' :: r => some (.null, r)
    | r => (readNumber r).map (fun p => (.num p.1, p.2))

/-- Reads the members of an object after its opening brace. -/
def readMembers : Nat → List Char → List (String × Value Decimal) →
    Option (Value Decimal × List Char)
  | 0, _, _ => none
  | fuel + 1, cs, acc =>
    match skipWs cs with
    | '"' :: rest =>
      match readString rest [] with
      | none => none
      | some (k, r1) =>
        match skipWs r1 with
        | ':' :: r2 =>
          match readValue fuel r2 with
          | none => none
          | some (v, r3) =>
            match skipWs r3 with
            | ',' :: r4 => readMembers fuel r4 (acc ++ [(k, v)])
            | '}' :: r4 => some (.obj (acc ++ [(k, v)]), r4)
            | _ => none
        | _ => none
    | _ => none

/-- Reads the elements of an array after its opening bracket. -/
def readElements : Nat → List Char → List (Value Decimal) →
    Option (Value Decimal × List Char)
  | 0, _, _ => none
  | fuel + 1, cs, acc =>
    match readValue fuel cs with
    | none => none
    | some (v, r1) =>
      match skipWs r1 with
      | ',' :: r2 => readElements fuel r2 (acc ++ [v])
      | ']' :: r2 => some (.arr (acc ++ [v]), r2)
      | _ => none

end

/-- Reads a JSON text: one value, with nothing but white space after it. -/
def jsonRead (s : String) : Option (Value Decimal) :=
  match readValue (s.length + 1) s.toList with
  | some (v, rest) => if skipWs rest = [] then some v else none
  | none => none

/-- A stand-in for the digest of HMAC-SHA512 where a concrete one is needed:
64 bytes computed from the key and the message.  It has the shape of the
digest, not its values. -/
def sampleDigest (key message : String) : List Nat :=
  (List.range 64).map (fun i =>
    ((key.toList.map Char.toNat).sum * (i + 1) + (message.toList.map Char.toNat).sum + i) % 256)

/-- The library with `url.QueryEscape` and the reader of JSON texts above. -/
def sampleLibrary : Library Decimal :=
  { QueryEscape := QueryEscape, hmacWrite := fun _ _ => none, hmacSum := sampleDigest,
    Unmarshal := jsonRead }

/-- A client with a key and a secret. -/
def sampleTrader : Client :=
  { apiKey := "KEY", apiSecret := "SECRET" }

/-- Surroundings of a call at clock reading `now` in which the exchange
answers every request with status 200 and the given body. -/
def sampleCall (now : Int) (body : String) : CallEnv :=
  { now := now, APIUrl := "https://poloniex.com/tradingApi", newRequestErr := none,
    exchange := fun _ => .answered 200 "200 OK" body none }

/-- The form of the command `returnBalances`. -/
def sampleForm : Values :=
  [("command", ["returnBalances"])]

end Tradingapi

namespace Pushapi

/-! ## Theorems: ticker and trollbox decoders -/

/-- C1: a 10-element ticker payload whose element 0 is a string, whose elements
1-6, 8 and 9 are strings accepted by `strconv.ParseFloat` and whose element 7
is a number decodes successfully, field by field in positional order, with
`IsFrozen` true exactly when element 7 is not zero. -/
theorem convertArgsToTick_wellFormed {F : Type} (ops : FloatOps F)
    (p s1 s2 s3 s4 s5 s6 s8 s9 : String) (z v1 v2 v3 v4 v5 v6 v8 v9 : F)
    (h1 : ops.parseFloat s1 = some v1) (h2 : ops.parseFloat s2 = some v2)
    (h3 : ops.parseFloat s3 = some v3) (h4 : ops.parseFloat s4 = some v4)
    (h5 : ops.parseFloat s5 = some v5) (h6 : ops.parseFloat s6 = some v6)
    (h8 : ops.parseFloat s8 = some v8) (h9 : ops.parseFloat s9 = some v9) :
    convertArgsToTick ops
      [.str p, .str s1, .str s2, .str s3, .str s4, .str s5, .str s6, .num z,
       .str s8, .str s9]
    = .ok { CurrencyPair := p, Last := v1, LowestAsk := v2, HighestBid := v3,
            PercentChange := v4, BaseVolume := v5, QuoteVolume := v6,
            IsFrozen := !ops.isZero z, High24hr := v8, Low24hr := v9 } := by
  cases hz : ops.isZero z <;>
    simp [convertArgsToTick, index, convertStringToFloat, Result.bind, bind, pure,
      h1, h2, h3, h4, h5, h6, h8, h9, hz]

/-- The payload of the specification decodes to the tick of the specification
(numbers as exact decimals: `0.05` is `5 / 10 ^ 2`). -/
theorem convertArgsToTick_wellFormed_witness :
    convertArgsToTick decimalOps
      [.str "BTC_ETH", .str "0.05", .str "0.051", .str "0.049", .str "0.01",
       .str "100.0", .str "2000.0", .num ⟨0, 0⟩, .str "0.06", .str "0.04"]
    = .ok { CurrencyPair := "BTC_ETH", Last := ⟨5, 2⟩, LowestAsk := ⟨51, 3⟩,
            HighestBid := ⟨49, 3⟩, PercentChange := ⟨1, 2⟩, BaseVolume := ⟨1000, 1⟩,
            QuoteVolume := ⟨20000, 1⟩, IsFrozen := false, High24hr := ⟨6, 2⟩,
            Low24hr := ⟨4, 2⟩ } :=
  convertArgsToTick_wellFormed decimalOps "BTC_ETH" "0.05" "0.051" "0.049" "0.01"
    "100.0" "2000.0" "0.06" "0.04" ⟨0, 0⟩ ⟨5, 2⟩ ⟨51, 3⟩ ⟨49, 3⟩ ⟨1, 2⟩ ⟨1000, 1⟩
    ⟨20000, 1⟩ ⟨6, 2⟩ ⟨4, 2⟩ (by decide) (by decide) (by decide) (by decide)
    (by decide) (by decide) (by decide) (by decide)

/-- C3: on the empty payload both positional decoders index `args[0]` out of
range and end in a run-time panic instead of returning an error value; the same
happens for the ticker payload of the specification cut after its ninth element
and for a trollbox payload cut after its third. -/
theorem convertArgs_short_payload_panics {F : Type} (ops : FloatOps F) (z : F) :
    convertArgsToTick ops [] = .panic ∧
    convertArgsToTrollboxMessage ops [] = .panic ∧
    convertArgsToTrollboxMessage ops [.str "trollboxMessage", .num z, .str "user"]
      = .panic ∧
    convertArgsToTick decimalOps (samplePayload.take 9) = .panic := by
  refine ⟨rfl, rfl, rfl, by decide⟩

/-! ## Lemmas: Go maps as association lists -/

theorem mapGet_mapDelete_self {α : Type} (m : List (String × α)) (k : String) :
    mapGet (mapDelete m k) k = none := by
  induction m with
  | nil => rfl
  | cons kv rest ih =>
    obtain ⟨k1, v⟩ := kv
    by_cases h : k1 = k
    · simpa [mapDelete, h] using ih
    · simpa [mapDelete, mapGet, h] using ih

theorem mapGet_mapDelete_ne {α : Type} (m : List (String × α)) (k j : String) (h : j ≠ k) :
    mapGet (mapDelete m k) j = mapGet m j := by
  induction m with
  | nil => rfl
  | cons kv rest ih =>
    obtain ⟨k1, v⟩ := kv
    by_cases h1 : k1 = k
    · have h2 : k1 ≠ j := fun e => h (e ▸ h1)
      simpa [mapDelete, mapGet, h1, h2, Ne.symm h] using ih
    · by_cases h2 : k1 = j
      · subst h2
        simp [mapDelete, mapGet, h1, List.filter]
      · simpa [mapDelete, mapGet, h1, h2] using ih

theorem mapGet_mapSet_self {α : Type} (m : List (String × α)) (k : String) (v : α) :
    mapGet (mapSet m k v) k = some v := by
  simp [mapSet, mapGet]

theorem mapGet_mapSet_ne {α : Type} (m : List (String × α)) (k j : String) (v : α)
    (h : j ≠ k) : mapGet (mapSet m k v) j = mapGet m j := by
  simp [mapSet, mapGet, Ne.symm h, mapGet_mapDelete_ne m k j h]

/-! ## Theorems: market decoder and handler -/

theorem quotedNumber_eq_some {α : Type} {parse : String → Option α} {s : String} {v : α}
    (h : quotedNumber parse s = some v) : s ≠ "null" ∧ parse s = some v := by
  unfold quotedNumber at h
  by_cases hs : s = "null"
  · simp [hs] at h
  · simpa [hs] using h

theorem convertMarketUpdate_parsed {F : Type} (ops : FloatOps F) (e : SubEvent)
    (u : MarketUpdate F) (h : e.parsed ops = some u) :
    convertMarketUpdate ops e.toValue = .ok u := by
  have k1 : keyMatches "Data" "data" = true := by decide
  have k2 : keyMatches "Data" "type" = false := by decide
  have k3 : keyMatches "type" "type" = true := by decide
  have k4 : keyMatches "rate" "amount" = false := by decide
  have k5 : keyMatches "type" "amount" = false := by decide
  have k6 : keyMatches "amount" "amount" = true := by decide
  have k7 : keyMatches "rate" "rate" = true := by decide
  have k8 : keyMatches "rate" "type" = false := by decide
  have k9 : keyMatches "Date" "amount" = false := by decide
  have k10 : keyMatches "tradeID" "amount" = false := by decide
  have k11 : keyMatches "Date" "date" = true := by decide
  have k12 : keyMatches "Date" "rate" = false := by decide
  have k13 : keyMatches "tradeID" "rate" = false := by decide
  have k14 : keyMatches "Date" "total" = false := by decide
  have k15 : keyMatches "tradeID" "total" = false := by decide
  have k16 : keyMatches "rate" "total" = false := by decide
  have k17 : keyMatches "amount" "total" = false := by decide
  have k18 : keyMatches "total" "total" = true := by decide
  have k19 : keyMatches "Date" "tradeID" = false := by decide
  have k20 : keyMatches "tradeID" "tradeID" = true := by decide
  have k21 : keyMatches "Date" "type" = false := by decide
  have k22 : keyMatches "tradeID" "type" = false := by decide
  have k23 : keyMatches "amount" "type" = false := by decide
  have k24 : keyMatches "total" "type" = false := by decide
  cases e with
  | orderBookModify rate typeOrder amount =>
    simp only [SubEvent.parsed] at h
    split at h
    · rename_i r a hr ha
      obtain ⟨hr1, hr2⟩ := quotedNumber_eq_some hr
      obtain ⟨ha1, ha2⟩ := quotedNumber_eq_some ha
      cases h
      simp [convertMarketUpdate, SubEvent.toValue, unmarshalStruct, decodeMembers,
        Envelope.member, storeString, Result.bind, unmarshalDataField,
        OrderBookModify.member, storeQuotedFloat, k1, k2, k3, k4, k5, k6, k7, k8,
        hr1, hr2, ha1, ha2]
    · cases h
  | orderBookRemove rate typeOrder =>
    simp only [SubEvent.parsed] at h
    split at h
    · rename_i r hr
      obtain ⟨hr1, hr2⟩ := quotedNumber_eq_some hr
      cases h
      simp [convertMarketUpdate, SubEvent.toValue, unmarshalStruct, decodeMembers,
        Envelope.member, storeString, Result.bind, unmarshalDataField,
        OrderBookRemove.member, storeQuotedFloat, k1, k2, k3, k7, k8, hr1, hr2]
    · cases h
  | newTrade tradeID rate amount date total typeOrder =>
    simp only [SubEvent.parsed] at h
    split at h
    · rename_i i r a d t hi hr ha hd ht
      obtain ⟨hi1, hi2⟩ := quotedNumber_eq_some hi
      obtain ⟨hr1, hr2⟩ := quotedNumber_eq_some hr
      obtain ⟨ha1, ha2⟩ := quotedNumber_eq_some ha
      obtain ⟨ht1, ht2⟩ := quotedNumber_eq_some ht
      cases h
      simp [convertMarketUpdate, SubEvent.toValue, unmarshalStruct, decodeMembers,
        Envelope.member, storeString, Result.bind, unmarshalDataField,
        NewTrade.UnmarshalJSON, NewTradeAux.member, storeQuotedFloat, storeQuotedInt64,
        k1, k2, k3, k7, k8, k9, k10, k11, k12, k13, k14, k15, k16, k17, k18, k19, k20,
        k21, k22, k23, k24, k4, k5, k6, hi1, hi2, hr1, hr2, ha1, ha2, ht1, ht2, hd]
    · cases h

theorem convertArgsToMarketUpdateSlice_parsedAll {F : Type} (ops : FloatOps F) :
    ∀ (evs : List SubEvent) (updates : List (MarketUpdate F)),
      parsedAll ops evs = some updates →
      convertArgsToMarketUpdateSlice ops (evs.map SubEvent.toValue) = .ok updates := by
  intro evs
  induction evs with
  | nil =>
    intro updates h
    simp [parsedAll] at h
    simp [convertArgsToMarketUpdateSlice, h]
  | cons e rest ih =>
    intro updates h
    simp only [parsedAll] at h
    split at h
    · rename_i u us hu hus
      cases h
      simp [convertArgsToMarketUpdateSlice, convertMarketUpdate_parsed ops e u hu,
        ih us hus, Result.bind]
    · cases h

theorem parsedAll_shape {F : Type} (ops : FloatOps F) :
    ∀ (evs : List SubEvent) (updates : List (MarketUpdate F)),
      parsedAll ops evs = some updates →
      updates.length = evs.length ∧
      updates.map (fun u => u.TypeUpdate) = evs.map SubEvent.typeName := by
  intro evs
  induction evs with
  | nil =>
    intro updates h
    simp [parsedAll] at h
    simp [h]
  | cons e rest ih =>
    intro updates h
    simp only [parsedAll] at h
    split at h
    · rename_i u us hu hus
      cases h
      obtain ⟨h1, h2⟩ := ih us hus
      have hty : u.TypeUpdate = e.typeName := by
        cases e <;> simp only [SubEvent.parsed] at hu <;> split at hu <;>
          first
          | (cases hu; rfl)
          | cases hu
      simp [h1, h2, hty]
    · cases h

/-- C2: for a market message with a numeric `seq` and a non-empty list of
well-formed documented sub-events, `convertArgsToMarketUpdateSlice` returns
the list of their parsed updates, of the same length and with the same type
discriminators in the same order, and the market handler (the pair being
subscribed, its signal open and a consumer receiving) sends one batch whose
`Sequence` is `int64(seq)` and whose `Updates` is that list. -/
theorem marketHandler_delivers_batch {F : Type} (ops : FloatOps F) (currencyPair : String)
    (now : Int) (env : SelectEnv) (evs : List SubEvent) (updates : List (MarketUpdate F))
    (seq : F) (kwargs : List (String × Value F)) (s : State F)
    (updaterInfo : MarketUpdaterInfo F)
    (hne : evs ≠ [])
    (hwf : parsedAll ops evs = some updates)
    (hseq : mapGet kwargs "seq" = some (.num seq))
    (hinfo : mapGet s.marketUpdaterInfos currencyPair = some updaterInfo)
    (hopen : updaterInfo.unsubscribed.closed = false)
    (hcons : env.consumer = true) :
    convertArgsToMarketUpdateSlice ops (evs.map SubEvent.toValue) = .ok updates ∧
    updates.length = evs.length ∧
    updates.map (fun u => u.TypeUpdate) = evs.map SubEvent.typeName ∧
    (marketHandler ops currencyPair now env (evs.map SubEvent.toValue) kwargs s).2
      = .delivered ∧
    mapGet (marketHandler ops currencyPair now env (evs.map SubEvent.toValue) kwargs
        s).1.marketUpdaterInfos currencyPair
      = some { updaterInfo with
          updater := updaterInfo.updater
            ++ [some { Sequence := ops.toInt64 seq, Updates := updates }] } := by
  have hconv := convertArgsToMarketUpdateSlice_parsedAll ops evs updates hwf
  obtain ⟨hlen, hty⟩ := parsedAll_shape ops evs updates hwf
  have hlen0 : ¬ (List.map (SubEvent.toValue : SubEvent → Value F) evs).length = 0 := by
    simpa using hne
  have hsel : selectSend env updaterInfo.unsubscribed.closed = .sent := by
    simp [selectSend, hopen, hcons]
  have hinfo1 : mapGet (updateTopicTimestamp now currencyPair s).marketUpdaterInfos
      currencyPair = some updaterInfo := hinfo
  refine ⟨hconv, hlen, hty, ?_, ?_⟩
  · simp only [marketHandler, hseq, hlen0, if_false, hconv, hinfo1, hsel]
  · simp only [marketHandler, hseq, hlen0, if_false, hconv, hinfo1, hsel]
    exact mapGet_mapSet_self _ _ _

/-- The message of the specification (`seq` 42, a book modify and a trade) on
a freshly subscribed pair is delivered as one batch of sequence 42 holding the
upsert (bid, 0.01, 5) and the trade (9, buy, 0.01, 5) in that order. -/
theorem marketHandler_delivers_batch_witness :
    mapGet (marketHandler decimalOps "BTC_ETH" 7 { consumer := true, pickSend := false }
        ([SubEvent.orderBookModify "0.01" "bid" "5",
          SubEvent.newTrade "9" "0.01" "5" "2020-01-01 00:00:00" "0.05" "buy"].map
            SubEvent.toValue)
        [("seq", .num ⟨42, 0⟩)]
        (SubscribeMarket 0 true "BTC_ETH" (NewClient 0)).1).1.marketUpdaterInfos "BTC_ETH"
      = some { updaterId := 2,
               updater := [some { Sequence := 42, Updates :=
                 [{ Data := .modify { Rate := ⟨1, 2⟩, TypeOrder := "bid", Amount := ⟨5, 0⟩ },
                    TypeUpdate := "orderBookModify" },
                  { Data := .trade { TradeId := 9, Rate := ⟨1, 2⟩, Amount := ⟨5, 0⟩,
                                     Date := 1577836800, Total := ⟨5, 2⟩,
                                     TypeOrder := "buy" },
                    TypeUpdate := "newTrade" }] }],
               unsubscribed := { id := 3, closed := false } } :=
  (marketHandler_delivers_batch decimalOps "BTC_ETH" 7 { consumer := true, pickSend := false }
    [SubEvent.orderBookModify "0.01" "bid" "5",
     SubEvent.newTrade "9" "0.01" "5" "2020-01-01 00:00:00" "0.05" "buy"]
    [{ Data := .modify { Rate := ⟨1, 2⟩, TypeOrder := "bid", Amount := ⟨5, 0⟩ },
       TypeUpdate := "orderBookModify" },
     { Data := .trade { TradeId := 9, Rate := ⟨1, 2⟩, Amount := ⟨5, 0⟩,
                        Date := 1577836800, Total := ⟨5, 2⟩, TypeOrder := "buy" },
       TypeUpdate := "newTrade" }]
    ⟨42, 0⟩ [("seq", .num ⟨42, 0⟩)] (SubscribeMarket 0 true "BTC_ETH" (NewClient 0)).1
    { updaterId := 2, updater := [], unsubscribed := { id := 3, closed := false } }
    (by simp) (by rfl) (by rfl) (by rfl) (by rfl) (by rfl)).2.2.2.2

/-! ## Theorems: handlers and liveness -/

/-- C4 as stated fails: a ticker payload whose first element is a number is
dropped with a type-assertion error, yet the handler, run at time 100 on a
client subscribed at time 0, moves the global and the topic timestamp from 0 to
100; the same happens for a market message without `seq`. -/
theorem handler_decode_failure_refreshes_liveness :
    (tickerHandler decimalOps 100 { consumer := true, pickSend := false }
        [.num ⟨1, 0⟩, .str "0.05", .str "0.051", .str "0.049", .str "0.01", .str "100.0",
         .str "2000.0", .num ⟨0, 0⟩, .str "0.06", .str "0.04"]
        (SubscribeTicker 0 true (NewClient 0)).1).2
      = .dropped (.typeAssertion "CurrencyPair") ∧
    (SubscribeTicker 0 true (NewClient 0 : State Decimal)).1.lastTimestamp = 0 ∧
    mapGet (SubscribeTicker 0 true (NewClient 0 : State Decimal)).1.topicLastTimestamp TICKER
      = some 0 ∧
    (tickerHandler decimalOps 100 { consumer := true, pickSend := false }
        [.num ⟨1, 0⟩, .str "0.05", .str "0.051", .str "0.049", .str "0.01", .str "100.0",
         .str "2000.0", .num ⟨0, 0⟩, .str "0.06", .str "0.04"]
        (SubscribeTicker 0 true (NewClient 0)).1).1.lastTimestamp = 100 ∧
    mapGet (tickerHandler decimalOps 100 { consumer := true, pickSend := false }
        [.num ⟨1, 0⟩, .str "0.05", .str "0.051", .str "0.049", .str "0.01", .str "100.0",
         .str "2000.0", .num ⟨0, 0⟩, .str "0.06", .str "0.04"]
        (SubscribeTicker 0 true (NewClient 0)).1).1.topicLastTimestamp TICKER = some 100 ∧
    (marketHandler decimalOps "BTC_ETH" 100 { consumer := true, pickSend := false }
        [SubEvent.toValue (.orderBookRemove "0.01" "ask")] []
        (SubscribeMarket 0 true "BTC_ETH" (NewClient 0)).1).2
      = .dropped (.typeAssertion "seq") ∧
    (marketHandler decimalOps "BTC_ETH" 100 { consumer := true, pickSend := false }
        [SubEvent.toValue (.orderBookRemove "0.01" "ask")] []
        (SubscribeMarket 0 true "BTC_ETH" (NewClient 0)).1).1.lastTimestamp = 100 := by
  refine ⟨by decide, by decide, by decide, by decide, by decide, by decide, by decide⟩

theorem tickerHandler_timestamps {F : Type} (ops : FloatOps F) (now : Int) (env : SelectEnv)
    (args : List (Value F)) (s : State F) :
    (tickerHandler ops now env args s).1.lastTimestamp = now ∧
    mapGet (tickerHandler ops now env args s).1.topicLastTimestamp TICKER = some now := by
  have base : (updateTopicTimestamp now TICKER s).lastTimestamp = now ∧
      mapGet (updateTopicTimestamp now TICKER s).topicLastTimestamp TICKER = some now :=
    ⟨rfl, mapGet_mapSet_self _ _ _⟩
  unfold tickerHandler
  split
  · exact base
  · exact base
  · dsimp only
    split <;> exact base

theorem trollboxHandler_timestamps {F : Type} (ops : FloatOps F) (now : Int)
    (env : SelectEnv) (args : List (Value F)) (s : State F) :
    (trollboxHandler ops now env args s).1.lastTimestamp = now ∧
    mapGet (trollboxHandler ops now env args s).1.topicLastTimestamp TROLLBOX = some now := by
  have base : (updateTopicTimestamp now TROLLBOX s).lastTimestamp = now ∧
      mapGet (updateTopicTimestamp now TROLLBOX s).topicLastTimestamp TROLLBOX = some now :=
    ⟨rfl, mapGet_mapSet_self _ _ _⟩
  unfold trollboxHandler
  split
  · exact base
  · exact base
  · dsimp only
    split <;> exact base

theorem marketHandler_timestamps {F : Type} (ops : FloatOps F) (currencyPair : String)
    (now : Int) (env : SelectEnv) (args : List (Value F)) (kwargs : List (String × Value F))
    (s : State F) :
    (marketHandler ops currencyPair now env args kwargs s).1.lastTimestamp = now ∧
    mapGet (marketHandler ops currencyPair now env args kwargs s).1.topicLastTimestamp
      currencyPair = some now := by
  have base : (updateTopicTimestamp now currencyPair s).lastTimestamp = now ∧
      mapGet (updateTopicTimestamp now currencyPair s).topicLastTimestamp currencyPair
        = some now := ⟨rfl, mapGet_mapSet_self _ _ _⟩
  unfold marketHandler
  repeat' first
    | exact base
    | split
    | dsimp only

/-- C4 (amended): every handler invocation refreshes liveness before it
decodes the payload: whatever the message (one that decodes, a heartbeat, one
that fails to decode, a market message without a numeric `seq`), after the
ticker, trollbox or market handler has run at time `now` the global
last-activity timestamp and the timestamp of the handler's topic are `now`. -/
theorem handlers_refresh_liveness_on_every_message {F : Type} (ops : FloatOps F)
    (currencyPair : String) (now : Int) (env : SelectEnv) (args : List (Value F))
    (kwargs : List (String × Value F)) (s : State F) :
    ((tickerHandler ops now env args s).1.lastTimestamp = now ∧
      mapGet (tickerHandler ops now env args s).1.topicLastTimestamp TICKER = some now) ∧
    ((trollboxHandler ops now env args s).1.lastTimestamp = now ∧
      mapGet (trollboxHandler ops now env args s).1.topicLastTimestamp TROLLBOX
        = some now) ∧
    ((marketHandler ops currencyPair now env args kwargs s).1.lastTimestamp = now ∧
      mapGet (marketHandler ops currencyPair now env args kwargs s).1.topicLastTimestamp
        currencyPair = some now) :=
  ⟨tickerHandler_timestamps ops now env args s,
   trollboxHandler_timestamps ops now env args s,
   marketHandler_timestamps ops currencyPair now env args kwargs s⟩

/-! ## Theorems: subscribe and unsubscribe -/

/-- C5: for every topic, a successful subscribe followed at once by a
successful unsubscribe leaves the registry with neither a closure nor a
timestamp for the topic, appends exactly one nil sentinel (and nothing else)
to the values sent on the topic's channel, and the unsubscribe performs, in
this order, the bus unsubscribe, the registry removal, the sentinel send and
the firing of the signal. -/
theorem subscribe_then_unsubscribe {F : Type} (t : Closure) (now : Int) (s : State F) :
    (Subscribe t now true s).2.isOk = true ∧
    (Unsubscribe t true (Subscribe t now true s).1).2 = .ok () ∧
    mapGet (Unsubscribe t true (Subscribe t now true s).1).1.subscription t.topic = none ∧
    mapGet (Unsubscribe t true (Subscribe t now true s).1).1.topicLastTimestamp t.topic
      = none ∧
    sentOn t (Unsubscribe t true (Subscribe t now true s).1).1 = sentOn t s ++ [true] ∧
    (Unsubscribe t true (Subscribe t now true s).1).1.trace
      = (Subscribe t now true s).1.trace
        ++ [.busUnsubscribe t.topic true, .registryRemove t.topic, .send t.topic true,
            .fire t.topic] := by
  cases t with
  | ticker =>
    cases hc : s.tickerUnsubscribed.closed <;>
      simp [Subscribe, Unsubscribe, SubscribeTicker, UnsubscribeTicker, Closure.call,
        Closure.topic, rlock, runlock, record, addSubscription, removeSubscription,
        resetSignal, closeSignal, sentOn, Result.isOk, hc, mapGet_mapDelete_self]
  | trollbox =>
    cases hc : s.trollboxUnsubscribed.closed <;>
      simp [Subscribe, Unsubscribe, SubscribeTrollbox, UnsubscribeTrollbox, Closure.call,
        Closure.topic, rlock, runlock, record, addSubscription, removeSubscription,
        resetSignal, closeSignal, sentOn, Result.isOk, hc, mapGet_mapDelete_self]
  | market currencyPair =>
    cases hm : mapGet s.marketUpdaterInfos currencyPair with
    | none =>
      simp [Subscribe, Unsubscribe, SubscribeMarket, UnsubscribeMarket, Closure.call,
        Closure.topic, rlock, runlock, record, addSubscription, removeSubscription,
        resetSignal, closeSignal, sentOn, Result.isOk, hm, mapGet_mapDelete_self,
        mapGet_mapSet_self]
    | some info =>
      cases hc : info.unsubscribed.closed <;>
        simp [Subscribe, Unsubscribe, SubscribeMarket, UnsubscribeMarket, Closure.call,
          Closure.topic, rlock, runlock, record, addSubscription, removeSubscription,
          resetSignal, closeSignal, sentOn, Result.isOk, hm, hc, mapGet_mapDelete_self,
          mapGet_mapSet_self]

theorem signalOf_Subscribe {F : Type} (t : Closure) (now : Int) (s : State F) :
    signalOf t (Subscribe t now true s).1
      = some (match signalOf t s with
          | some sig => if sig.closed then { id := s.nextChan, closed := false } else sig
          | none => { id := s.nextChan + 1, closed := false }) := by
  cases t with
  | ticker =>
    cases hc : s.tickerUnsubscribed.closed <;>
      simp [Subscribe, SubscribeTicker, Closure.call, rlock, runlock, record,
        addSubscription, resetSignal, signalOf, hc]
  | trollbox =>
    cases hc : s.trollboxUnsubscribed.closed <;>
      simp [Subscribe, SubscribeTrollbox, Closure.call, rlock, runlock, record,
        addSubscription, resetSignal, signalOf, hc]
  | market currencyPair =>
    cases hm : mapGet s.marketUpdaterInfos currencyPair with
    | none =>
      simp [Subscribe, SubscribeMarket, Closure.call, rlock, runlock, record,
        addSubscription, resetSignal, signalOf, hm, mapGet_mapSet_self]
    | some info =>
      cases hc : info.unsubscribed.closed <;>
        simp [Subscribe, SubscribeMarket, Closure.call, rlock, runlock, record,
          addSubscription, resetSignal, signalOf, hm, hc, mapGet_mapSet_self]

theorem signalOf_Subscribe_open {F : Type} (t : Closure) (now : Int) (s : State F) :
    (signalOf t (Subscribe t now true s).1).map (fun sig => sig.closed) = some false := by
  rw [signalOf_Subscribe]
  cases hs : signalOf t s with
  | none => rfl
  | some sig => cases hc : sig.closed <;> simp [hc]

theorem alternate_eq_Subscribe {F : Type} (t : Closure) (clock : Nat → Int) (n : Nat)
    (s : State F) : ∃ now s0, alternate t clock n s = (Subscribe t now true s0).1 := by
  cases n with
  | zero => exact ⟨clock 0, s, rfl⟩
  | succ n => exact ⟨clock (n + 1), (Unsubscribe t true (alternate t clock n s)).1, rfl⟩

theorem Unsubscribe_ok_of_open {F : Type} (t : Closure) (s : State F)
    (h : (signalOf t s).map (fun sig => sig.closed) = some false) :
    (Unsubscribe t true s).2 = .ok () := by
  cases t with
  | ticker =>
    have hc : s.tickerUnsubscribed.closed = false := by simpa [signalOf] using h
    simp [Unsubscribe, UnsubscribeTicker, rlock, runlock, record, removeSubscription,
      closeSignal, hc]
  | trollbox =>
    have hc : s.trollboxUnsubscribed.closed = false := by simpa [signalOf] using h
    simp [Unsubscribe, UnsubscribeTrollbox, rlock, runlock, record, removeSubscription,
      closeSignal, hc]
  | market currencyPair =>
    cases hm : mapGet s.marketUpdaterInfos currencyPair with
    | none => simp [signalOf, hm] at h
    | some info =>
      have hc : info.unsubscribed.closed = false := by simpa [signalOf, hm] using h
      simp [Unsubscribe, UnsubscribeMarket, rlock, runlock, record, removeSubscription,
        closeSignal, hm, hc]

/-- C6: after any alternation subscribe, unsubscribe, subscribe, ... of
successful calls on one topic that ends with a subscribe, the topic's signal is
un-fired, so the `select` of a handler is not abandoned; the unsubscribe that
may follow succeeds; and a subscribe replaces a fired signal by a newly made
one and keeps an un-fired one as it is. -/
theorem alternate_signal_unfired {F : Type} (t : Closure) (clock : Nat → Int) (n : Nat)
    (now : Int) (env : SelectEnv) (s : State F) :
    (signalOf t (alternate t clock n s)).map (fun sig => sig.closed) = some false ∧
    (signalOf t (alternate t clock n s)).map
        (fun sig => decide (selectSend env sig.closed = .abandoned)) = some false ∧
    (Unsubscribe t true (alternate t clock n s)).2 = .ok () ∧
    signalOf t (Subscribe t now true s).1
      = some (match signalOf t s with
          | some sig => if sig.closed then { id := s.nextChan, closed := false } else sig
          | none => { id := s.nextChan + 1, closed := false }) := by
  obtain ⟨now0, s0, h0⟩ := alternate_eq_Subscribe t clock n s
  have hopen := signalOf_Subscribe_open t now0 s0
  rw [← h0] at hopen
  refine ⟨hopen, ?_, Unsubscribe_ok_of_open t _ hopen, signalOf_Subscribe t now s⟩
  cases hs : signalOf t (alternate t clock n s) with
  | none => simp [hs] at hopen
  | some sig =>
    have hc : sig.closed = false := by simpa [hs] using hopen
    cases env with
    | mk consumer pickSend => cases consumer <;> simp [selectSend, hc]

/-! ## Theorems: liveness monitor -/

theorem mapGet_eq_none_of_not_mem {α : Type} (m : List (String × α)) (k : String)
    (h : k ∉ mapKeys m) : mapGet m k = none := by
  induction m with
  | nil => rfl
  | cons kv rest ih =>
    obtain ⟨k1, v⟩ := kv
    simp only [mapKeys, List.map_cons, List.mem_cons, not_or] at h
    have h1 : ¬ k1 = k := fun e => h.1 e.symm
    simp only [mapGet, h1, if_false]
    exact ih h.2

theorem mem_mapKeys_of_mapGet {α : Type} (m : List (String × α)) (k : String) (v : α)
    (h : mapGet m k = some v) : k ∈ mapKeys m := by
  by_contra hk
  rw [mapGet_eq_none_of_not_mem m k hk] at h
  cases h

theorem count_mapKeys {α : Type} (m : List (String × α)) (k : String)
    (hm : (mapKeys m).Nodup) :
    (mapKeys m).count k = if (mapGet m k).isSome then 1 else 0 := by
  induction m with
  | nil => rfl
  | cons kv rest ih =>
    obtain ⟨k1, v⟩ := kv
    simp only [mapKeys, List.map_cons, List.nodup_cons] at hm
    by_cases h1 : k1 = k
    · subst h1
      have h0 : List.count k1 (List.map Prod.fst rest) = 0 :=
        List.count_eq_zero_of_not_mem hm.1
      simp [mapKeys, mapGet, h0]
    · have ih1 := ih hm.2
      simp only [mapKeys] at ih1
      simp [mapKeys, mapGet, h1, List.count_cons, ih1]

theorem call_state {F : Type} (c : Closure) (ok : Bool) (s : State F) :
    (c.call ok s).1 = { s with trace := s.trace ++ [.busSubscribe c.topic ok] } := by
  simp [Closure.call, record, rlock, runlock]

theorem resubscribeAll_state {F : Type} (subscribeOk : String → Bool) :
    ∀ (l : List (String × Closure)) (s : State F),
      resubscribeAll subscribeOk l s
        = { s with trace := s.trace ++ resubscribeAllTrace subscribeOk l } := by
  intro l
  induction l with
  | nil => intro s; simp [resubscribeAll, resubscribeAllTrace]
  | cons kv rest ih =>
    intro s
    obtain ⟨topic, subscribe⟩ := kv
    simp [resubscribeAll, resubscribeAllTrace, call_state, ih, record]

theorem count_resubscribeAllTrace (subscribeOk : String → Bool) (topic : String) :
    ∀ l : List (String × Closure),
      (resubscribeAllTrace subscribeOk l).count (.resubscribe topic)
        = (mapKeys l).count topic := by
  intro l
  induction l with
  | nil => rfl
  | cons kv rest ih =>
    obtain ⟨k1, c⟩ := kv
    by_cases h : k1 = topic
    · simp [resubscribeAllTrace, mapKeys, List.count_cons, h, ih] at *
    · simp [resubscribeAllTrace, mapKeys, List.count_cons, h, ih] at *

theorem mem_resubscribeAllTrace (subscribeOk : String → Bool) (a : Action) :
    ∀ l : List (String × Closure), a ∈ resubscribeAllTrace subscribeOk l →
      (∃ topic, a = .resubscribe topic) ∨ (∃ topic ok, a = .busSubscribe topic ok) := by
  intro l
  induction l with
  | nil => intro h; simp [resubscribeAllTrace] at h
  | cons kv rest ih =>
    obtain ⟨k1, c⟩ := kv
    intro h
    simp only [resubscribeAllTrace, List.mem_cons] at h
    rcases h with h | h | h
    · exact Or.inl ⟨k1, h⟩
    · exact Or.inr ⟨_, _, h⟩
    · exact ih h

theorem Close_state {F : Type} (ok : Bool) (s : State F) :
    Client.Close ok s = { s with trace := s.trace ++ [.busClose ok] } := by
  simp [Client.Close, record, rlock, runlock]

theorem connectLoop_succeeds {F : Type} (connectOk : Nat → Bool) (k : Nat)
    (hk : connectOk k = true) :
    ∀ (fuel attempt : Nat) (s : State F), attempt ≤ k → k < attempt + fuel →
      ∃ n, attempt < n ∧ n ≤ k + 1 ∧ connectOk (n - 1) = true ∧
        connectLoop connectOk fuel attempt s
          = some ({ s with
              trace := s.trace
                ++ (List.replicate (n - 1 - attempt) (.busConnect false) ++ [.busConnect true]),
              session := s.session + 1 }, n) := by
  intro fuel
  induction fuel with
  | zero => intro attempt s h1 h2; omega
  | succ fuel ih =>
    intro attempt s h1 h2
    cases hc : connectOk attempt with
    | true =>
      refine ⟨attempt + 1, by omega, by omega, by simpa using hc, ?_⟩
      simp [connectLoop, hc, record]
    | false =>
      have hne : attempt ≠ k := by
        intro e
        rw [e, hk] at hc
        cases hc
      obtain ⟨n, hn1, hn2, hn3, hn4⟩ :=
        ih (attempt + 1) (record (.busConnect false) s) (by omega) (by omega)
      refine ⟨n, by omega, hn2, hn3, ?_⟩
      have hrep : n - 1 - attempt = (n - 1 - (attempt + 1)) + 1 := by omega
      have hstep : connectLoop connectOk (fuel + 1) attempt s
          = connectLoop connectOk fuel (attempt + 1) (record (.busConnect false) s) := by
        simp [connectLoop, hc]
      rw [hstep, hn4, hrep]
      simp [record, List.replicate_succ]

theorem count_connectTrace (n : Nat) :
    (connectTrace n).count (.busConnect true) = 1 := by
  have h0 : (List.replicate (n - 1) (Action.busConnect false)).count (.busConnect true) = 0 := by
    apply List.count_eq_zero_of_not_mem
    intro h
    have := List.eq_of_mem_replicate h
    cases this
  simp [connectTrace, h0]

theorem mem_connectTrace (n : Nat) (a : Action) (h : a ∈ connectTrace n) :
    ∃ ok, a = .busConnect ok := by
  simp only [connectTrace, List.mem_append, List.mem_singleton] at h
  rcases h with h | h
  · exact ⟨false, List.eq_of_mem_replicate h⟩
  · exact ⟨true, h⟩

theorem autoReconnectCycle_reconnect_eq {F : Type} (conf : Conf) (timeout : Int) (env : CycleEnv)
    (k fuel : Nat) (s : State F)
    (hstale : env.now - s.lastTimestamp > timeout)
    (hlock : s.wampReaders = 0)
    (hconn : env.connectOk k = true)
    (hfuel : k < fuel) :
    ∃ n, 1 ≤ n ∧ n ≤ k + 1 ∧ env.connectOk (n - 1) = true ∧
      autoReconnectCycle conf timeout env fuel s
        = some ({ s with
            lastTimestamp := env.now + 5 * Second * n,
            session := s.session + 1,
            trace := s.trace
              ++ ([.logReconnecting, .busClose env.closeOk] ++ connectTrace n
                  ++ resubscribeAllTrace env.subscribeOk s.subscription) },
          .reconnected n) := by
  have hs1 : Client.Close env.closeOk (record .logReconnecting s)
      = { s with trace := s.trace ++ [.logReconnecting, .busClose env.closeOk] } := by
    simp [Close_state, record]
  obtain ⟨n, hn1, hn2, hn3, hn4⟩ :=
    connectLoop_succeeds env.connectOk k hconn fuel 0
      ({ s with trace := s.trace ++ [.logReconnecting, .busClose env.closeOk] } : State F)
      (Nat.zero_le k) (by omega)
  refine ⟨n, hn1, hn2, hn3, ?_⟩
  unfold autoReconnectCycle
  rw [if_pos hstale]
  simp only [hs1]
  rw [if_neg (by simpa using hlock)]
  simp only [hn4, resubscribeAll_state]
  simp [connectTrace, List.append_assoc]

theorem mapGet_isSome_of_mem {α : Type} (m : List (String × α)) (kv : String × α)
    (h : kv ∈ m) : (mapGet m kv.1).isSome = true := by
  induction m with
  | nil => cases h
  | cons kv1 rest ih =>
    obtain ⟨k1, v1⟩ := kv1
    by_cases hk : k1 = kv.1
    · simp [mapGet, hk]
    · rcases List.mem_cons.mp h with h1 | h1
      · exact absurd (by rw [h1]) hk
      · simpa [mapGet, hk] using ih h1

theorem mapGet_filter {α : Type} (p : String × α → Bool) (m : List (String × α))
    (k : String) (hm : (mapKeys m).Nodup) :
    mapGet (m.filter p) k = (mapGet m k).filter (fun v => p (k, v)) := by
  induction m with
  | nil => rfl
  | cons kv rest ih =>
    obtain ⟨k1, v⟩ := kv
    simp only [mapKeys, List.map_cons, List.nodup_cons] at hm
    have ih1 := ih hm.2
    by_cases hk : k1 = k
    · subst hk
      have hnone : mapGet rest k1 = none := mapGet_eq_none_of_not_mem rest k1 hm.1
      by_cases hp : p (k1, v) = true
      · simp [List.filter, hp, mapGet, Option.filter]
      · simp [List.filter, hp, mapGet, Option.filter, ih1, hnone]
    · by_cases hp : p (k1, v) = true
      · simp [List.filter, hp, mapGet, hk, ih1]
      · simp [List.filter, hp, mapGet, hk, ih1]

theorem nodup_mapKeys_filter {α : Type} (p : String × α → Bool) (m : List (String × α))
    (hm : (mapKeys m).Nodup) : (mapKeys (m.filter p)).Nodup :=
  List.Nodup.sublist (List.Sublist.map Prod.fst (List.filter_sublist m)) hm

theorem resubscribeStale_state {F : Type} (subscribeOk : String → Bool) :
    ∀ (l : List (String × Int)) (s : State F),
      resubscribeStale subscribeOk l s
        = ({ s with trace := s.trace ++ resubscribeStaleTrace s.subscription subscribeOk l },
           l.all (fun kv => (mapGet s.subscription kv.1).isSome)) := by
  intro l
  induction l with
  | nil => intro s; simp [resubscribeStale, resubscribeStaleTrace]
  | cons kv rest ih =>
    intro s
    obtain ⟨topic, timestamp⟩ := kv
    have hsub : (record (Action.logStale topic) s).subscription = s.subscription := rfl
    cases hm : mapGet s.subscription topic with
    | none =>
      simp [resubscribeStale, resubscribeStaleTrace, hsub, hm, record]
    | some c =>
      simp [resubscribeStale, resubscribeStaleTrace, hsub, hm, record, call_state, ih]

theorem count_resubscribeStaleTrace (subscription : List (String × Closure))
    (subscribeOk : String → Bool) (topic : String) :
    ∀ l : List (String × Int),
      (∀ kv ∈ l, (mapGet subscription kv.1).isSome = true) →
      (resubscribeStaleTrace subscription subscribeOk l).count (.resubscribe topic)
        = (mapKeys l).count topic := by
  intro l
  induction l with
  | nil => intro _; rfl
  | cons kv rest ih =>
    intro hall
    obtain ⟨k1, ts⟩ := kv
    have h1 : (mapGet subscription k1).isSome = true := hall (k1, ts) (List.mem_cons_self _ _)
    have ih1 := ih (fun kv hkv => hall kv (List.mem_cons_of_mem _ hkv))
    cases hm : mapGet subscription k1 with
    | none => simp [hm] at h1
    | some c =>
      simp only [mapKeys] at ih1
      by_cases h : k1 = topic
      · subst h
        simp [resubscribeStaleTrace, hm, mapKeys, List.count_cons, ih1]
      · simp [resubscribeStaleTrace, hm, mapKeys, List.count_cons, h, ih1]

theorem mem_resubscribeStaleTrace (subscription : List (String × Closure))
    (subscribeOk : String → Bool) (a : Action) :
    ∀ l : List (String × Int), a ∈ resubscribeStaleTrace subscription subscribeOk l →
      (∃ topic, a = .logStale topic) ∨ (∃ topic, a = .resubscribe topic) ∨
      (∃ topic ok, a = .busSubscribe topic ok) := by
  intro l
  induction l with
  | nil => intro h; simp [resubscribeStaleTrace] at h
  | cons kv rest ih =>
    obtain ⟨k1, ts⟩ := kv
    intro h
    cases hm : mapGet subscription k1 with
    | none =>
      simp only [resubscribeStaleTrace, hm, List.mem_singleton] at h
      exact Or.inl ⟨k1, h⟩
    | some c =>
      simp only [resubscribeStaleTrace, hm, List.mem_cons] at h
      rcases h with h | h | h | h
      · exact Or.inl ⟨k1, h⟩
      · exact Or.inr (Or.inl ⟨k1, h⟩)
      · exact Or.inr (Or.inr ⟨_, _, h⟩)
      · exact ih h

/-- C7: in a monitor cycle that finds the global last-activity stale (no read
lock being held on the session), as soon as some connect attempt succeeds the
cycle ends reconnected: it closes the session, connects successfully exactly
once, sets the global last-activity to the time of the reconnect, calls the
stored closure of every registered topic exactly once and of no other topic
whatever the results of the bus subscribe calls, writes no log line of the
per-topic pass, and changes nothing else: the registry keeps the same topics,
closures and timestamps. -/
theorem autoReconnectCycle_reconnect_resubscribes_all {F : Type} (conf : Conf) (timeout : Int)
    (env : CycleEnv) (k fuel : Nat) (s : State F)
    (hstale : env.now - s.lastTimestamp > timeout)
    (hlock : s.wampReaders = 0)
    (hconn : env.connectOk k = true)
    (hfuel : k < fuel)
    (hkeys : (mapKeys s.subscription).Nodup) :
    ∃ n new, 1 ≤ n ∧ n ≤ k + 1 ∧ env.connectOk (n - 1) = true ∧
      autoReconnectCycle conf timeout env fuel s
        = some ({ s with lastTimestamp := env.now + 5 * Second * n,
                         session := s.session + 1,
                         trace := s.trace ++ new }, .reconnected n) ∧
      (∀ topic, new.count (.resubscribe topic)
        = if (mapGet s.subscription topic).isSome then 1 else 0) ∧
      (∀ topic, new.count (.logStale topic) = 0) ∧
      new.count (.busConnect true) = 1 ∧
      new.count (.busClose env.closeOk) = 1 := by
  obtain ⟨n, hn1, hn2, hn3, hn4⟩ :=
    autoReconnectCycle_reconnect_eq conf timeout env k fuel s hstale hlock hconn hfuel
  have hall : ∀ a, a ∈ resubscribeAllTrace env.subscribeOk s.subscription →
      (∃ topic, a = .resubscribe topic) ∨ (∃ topic ok, a = .busSubscribe topic ok) :=
    fun a => mem_resubscribeAllTrace env.subscribeOk a s.subscription
  refine ⟨n, _, hn1, hn2, hn3, hn4, ?_, ?_, ?_, ?_⟩
  · intro topic
    have h0 : (connectTrace n).count (.resubscribe topic) = 0 := by
      apply List.count_eq_zero_of_not_mem
      intro h
      obtain ⟨ok, e⟩ := mem_connectTrace n _ h
      cases e
    simp [h0, count_resubscribeAllTrace, count_mapKeys s.subscription topic hkeys]
  · intro topic
    apply List.count_eq_zero_of_not_mem
    intro h
    simp only [List.mem_append, List.mem_cons, List.mem_singleton, List.mem_nil_iff,
      or_false] at h
    rcases h with (h | h) | h
    · rcases h with h | h <;> cases h
    · obtain ⟨ok, e⟩ := mem_connectTrace n _ h
      cases e
    · rcases hall _ h with ⟨t, e⟩ | ⟨t, ok, e⟩ <;> cases e
  · have h0 : (resubscribeAllTrace env.subscribeOk s.subscription).count
        (.busConnect true) = 0 := by
      apply List.count_eq_zero_of_not_mem
      intro h
      rcases hall _ h with ⟨t, e⟩ | ⟨t, ok, e⟩ <;> cases e
    simp [h0, count_connectTrace]
  · have h0 : (resubscribeAllTrace env.subscribeOk s.subscription).count
        (.busClose env.closeOk) = 0 := by
      apply List.count_eq_zero_of_not_mem
      intro h
      rcases hall _ h with ⟨t, e⟩ | ⟨t, ok, e⟩ <;> cases e
    have h1 : (connectTrace n).count (.busClose env.closeOk) = 0 := by
      apply List.count_eq_zero_of_not_mem
      intro h
      obtain ⟨ok, e⟩ := mem_connectTrace n _ h
      cases e
    simp [h0, h1]

/-- On the sample client, last active at time 0, the cycle run 100 seconds
later with a timeout of 60 seconds reconnects at the second attempt and calls
each of the three stored closures once, the ticker's bus call failing. -/
theorem autoReconnectCycle_reconnect_resubscribes_all_witness :
    ∃ n new, 1 ≤ n ∧ n ≤ 1 + 1 ∧ (sampleEnv (100 * Second)).connectOk (n - 1) = true ∧
      autoReconnectCycle sampleConf (60 * Second) (sampleEnv (100 * Second)) 5 sampleClient
        = some ({ sampleClient with
                    lastTimestamp := (sampleEnv (100 * Second)).now + 5 * Second * n,
                    session := sampleClient.session + 1,
                    trace := sampleClient.trace ++ new }, .reconnected n) ∧
      (∀ topic, new.count (.resubscribe topic)
        = if (mapGet sampleClient.subscription topic).isSome then 1 else 0) ∧
      (∀ topic, new.count (.logStale topic) = 0) ∧
      new.count (.busConnect true) = 1 ∧
      new.count (.busClose (sampleEnv (100 * Second)).closeOk) = 1 :=
  autoReconnectCycle_reconnect_resubscribes_all sampleConf (60 * Second) (sampleEnv (100 * Second))
    1 5 sampleClient (by decide) (by decide) (by decide) (by decide) (by decide)

theorem count_topicsError {F : Type} (conf : Conf) (now : Int) (s : State F)
    (topic : String) (hkeys : (mapKeys s.topicLastTimestamp).Nodup) :
    (mapKeys (topicsError now (topicTimeout conf) s.topicLastTimestamp)).count
        topic
      = if topicStale conf now s topic then 1 else 0 := by
  unfold topicsError
  rw [count_mapKeys _ topic (nodup_mapKeys_filter _ _ hkeys), mapGet_filter _ _ _ hkeys]
  unfold topicStale
  cases hm : mapGet s.topicLastTimestamp topic with
  | none => simp [Option.filter]
  | some ts =>
    by_cases hp : now - ts > topicTimeout conf
    · simp [Option.filter, hp]
    · simp [Option.filter, hp]

/-- The per-topic pass on a registry in which every topic with a timestamp has
a stored closure: in a monitor cycle that finds the global last-activity not
stale, the stored closure is called exactly once for each topic whose own
last-activity is older than the topic timeout and not at all for any other
topic, the session is neither closed nor reconnected, and nothing but the
trace changes: all registry entries and all timestamps are as before. -/
theorem autoReconnectCycle_topic_pass_resubscribes_stale_only {F : Type} (conf : Conf)
    (timeout : Int) (env : CycleEnv) (fuel : Nat) (s : State F)
    (hfresh : ¬ (env.now - s.lastTimestamp > timeout))
    (hkeys : (mapKeys s.topicLastTimestamp).Nodup)
    (hclosures : ∀ kv ∈ s.topicLastTimestamp, (mapGet s.subscription kv.1).isSome = true) :
    ∃ new, autoReconnectCycle conf timeout env fuel s
        = some ({ s with trace := s.trace ++ new }, .checked) ∧
      (∀ topic, new.count (.resubscribe topic)
        = if topicStale conf env.now s topic then 1 else 0) ∧
      (∀ ok, new.count (.busConnect ok) = 0) ∧
      (∀ ok, new.count (.busClose ok) = 0) ∧
      new.count .logReconnecting = 0 := by
  have hall : ∀ kv ∈ topicsError env.now (topicTimeout conf)
      s.topicLastTimestamp, (mapGet s.subscription kv.1).isSome = true :=
    fun kv hkv => hclosures kv (List.mem_of_mem_filter hkv)
  have hmem := fun a => mem_resubscribeStaleTrace s.subscription env.subscribeOk a
    (topicsError env.now (topicTimeout conf) s.topicLastTimestamp)
  refine ⟨resubscribeStaleTrace s.subscription env.subscribeOk
    (topicsError env.now (topicTimeout conf) s.topicLastTimestamp),
    ?_, ?_, ?_, ?_, ?_⟩
  · unfold autoReconnectCycle
    rw [if_neg hfresh]
    simp only [resubscribeStale_state]
    have hb : (topicsError env.now (topicTimeout conf) s.topicLastTimestamp).all
        (fun kv => (mapGet s.subscription kv.1).isSome) = true :=
      List.all_eq_true.mpr hall
    rw [hb]
  · intro topic
    rw [count_resubscribeStaleTrace _ _ _ _ hall]
    exact count_topicsError conf env.now s topic hkeys
  · intro ok
    apply List.count_eq_zero_of_not_mem
    intro h
    rcases hmem _ h with ⟨t, e⟩ | ⟨t, e⟩ | ⟨t, b, e⟩ <;> cases e
  · intro ok
    apply List.count_eq_zero_of_not_mem
    intro h
    rcases hmem _ h with ⟨t, e⟩ | ⟨t, e⟩ | ⟨t, b, e⟩ <;> cases e
  · apply List.count_eq_zero_of_not_mem
    intro h
    rcases hmem _ h with ⟨t, e⟩ | ⟨t, e⟩ | ⟨t, b, e⟩ <;> cases e

/-- On the sample client whose ticker was active at 170 seconds, the cycle run
at 180 seconds (timeout 60 seconds, topic timeout 2 minutes) resubscribes the
trollbox and the pair, silent since time 0, and not the ticker. -/
theorem autoReconnectCycle_topic_pass_resubscribes_stale_only_witness :
    ∃ new, autoReconnectCycle sampleConf (60 * Second) (sampleEnv (180 * Second)) 5
          (updateTopicTimestamp (170 * Second) TICKER sampleClient)
        = some ({ (updateTopicTimestamp (170 * Second) TICKER sampleClient) with
            trace := (updateTopicTimestamp (170 * Second) TICKER sampleClient).trace ++ new },
          .checked) ∧
      (∀ topic, new.count (.resubscribe topic)
        = if topicStale sampleConf (sampleEnv (180 * Second)).now
            (updateTopicTimestamp (170 * Second) TICKER sampleClient) topic then 1 else 0) ∧
      (∀ ok, new.count (.busConnect ok) = 0) ∧
      (∀ ok, new.count (.busClose ok) = 0) ∧
      new.count .logReconnecting = 0 :=
  autoReconnectCycle_topic_pass_resubscribes_stale_only sampleConf (60 * Second)
    (sampleEnv (180 * Second)) 5 (updateTopicTimestamp (170 * Second) TICKER sampleClient)
    (by decide) (by decide) (by decide)

/-! ## Theorems: registry misses and the session lock -/

/-- C9: `updateTopicTimestamp` on a topic that is not registered creates a
timestamp entry for it.  On the sample client the ticker is unsubscribed (no
closure and no timestamp are left), a ticker message still in flight is then
handled at 10 seconds and abandoned, and the ticker has a timestamp again but
no closure; with the trollbox active at 170 seconds, the monitor cycle at 180
seconds finds the ticker stale, calls its missing closure and panics. -/
theorem updateTopicTimestamp_unregistered_creates_entry :
    mapGet (UnsubscribeTicker true sampleClient).1.subscription TICKER = none ∧
    mapGet (UnsubscribeTicker true sampleClient).1.topicLastTimestamp TICKER = none ∧
    (tickerHandler decimalOps (10 * Second) { consumer := false, pickSend := false }
        samplePayload (UnsubscribeTicker true sampleClient).1).2 = .abandoned ∧
    mapGet (tickerHandler decimalOps (10 * Second) { consumer := false, pickSend := false }
        samplePayload (UnsubscribeTicker true sampleClient).1).1.topicLastTimestamp TICKER
      = some (10 * Second) ∧
    mapGet (tickerHandler decimalOps (10 * Second) { consumer := false, pickSend := false }
        samplePayload (UnsubscribeTicker true sampleClient).1).1.subscription TICKER
      = none ∧
    (autoReconnectCycle sampleConf (60 * Second) (sampleEnv (180 * Second)) 5
        (updateTopicTimestamp (170 * Second) TROLLBOX
          (tickerHandler decimalOps (10 * Second) { consumer := false, pickSend := false }
            samplePayload (UnsubscribeTicker true sampleClient).1).1)).map Prod.snd
      = some .crashed := by
  refine ⟨by decide, by decide, by decide, by decide, by decide, by decide⟩

/-- C10: when the bus unsubscribe call returns an error, `UnsubscribeTicker`,
`UnsubscribeTrollbox` and `UnsubscribeMarket` return that error with the
session read lock still held: the number of holders is one more than before
the call (on the path where the bus call succeeds it is the same as before).
On the sample client the next monitor cycle that finds the session stale then
never obtains the exclusive lock. -/
theorem Unsubscribe_error_path_keeps_read_lock {F : Type} (t : Closure) (s : State F) :
    (Unsubscribe t false s).2 = .error (.bus "turnpike.Client.Unsuscribe") ∧
    (Unsubscribe t false s).1.wampReaders = s.wampReaders + 1 ∧
    (Unsubscribe t true s).1.wampReaders = s.wampReaders ∧
    (autoReconnectCycle sampleConf (60 * Second) (sampleEnv (100 * Second)) 5
        (UnsubscribeTicker false sampleClient).1).map Prod.snd = some .blocked := by
  refine ⟨?_, ?_, ?_, by decide⟩
  · cases t <;> simp [Unsubscribe, UnsubscribeTicker, UnsubscribeTrollbox, UnsubscribeMarket]
  · cases t <;>
      simp [Unsubscribe, UnsubscribeTicker, UnsubscribeTrollbox, UnsubscribeMarket, record,
        rlock]
  · cases t with
    | ticker =>
      cases hc : s.tickerUnsubscribed.closed <;>
        simp [Unsubscribe, UnsubscribeTicker, record, rlock, runlock, removeSubscription,
          closeSignal, hc]
    | trollbox =>
      cases hc : s.trollboxUnsubscribed.closed <;>
        simp [Unsubscribe, UnsubscribeTrollbox, record, rlock, runlock, removeSubscription,
          closeSignal, hc]
    | market currencyPair =>
      cases hm : mapGet s.marketUpdaterInfos currencyPair with
      | none =>
        simp [Unsubscribe, UnsubscribeMarket, record, rlock, runlock, removeSubscription, hm]
      | some info =>
        cases hc : info.unsubscribed.closed <;>
          simp [Unsubscribe, UnsubscribeMarket, record, rlock, runlock, removeSubscription,
            closeSignal, hm, hc]

/-! ## Theorems: heartbeats and trollbox payloads -/

/-- C11: for a market message with a numeric `seq` and an empty positional
list the market handler ends as a heartbeat: the global and the topic's
last-activity timestamps are the current time, and nothing is sent: the
channels of all topics and the trace are as before. -/
theorem marketHandler_heartbeat {F : Type} (ops : FloatOps F) (currencyPair : String)
    (now : Int) (env : SelectEnv) (seq : F) (kwargs : List (String × Value F))
    (s : State F) (hseq : mapGet kwargs "seq" = some (.num seq)) :
    marketHandler ops currencyPair now env [] kwargs s
      = (updateTopicTimestamp now currencyPair s, .heartbeat) ∧
    (marketHandler ops currencyPair now env [] kwargs s).1.lastTimestamp = now ∧
    mapGet (marketHandler ops currencyPair now env [] kwargs s).1.topicLastTimestamp
      currencyPair = some now ∧
    (marketHandler ops currencyPair now env [] kwargs s).1.marketUpdaterInfos
      = s.marketUpdaterInfos ∧
    (marketHandler ops currencyPair now env [] kwargs s).1.ticker = s.ticker ∧
    (marketHandler ops currencyPair now env [] kwargs s).1.trollbox = s.trollbox ∧
    (marketHandler ops currencyPair now env [] kwargs s).1.trace = s.trace := by
  have h : marketHandler ops currencyPair now env [] kwargs s
      = (updateTopicTimestamp now currencyPair s, .heartbeat) := by
    simp [marketHandler, hseq]
  rw [h]
  exact ⟨rfl, rfl, mapGet_mapSet_self _ _ _, rfl, rfl, rfl, rfl⟩

/-- A heartbeat with sequence number 42 handled at 30 seconds on the sample
client moves the two timestamps of `BTC_ETH` and sends nothing. -/
theorem marketHandler_heartbeat_witness :
    marketHandler decimalOps "BTC_ETH" (30 * Second) { consumer := true, pickSend := true }
        [] [("seq", .num ⟨42, 0⟩)] sampleClient
      = (updateTopicTimestamp (30 * Second) "BTC_ETH" sampleClient, .heartbeat) ∧
    (marketHandler decimalOps "BTC_ETH" (30 * Second) { consumer := true, pickSend := true }
        [] [("seq", .num ⟨42, 0⟩)] sampleClient).1.lastTimestamp = 30 * Second ∧
    mapGet (marketHandler decimalOps "BTC_ETH" (30 * Second)
        { consumer := true, pickSend := true } [] [("seq", .num ⟨42, 0⟩)]
        sampleClient).1.topicLastTimestamp "BTC_ETH" = some (30 * Second) ∧
    (marketHandler decimalOps "BTC_ETH" (30 * Second) { consumer := true, pickSend := true }
        [] [("seq", .num ⟨42, 0⟩)] sampleClient).1.marketUpdaterInfos
      = sampleClient.marketUpdaterInfos ∧
    (marketHandler decimalOps "BTC_ETH" (30 * Second) { consumer := true, pickSend := true }
        [] [("seq", .num ⟨42, 0⟩)] sampleClient).1.ticker = sampleClient.ticker ∧
    (marketHandler decimalOps "BTC_ETH" (30 * Second) { consumer := true, pickSend := true }
        [] [("seq", .num ⟨42, 0⟩)] sampleClient).1.trollbox = sampleClient.trollbox ∧
    (marketHandler decimalOps "BTC_ETH" (30 * Second) { consumer := true, pickSend := true }
        [] [("seq", .num ⟨42, 0⟩)] sampleClient).1.trace = sampleClient.trace :=
  marketHandler_heartbeat decimalOps "BTC_ETH" (30 * Second)
    { consumer := true, pickSend := true } ⟨42, 0⟩ [("seq", .num ⟨42, 0⟩)] sampleClient
    (by rfl)

/-- C13: a trollbox payload of exactly four elements string, number, string,
string decodes with these four fields (the number converted by `int64`) and
`Reputation` -1; with a fifth element that is a number it decodes with the
same four fields and `Reputation` that number (converted by `int`).  The
example of the API documentation decodes accordingly. -/
theorem convertArgsToTrollboxMessage_wellFormed {F : Type} (ops : FloatOps F)
    (t u m : String) (n r : F) :
    convertArgsToTrollboxMessage ops [.str t, .num n, .str u, .str m]
      = .ok { TypeMessage := t, MessageNumber := ops.toInt64 n, Username := u,
              Message := m, Reputation := -1 } ∧
    convertArgsToTrollboxMessage ops [.str t, .num n, .str u, .str m, .num r]
      = .ok { TypeMessage := t, MessageNumber := ops.toInt64 n, Username := u,
              Message := m, Reputation := ops.toInt r } ∧
    convertArgsToTrollboxMessage decimalOps
        [.str "trollboxMessage", .num ⟨2094211, 0⟩, .str "boxOfTroll", .str "Trololol",
         .num ⟨4, 0⟩]
      = .ok { TypeMessage := "trollboxMessage", MessageNumber := 2094211,
              Username := "boxOfTroll", Message := "Trololol", Reputation := 4 } := by
  refine ⟨rfl, rfl, by decide⟩

/-! ## Theorems: sub-events of an unknown type -/

theorem convertMarketUpdate_unknown {F : Type} (ops : FloatOps F) (typeUpdate : String)
    (data : Value F) (hty : isDocumentedType typeUpdate = false)
    (hdata : data.isNull = false) :
    convertMarketUpdate ops (.obj [("data", data), ("type", .str typeUpdate)])
      = .ok { Data := .raw (some data), TypeUpdate := typeUpdate } := by
  have k1 : keyMatches "Data" "data" = true := by decide
  have k2 : keyMatches "Data" "type" = false := by decide
  have k3 : keyMatches "type" "type" = true := by decide
  simp only [isDocumentedType, Bool.or_eq_false_iff, decide_eq_false_iff_not] at hty
  obtain ⟨⟨h1, h2⟩, h3⟩ := hty
  cases data <;>
    first
    | (simp [Value.isNull] at hdata; done)
    | simp [convertMarketUpdate, unmarshalStruct, decodeMembers, Envelope.member,
        storeString, Result.bind, Envelope.data, k1, k2, k3, h1, h2, h3]

theorem convertMarketUpdate_item {F : Type} (ops : FloatOps F) (item : BatchItem F)
    (u : MarketUpdate F) (h : item.parsed ops = some u) :
    convertMarketUpdate ops item.toValue = .ok u := by
  cases item with
  | known e => exact convertMarketUpdate_parsed ops e u h
  | unknown typeUpdate data =>
    simp only [BatchItem.parsed] at h
    split at h
    · cases h
    · rename_i hc
      simp only [Bool.or_eq_true, not_or, Bool.not_eq_true] at hc
      cases h
      exact convertMarketUpdate_unknown ops typeUpdate data hc.1 hc.2

theorem parsedItems_unknown_at {F : Type} (ops : FloatOps F) :
    ∀ (items : List (BatchItem F)) (updates : List (MarketUpdate F)),
      parsedItems ops items = some updates →
      updates.length = items.length ∧
      ∀ (i : Nat) (typeUpdate : String) (data : Value F),
        items.get? i = some (.unknown typeUpdate data) →
        updates.get? i = some { Data := .raw (some data), TypeUpdate := typeUpdate } := by
  intro items
  induction items with
  | nil =>
    intro updates h
    simp [parsedItems] at h
    subst h
    exact ⟨rfl, fun i _ _ hi => by simp at hi⟩
  | cons item rest ih =>
    intro updates h
    simp only [parsedItems] at h
    split at h
    · rename_i u us hu hus
      cases h
      obtain ⟨hlen, hall⟩ := ih us hus
      refine ⟨by simp [hlen], ?_⟩
      intro i typeUpdate data hi
      cases i with
      | zero =>
        simp only [List.get?] at hi
        cases hi
        simp only [BatchItem.parsed] at hu
        split at hu
        · cases hu
        · cases hu
          rfl
      | succ j =>
        simp only [List.get?] at hi
        simpa [List.get?] using hall j typeUpdate data hi
    · cases h

/-- C12: in a batch whose elements are well-formed documented sub-events and
elements of other types (with a `data` member other than `null`),
`convertArgsToMarketUpdateSlice` succeeds with one update per element in the
same order: an element of an unknown type gives, at its index, the update with
that type string and its `data` member undecoded, the documented sub-events
give their parsed variants. -/
theorem convertArgsToMarketUpdateSlice_passes_unknown_types {F : Type} (ops : FloatOps F)
    (items : List (BatchItem F)) (updates : List (MarketUpdate F))
    (h : parsedItems ops items = some updates) :
    convertArgsToMarketUpdateSlice ops (items.map BatchItem.toValue) = .ok updates ∧
    updates.length = items.length ∧
    ∀ (i : Nat) (typeUpdate : String) (data : Value F),
      items.get? i = some (.unknown typeUpdate data) →
      updates.get? i = some { Data := .raw (some data), TypeUpdate := typeUpdate } := by
  refine ⟨?_, parsedItems_unknown_at ops items updates h⟩
  induction items generalizing updates with
  | nil =>
    simp [parsedItems] at h
    simp [convertArgsToMarketUpdateSlice, h]
  | cons item rest ih =>
    simp only [parsedItems] at h
    split at h
    · rename_i u us hu hus
      cases h
      simp [convertArgsToMarketUpdateSlice, convertMarketUpdate_item ops item u hu,
        ih us hus, Result.bind]
    · cases h

/-- A batch of a book modify, an element of the unknown type `orderBookReset`
and a book removal decodes to three updates, the second holding the `data`
object of the unknown element as it came. -/
theorem convertArgsToMarketUpdateSlice_passes_unknown_types_witness :
    convertArgsToMarketUpdateSlice decimalOps
        ([BatchItem.known (.orderBookModify "0.01" "bid" "5"),
          BatchItem.unknown "orderBookReset" (.obj [("depth", .str "5")]),
          BatchItem.known (.orderBookRemove "0.02" "ask")].map BatchItem.toValue)
      = .ok [{ Data := .modify { Rate := ⟨1, 2⟩, TypeOrder := "bid", Amount := ⟨5, 0⟩ },
               TypeUpdate := "orderBookModify" },
             { Data := .raw (some (.obj [("depth", .str "5")])),
               TypeUpdate := "orderBookReset" },
             { Data := .remove { Rate := ⟨2, 2⟩, TypeOrder := "ask" },
               TypeUpdate := "orderBookRemove" }] :=
  (convertArgsToMarketUpdateSlice_passes_unknown_types decimalOps
    [BatchItem.known (.orderBookModify "0.01" "bid" "5"),
     BatchItem.unknown "orderBookReset" (.obj [("depth", .str "5")]),
     BatchItem.known (.orderBookRemove "0.02" "ask")]
    [{ Data := .modify { Rate := ⟨1, 2⟩, TypeOrder := "bid", Amount := ⟨5, 0⟩ },
       TypeUpdate := "orderBookModify" },
     { Data := .raw (some (.obj [("depth", .str "5")])), TypeUpdate := "orderBookReset" },
     { Data := .remove { Rate := ⟨2, 2⟩, TypeOrder := "ask" },
       TypeUpdate := "orderBookRemove" }]
    (by rfl)).1

/-! ## Theorems: malformed ticker and market payloads -/

theorem convertArgsToTick_error_or_ok {F : Type} (ops : FloatOps F)
    (a0 a1 a2 a3 a4 a5 a6 a7 a8 a9 : Value F) (rest : List (Value F)) :
    (∃ e, convertArgsToTick ops
        (a0 :: a1 :: a2 :: a3 :: a4 :: a5 :: a6 :: a7 :: a8 :: a9 :: rest) = .error e) ∨
    (tickElementOk ops 0 a0 = true ∧
     tickElementOk ops 1 a1 = true ∧
     tickElementOk ops 2 a2 = true ∧
     tickElementOk ops 3 a3 = true ∧
     tickElementOk ops 4 a4 = true ∧
     tickElementOk ops 5 a5 = true ∧
     tickElementOk ops 6 a6 = true ∧
     tickElementOk ops 7 a7 = true ∧
     tickElementOk ops 8 a8 = true ∧
     tickElementOk ops 9 a9 = true) := by
  simp only [convertArgsToTick, index, List.get?, bind, pure]
  cases a0 <;> try (left; simp [Result.bind]; done)
  rename_i p
  cases a1 <;> try (left; simp [convertStringToFloat, Result.bind, *]; done)
  rename_i s1
  cases h1 : ops.parseFloat s1 <;> try (left; simp [convertStringToFloat, Result.bind, *]; done)
  rename_i v1
  cases a2 <;> try (left; simp [convertStringToFloat, Result.bind, *]; done)
  rename_i s2
  cases h2 : ops.parseFloat s2 <;> try (left; simp [convertStringToFloat, Result.bind, *]; done)
  rename_i v2
  cases a3 <;> try (left; simp [convertStringToFloat, Result.bind, *]; done)
  rename_i s3
  cases h3 : ops.parseFloat s3 <;> try (left; simp [convertStringToFloat, Result.bind, *]; done)
  rename_i v3
  cases a4 <;> try (left; simp [convertStringToFloat, Result.bind, *]; done)
  rename_i s4
  cases h4 : ops.parseFloat s4 <;> try (left; simp [convertStringToFloat, Result.bind, *]; done)
  rename_i v4
  cases a5 <;> try (left; simp [convertStringToFloat, Result.bind, *]; done)
  rename_i s5
  cases h5 : ops.parseFloat s5 <;> try (left; simp [convertStringToFloat, Result.bind, *]; done)
  rename_i v5
  cases a6 <;> try (left; simp [convertStringToFloat, Result.bind, *]; done)
  rename_i s6
  cases h6 : ops.parseFloat s6 <;> try (left; simp [convertStringToFloat, Result.bind, *]; done)
  rename_i v6
  cases a7 <;> try (left; simp [convertStringToFloat, Result.bind, *]; done)
  rename_i z
  cases a8 <;> try (left; simp [convertStringToFloat, Result.bind, *]; done)
  rename_i s8
  cases h8 : ops.parseFloat s8 <;> try (left; simp [convertStringToFloat, Result.bind, *]; done)
  rename_i v8
  cases a9 <;> try (left; simp [convertStringToFloat, Result.bind, *]; done)
  rename_i s9
  cases h9 : ops.parseFloat s9 <;> try (left; simp [convertStringToFloat, Result.bind, *]; done)
  rename_i v9
  right
  simp [tickElementOk, *]

/-- C14: for a ticker payload of at least ten elements in which the element at
some index below ten has the wrong type or content, `convertArgsToTick`
returns an error and no tick, and the ticker handler drops the message:
nothing is sent on any channel and the trace is unchanged. -/
theorem convertArgsToTick_malformed_element {F : Type} (ops : FloatOps F) (now : Int)
    (env : SelectEnv) (args : List (Value F)) (s : State F) (i : Nat) (v : Value F)
    (hlen : 10 ≤ args.length) (hi : i < 10) (hget : args.get? i = some v)
    (hbad : tickElementOk ops i v = false) :
    ∃ e, convertArgsToTick ops args = .error e ∧
      (tickerHandler ops now env args s).2 = .dropped e ∧
      (tickerHandler ops now env args s).1.ticker = s.ticker ∧
      (tickerHandler ops now env args s).1.trollbox = s.trollbox ∧
      (tickerHandler ops now env args s).1.marketUpdaterInfos = s.marketUpdaterInfos ∧
      (tickerHandler ops now env args s).1.trace = s.trace := by
  rcases args with _ | ⟨a0, _ | ⟨a1, _ | ⟨a2, _ | ⟨a3, _ | ⟨a4, _ | ⟨a5, _ | ⟨a6, _ |
    ⟨a7, _ | ⟨a8, _ | ⟨a9, rest⟩⟩⟩⟩⟩⟩⟩⟩⟩⟩ <;>
    try (simp at hlen; done)
  rcases convertArgsToTick_error_or_ok ops a0 a1 a2 a3 a4 a5 a6 a7 a8 a9 rest with
    ⟨e, he⟩ | ⟨h0, h1, h2, h3, h4, h5, h6, h7, h8, h9⟩
  · refine ⟨e, he, ?_, ?_, ?_, ?_, ?_⟩ <;> simp [tickerHandler, he, updateTopicTimestamp]
  · exfalso
    interval_cases i <;> simp only [List.get?, Option.some.injEq] at hget <;> subst hget <;>
      simp_all

/-- The ticker payload of the specification with `abc` as its fourth element
fails to decode and is dropped by the handler on the sample client. -/
theorem convertArgsToTick_malformed_element_witness :
    ∃ e, convertArgsToTick decimalOps
          [.str "BTC_ETH", .str "0.05", .str "0.051", .str "abc", .str "0.01", .str "100.0",
           .str "2000.0", .num ⟨0, 0⟩, .str "0.06", .str "0.04"] = .error e ∧
      (tickerHandler decimalOps (30 * Second) { consumer := true, pickSend := true }
          [.str "BTC_ETH", .str "0.05", .str "0.051", .str "abc", .str "0.01", .str "100.0",
           .str "2000.0", .num ⟨0, 0⟩, .str "0.06", .str "0.04"] sampleClient).2
        = .dropped e ∧
      (tickerHandler decimalOps (30 * Second) { consumer := true, pickSend := true }
          [.str "BTC_ETH", .str "0.05", .str "0.051", .str "abc", .str "0.01", .str "100.0",
           .str "2000.0", .num ⟨0, 0⟩, .str "0.06", .str "0.04"] sampleClient).1.ticker
        = sampleClient.ticker ∧
      (tickerHandler decimalOps (30 * Second) { consumer := true, pickSend := true }
          [.str "BTC_ETH", .str "0.05", .str "0.051", .str "abc", .str "0.01", .str "100.0",
           .str "2000.0", .num ⟨0, 0⟩, .str "0.06", .str "0.04"] sampleClient).1.trollbox
        = sampleClient.trollbox ∧
      (tickerHandler decimalOps (30 * Second) { consumer := true, pickSend := true }
          [.str "BTC_ETH", .str "0.05", .str "0.051", .str "abc", .str "0.01", .str "100.0",
           .str "2000.0", .num ⟨0, 0⟩, .str "0.06", .str "0.04"]
          sampleClient).1.marketUpdaterInfos = sampleClient.marketUpdaterInfos ∧
      (tickerHandler decimalOps (30 * Second) { consumer := true, pickSend := true }
          [.str "BTC_ETH", .str "0.05", .str "0.051", .str "abc", .str "0.01", .str "100.0",
           .str "2000.0", .num ⟨0, 0⟩, .str "0.06", .str "0.04"] sampleClient).1.trace
        = sampleClient.trace :=
  convertArgsToTick_malformed_element decimalOps (30 * Second)
    { consumer := true, pickSend := true }
    [.str "BTC_ETH", .str "0.05", .str "0.051", .str "abc", .str "0.01", .str "100.0",
     .str "2000.0", .num ⟨0, 0⟩, .str "0.06", .str "0.04"] sampleClient 3 (.str "abc")
    (by decide) (by decide) (by rfl) (by decide)

theorem bind_ne_panic {α β : Type} (r : Result α) (f : α → Result β)
    (hr : r ≠ .panic) (hf : ∀ v, f v ≠ .panic) : r.bind f ≠ .panic := by
  cases r with
  | ok v => exact hf v
  | error e => simp [Result.bind]
  | panic => exact absurd rfl hr

theorem storeString_ne_panic {F : Type} (field cur : String) (v : Value F) :
    storeString field cur v ≠ .panic := by
  cases v <;> simp [storeString]

theorem storeQuotedFloat_ne_panic {F : Type} (ops : FloatOps F) (field : String) (cur : F)
    (v : Value F) : storeQuotedFloat ops field cur v ≠ .panic := by
  cases v <;> simp [storeQuotedFloat]
  split
  · simp
  · split <;> simp

theorem storeQuotedInt64_ne_panic {F : Type} (ops : FloatOps F) (field : String) (cur : Int)
    (v : Value F) : storeQuotedInt64 ops field cur v ≠ .panic := by
  cases v <;> simp [storeQuotedInt64]
  split
  · simp
  · split <;> simp

theorem decodeMembers_ne_panic {F σ : Type} (step : σ → String × Value F → Result σ)
    (hstep : ∀ st kv, step st kv ≠ .panic) :
    ∀ (kvs : List (String × Value F)) (st : σ), decodeMembers step st kvs ≠ .panic := by
  intro kvs
  induction kvs with
  | nil => intro st; simp [decodeMembers]
  | cons kv rest ih =>
    intro st
    simp only [decodeMembers]
    exact bind_ne_panic _ _ (hstep st kv) (fun st1 => ih st1)

theorem unmarshalStruct_ne_panic {F σ : Type} (what : String)
    (step : σ → String × Value F → Result σ) (hstep : ∀ st kv, step st kv ≠ .panic)
    (st : σ) (v : Value F) : unmarshalStruct what step st v ≠ .panic := by
  cases v <;> simp [unmarshalStruct]
  exact decodeMembers_ne_panic step hstep _ st

theorem ok_ne_panic {α : Type} (v : α) : (Result.ok v : Result α) ≠ .panic := by
  simp

theorem OrderBookModify_member_ne_panic {F : Type} (ops : FloatOps F)
    (obm : OrderBookModify F) (kv : String × Value F) :
    OrderBookModify.member ops obm kv ≠ .panic := by
  unfold OrderBookModify.member
  repeat' split
  · exact bind_ne_panic _ _ (storeQuotedFloat_ne_panic ops _ _ _) (fun _ => ok_ne_panic _)
  · exact bind_ne_panic _ _ (storeString_ne_panic _ _ _) (fun _ => ok_ne_panic _)
  · exact bind_ne_panic _ _ (storeQuotedFloat_ne_panic ops _ _ _) (fun _ => ok_ne_panic _)
  · exact ok_ne_panic _

theorem OrderBookRemove_member_ne_panic {F : Type} (ops : FloatOps F)
    (obr : OrderBookRemove F) (kv : String × Value F) :
    OrderBookRemove.member ops obr kv ≠ .panic := by
  unfold OrderBookRemove.member
  repeat' split
  · exact bind_ne_panic _ _ (storeQuotedFloat_ne_panic ops _ _ _) (fun _ => ok_ne_panic _)
  · exact bind_ne_panic _ _ (storeString_ne_panic _ _ _) (fun _ => ok_ne_panic _)
  · exact ok_ne_panic _

theorem NewTradeAux_member_ne_panic {F : Type} (ops : FloatOps F) (aux : NewTradeAux F)
    (kv : String × Value F) : NewTradeAux.member ops aux kv ≠ .panic := by
  unfold NewTradeAux.member
  repeat' split
  · exact bind_ne_panic _ _ (storeString_ne_panic _ _ _) (fun _ => ok_ne_panic _)
  · exact bind_ne_panic _ _ (storeQuotedInt64_ne_panic ops _ _ _) (fun _ => ok_ne_panic _)
  · exact bind_ne_panic _ _ (storeQuotedFloat_ne_panic ops _ _ _) (fun _ => ok_ne_panic _)
  · exact bind_ne_panic _ _ (storeQuotedFloat_ne_panic ops _ _ _) (fun _ => ok_ne_panic _)
  · exact bind_ne_panic _ _ (storeQuotedFloat_ne_panic ops _ _ _) (fun _ => ok_ne_panic _)
  · exact bind_ne_panic _ _ (storeString_ne_panic _ _ _) (fun _ => ok_ne_panic _)
  · exact ok_ne_panic _

theorem Envelope_member_ne_panic {F : Type} (env : Envelope F) (kv : String × Value F) :
    Envelope.member env kv ≠ .panic := by
  unfold Envelope.member
  repeat' split
  all_goals first
    | exact ok_ne_panic _
    | exact bind_ne_panic _ _ (storeString_ne_panic _ _ _) (fun _ => ok_ne_panic _)

theorem NewTrade_UnmarshalJSON_ne_panic {F : Type} (ops : FloatOps F) (n : NewTrade F)
    (data : Value F) : NewTrade.UnmarshalJSON ops n data ≠ .panic := by
  unfold NewTrade.UnmarshalJSON
  refine bind_ne_panic _ _
    (unmarshalStruct_ne_panic _ _ (NewTradeAux_member_ne_panic ops) _ _) ?_
  intro aux
  split <;> simp

theorem unmarshalDataField_ne_panic {F σ : Type} (decode : Value F → Result σ)
    (hdecode : ∀ v, decode v ≠ .panic) (msg : Option (Value F)) :
    unmarshalDataField decode msg ≠ .panic := by
  cases msg with
  | none => simp [unmarshalDataField]
  | some v => exact hdecode v

theorem convertMarketUpdate_ne_panic {F : Type} (ops : FloatOps F) (val : Value F) :
    convertMarketUpdate ops val ≠ .panic := by
  unfold convertMarketUpdate
  refine bind_ne_panic _ _ (unmarshalStruct_ne_panic _ _ Envelope_member_ne_panic _ _) ?_
  intro env
  repeat' split
  · exact bind_ne_panic _ _
      (unmarshalDataField_ne_panic _
        (unmarshalStruct_ne_panic _ _ (OrderBookModify_member_ne_panic ops) _) _)
      (fun _ => ok_ne_panic _)
  · exact bind_ne_panic _ _
      (unmarshalDataField_ne_panic _
        (unmarshalStruct_ne_panic _ _ (OrderBookRemove_member_ne_panic ops) _) _)
      (fun _ => ok_ne_panic _)
  · exact bind_ne_panic _ _
      (unmarshalDataField_ne_panic _ (NewTrade_UnmarshalJSON_ne_panic ops _) _)
      (fun _ => ok_ne_panic _)
  · exact ok_ne_panic _

theorem convertArgsToMarketUpdateSlice_error {F : Type} (ops : FloatOps F) :
    ∀ (args : List (Value F)),
      (∃ v ∈ args, (convertMarketUpdate ops v).isError = true) →
      ∃ e, convertArgsToMarketUpdateSlice ops args = .error e := by
  intro args
  induction args with
  | nil => intro h; obtain ⟨v, hv, _⟩ := h; cases hv
  | cons val rest ih =>
    intro h
    obtain ⟨v, hv, he⟩ := h
    cases hc : convertMarketUpdate ops val with
    | panic => exact absurd hc (convertMarketUpdate_ne_panic ops val)
    | error e => exact ⟨e, by simp [convertArgsToMarketUpdateSlice, hc, Result.bind]⟩
    | ok u =>
      rcases List.mem_cons.mp hv with h1 | h1
      · subst h1
        rw [hc] at he
        simp [Result.isError] at he
      · obtain ⟨e, he1⟩ := ih ⟨v, h1, he⟩
        exact ⟨e, by simp [convertArgsToMarketUpdateSlice, hc, he1, Result.bind]⟩

/-- C15: if some sub-event of a market message with a numeric `seq` fails to
decode, `convertArgsToMarketUpdateSlice` returns an error and no updates,
whatever the other sub-events are, and the market handler drops the message:
nothing is sent on any channel and the trace is unchanged. -/
theorem marketHandler_drops_batch_on_decode_error {F : Type} (ops : FloatOps F)
    (currencyPair : String) (now : Int) (env : SelectEnv) (args : List (Value F))
    (kwargs : List (String × Value F)) (seq : F) (s : State F)
    (hseq : mapGet kwargs "seq" = some (.num seq))
    (hbad : ∃ v ∈ args, (convertMarketUpdate ops v).isError = true) :
    ∃ e, convertArgsToMarketUpdateSlice ops args = .error e ∧
      (marketHandler ops currencyPair now env args kwargs s).2 = .dropped e ∧
      (marketHandler ops currencyPair now env args kwargs s).1.marketUpdaterInfos
        = s.marketUpdaterInfos ∧
      (marketHandler ops currencyPair now env args kwargs s).1.ticker = s.ticker ∧
      (marketHandler ops currencyPair now env args kwargs s).1.trollbox = s.trollbox ∧
      (marketHandler ops currencyPair now env args kwargs s).1.trace = s.trace := by
  obtain ⟨e, he⟩ := convertArgsToMarketUpdateSlice_error ops args hbad
  have hne : ¬ args.length = 0 := by
    obtain ⟨v, hv, _⟩ := hbad
    intro h0
    rw [List.length_eq_zero] at h0
    subst h0
    cases hv
  refine ⟨e, he, ?_, ?_, ?_, ?_, ?_⟩ <;>
    simp [marketHandler, hseq, hne, he, updateTopicTimestamp]

/-- A batch of a well-formed book modify, a trade whose date is `yesterday`
and a well-formed book removal is dropped as a whole on the sample client. -/
theorem marketHandler_drops_batch_on_decode_error_witness :
    ∃ e, convertArgsToMarketUpdateSlice decimalOps
          ([SubEvent.orderBookModify "0.01" "bid" "5",
            SubEvent.newTrade "9" "0.01" "5" "yesterday" "0.05" "buy",
            SubEvent.orderBookRemove "0.02" "ask"].map SubEvent.toValue) = .error e ∧
      (marketHandler decimalOps "BTC_ETH" (30 * Second) { consumer := true, pickSend := true }
          ([SubEvent.orderBookModify "0.01" "bid" "5",
            SubEvent.newTrade "9" "0.01" "5" "yesterday" "0.05" "buy",
            SubEvent.orderBookRemove "0.02" "ask"].map SubEvent.toValue)
          [("seq", .num ⟨42, 0⟩)] sampleClient).2 = .dropped e ∧
      (marketHandler decimalOps "BTC_ETH" (30 * Second) { consumer := true, pickSend := true }
          ([SubEvent.orderBookModify "0.01" "bid" "5",
            SubEvent.newTrade "9" "0.01" "5" "yesterday" "0.05" "buy",
            SubEvent.orderBookRemove "0.02" "ask"].map SubEvent.toValue)
          [("seq", .num ⟨42, 0⟩)] sampleClient).1.marketUpdaterInfos
        = sampleClient.marketUpdaterInfos ∧
      (marketHandler decimalOps "BTC_ETH" (30 * Second) { consumer := true, pickSend := true }
          ([SubEvent.orderBookModify "0.01" "bid" "5",
            SubEvent.newTrade "9" "0.01" "5" "yesterday" "0.05" "buy",
            SubEvent.orderBookRemove "0.02" "ask"].map SubEvent.toValue)
          [("seq", .num ⟨42, 0⟩)] sampleClient).1.ticker = sampleClient.ticker ∧
      (marketHandler decimalOps "BTC_ETH" (30 * Second) { consumer := true, pickSend := true }
          ([SubEvent.orderBookModify "0.01" "bid" "5",
            SubEvent.newTrade "9" "0.01" "5" "yesterday" "0.05" "buy",
            SubEvent.orderBookRemove "0.02" "ask"].map SubEvent.toValue)
          [("seq", .num ⟨42, 0⟩)] sampleClient).1.trollbox = sampleClient.trollbox ∧
      (marketHandler decimalOps "BTC_ETH" (30 * Second) { consumer := true, pickSend := true }
          ([SubEvent.orderBookModify "0.01" "bid" "5",
            SubEvent.newTrade "9" "0.01" "5" "yesterday" "0.05" "buy",
            SubEvent.orderBookRemove "0.02" "ask"].map SubEvent.toValue)
          [("seq", .num ⟨42, 0⟩)] sampleClient).1.trace = sampleClient.trace :=
  marketHandler_drops_batch_on_decode_error decimalOps "BTC_ETH" (30 * Second)
    { consumer := true, pickSend := true }
    ([SubEvent.orderBookModify "0.01" "bid" "5",
      SubEvent.newTrade "9" "0.01" "5" "yesterday" "0.05" "buy",
      SubEvent.orderBookRemove "0.02" "ask"].map SubEvent.toValue)
    [("seq", .num ⟨42, 0⟩)] ⟨42, 0⟩ sampleClient (by rfl)
    ⟨SubEvent.toValue (.newTrade "9" "0.01" "5" "yesterday" "0.05" "buy"),
     List.mem_cons_of_mem _ (List.mem_cons_self _ _), by decide⟩

theorem convertMarketUpdate_bad_rate {F : Type} (ops : FloatOps F)
    (rate typeOrder amount : String) (hnull : rate ≠ "null")
    (hrate : ops.jsonFloat rate = none) :
    (convertMarketUpdate ops
      (SubEvent.toValue (.orderBookModify rate typeOrder amount))).isError = true := by
  have k1 : keyMatches "Data" "data" = true := by decide
  have k2 : keyMatches "Data" "type" = false := by decide
  have k3 : keyMatches "type" "type" = true := by decide
  have k4 : keyMatches "rate" "amount" = false := by decide
  have k5 : keyMatches "type" "amount" = false := by decide
  have k6 : keyMatches "amount" "amount" = true := by decide
  have k7 : keyMatches "rate" "rate" = true := by decide
  cases ha : storeQuotedFloat ops "amount" ops.zero (Value.str amount : Value F) with
  | panic => exact absurd ha (storeQuotedFloat_ne_panic ops _ _ _)
  | error e =>
    simp [convertMarketUpdate, SubEvent.toValue, unmarshalStruct, decodeMembers,
      Envelope.member, storeString, Result.bind, unmarshalDataField,
      OrderBookModify.member, k1, k2, k3, k4, k5, k6, ha, Result.isError]
  | ok a =>
    have hr : ∀ cur : F, storeQuotedFloat ops "rate" cur (Value.str rate : Value F)
        = .error (.json "rate") := by
      intro cur
      simp [storeQuotedFloat, hnull, hrate]
    simp [convertMarketUpdate, SubEvent.toValue, unmarshalStruct, decodeMembers,
      Envelope.member, storeString, Result.bind, unmarshalDataField,
      OrderBookModify.member, k1, k2, k3, k4, k5, k6, k7, ha, hr, Result.isError]

theorem NewTrade_UnmarshalJSON_date {F : Type} (ops : FloatOps F)
    (tradeID rate amount date total typeOrder : String) (i : Int) (r a t : F)
    (hi : quotedNumber ops.jsonInt64 tradeID = some i)
    (hr : quotedNumber ops.jsonFloat rate = some r)
    (ha : quotedNumber ops.jsonFloat amount = some a)
    (ht : quotedNumber ops.jsonFloat total = some t) :
    NewTrade.UnmarshalJSON ops
        { TradeId := 0, Rate := ops.zero, Amount := ops.zero, Date := 0, Total := ops.zero,
          TypeOrder := "" }
        (.obj [("amount", .str amount), ("date", .str date), ("rate", .str rate),
               ("total", .str total), ("tradeID", .str tradeID), ("type", .str typeOrder)])
      = match ops.parseTimeUnix date with
        | none => .error .timeParse
        | some d => .ok { TradeId := i, Rate := r, Amount := a, Date := d, Total := t,
                          TypeOrder := typeOrder } := by
  have k4 : keyMatches "rate" "amount" = false := by decide
  have k6 : keyMatches "amount" "amount" = true := by decide
  have k7 : keyMatches "rate" "rate" = true := by decide
  have k8 : keyMatches "rate" "type" = false := by decide
  have k9 : keyMatches "Date" "amount" = false := by decide
  have k10 : keyMatches "tradeID" "amount" = false := by decide
  have k11 : keyMatches "Date" "date" = true := by decide
  have k12 : keyMatches "Date" "rate" = false := by decide
  have k13 : keyMatches "tradeID" "rate" = false := by decide
  have k14 : keyMatches "Date" "total" = false := by decide
  have k15 : keyMatches "tradeID" "total" = false := by decide
  have k16 : keyMatches "rate" "total" = false := by decide
  have k17 : keyMatches "amount" "total" = false := by decide
  have k18 : keyMatches "total" "total" = true := by decide
  have k19 : keyMatches "Date" "tradeID" = false := by decide
  have k20 : keyMatches "tradeID" "tradeID" = true := by decide
  have k21 : keyMatches "Date" "type" = false := by decide
  have k22 : keyMatches "tradeID" "type" = false := by decide
  have k23 : keyMatches "amount" "type" = false := by decide
  have k24 : keyMatches "total" "type" = false := by decide
  have k3 : keyMatches "type" "type" = true := by decide
  obtain ⟨hi1, hi2⟩ := quotedNumber_eq_some hi
  obtain ⟨hr1, hr2⟩ := quotedNumber_eq_some hr
  obtain ⟨ha1, ha2⟩ := quotedNumber_eq_some ha
  obtain ⟨ht1, ht2⟩ := quotedNumber_eq_some ht
  cases hd : ops.parseTimeUnix date <;>
    simp [unmarshalStruct, decodeMembers, storeString, Result.bind,
      NewTrade.UnmarshalJSON, NewTradeAux.member, storeQuotedFloat, storeQuotedInt64,
      k3, k4, k6, k7, k8, k9, k10, k11, k12, k13, k14, k15, k16, k17, k18, k19, k20,
      k21, k22, k23, k24, hi1, hi2, hr1, hr2, ha1, ha2, ht1, ht2, hd]

/-! ## Theorems: rejected bus calls and registry operations -/

/-- C16: when the bus rejects the subscribe call, `SubscribeTicker`,
`SubscribeTrollbox` and `SubscribeMarket` return the error and no channel; the
closure map, the timestamp map and the global timestamp are unchanged, the
read lock is released, the two package signals are untouched and the signal
of the topic is not replaced: it is the one the topic had, or (for a pair,
whose entry in `marketUpdaterInfos` is deleted) there is none. -/
theorem Subscribe_rejected {F : Type} (t : Closure) (now : Int) (s : State F) :
    (Subscribe t now false s).2 = .error (.bus "turnpike.Client.Subscribe") ∧
    (Subscribe t now false s).1.subscription = s.subscription ∧
    (Subscribe t now false s).1.topicLastTimestamp = s.topicLastTimestamp ∧
    (Subscribe t now false s).1.lastTimestamp = s.lastTimestamp ∧
    (Subscribe t now false s).1.wampReaders = s.wampReaders ∧
    (Subscribe t now false s).1.tickerUnsubscribed = s.tickerUnsubscribed ∧
    (Subscribe t now false s).1.trollboxUnsubscribed = s.trollboxUnsubscribed ∧
    (signalOf t (Subscribe t now false s).1 = signalOf t s ∨
      signalOf t (Subscribe t now false s).1 = none) ∧
    (Subscribe t now false s).1.ticker = s.ticker ∧
    (Subscribe t now false s).1.trollbox = s.trollbox := by
  cases t with
  | ticker =>
    simp [Subscribe, SubscribeTicker, Closure.call, rlock, runlock, record, signalOf]
  | trollbox =>
    simp [Subscribe, SubscribeTrollbox, Closure.call, rlock, runlock, record, signalOf]
  | market currencyPair =>
    cases hm : mapGet s.marketUpdaterInfos currencyPair with
    | none =>
      simp [Subscribe, SubscribeMarket, Closure.call, rlock, runlock, record, signalOf, hm,
        mapGet_mapDelete_self]
    | some info =>
      simp [Subscribe, SubscribeMarket, Closure.call, rlock, runlock, record, signalOf, hm,
        mapGet_mapDelete_self]

/-- C17: when the bus rejects the unsubscribe call, `UnsubscribeTicker`,
`UnsubscribeTrollbox` and `UnsubscribeMarket` return the error and leave the
registry, the channels and the signals as they were, but not the session lock:
the state after the call differs from the state before it by the recorded bus
call and by one more holder of the read lock.  On the sample client the number
of holders goes from 0 to 1. -/
theorem Unsubscribe_rejected_state {F : Type} (t : Closure) (s : State F) :
    Unsubscribe t false s
      = ({ s with wampReaders := s.wampReaders + 1,
                  trace := s.trace ++ [.busUnsubscribe t.topic false] },
         .error (.bus "turnpike.Client.Unsuscribe")) ∧
    sampleClient.wampReaders = 0 ∧
    (UnsubscribeTicker false sampleClient).1.wampReaders = 1 ∧
    (UnsubscribeTrollbox false sampleClient).1.wampReaders = 1 ∧
    (UnsubscribeMarket false "BTC_ETH" sampleClient).1.wampReaders = 1 := by
  refine ⟨?_, by decide, by decide, by decide, by decide⟩
  cases t <;>
    simp [Unsubscribe, UnsubscribeTicker, UnsubscribeTrollbox, UnsubscribeMarket, record,
      rlock, Closure.topic]

theorem mapDelete_mapDelete {α : Type} (m : List (String × α)) (k : String) :
    mapDelete (mapDelete m k) k = mapDelete m k := by
  simp [mapDelete, List.filter_filter]

theorem mapDelete_mapSet_self {α : Type} (m : List (String × α)) (k : String) (v : α) :
    mapDelete (mapSet m k v) k = mapDelete m k := by
  have h : mapDelete ((k, v) :: mapDelete m k) k = mapDelete (mapDelete m k) k := by
    simp [mapDelete, List.filter]
  rw [mapSet, h, mapDelete_mapDelete]

theorem mapSet_mapSet {α : Type} (m : List (String × α)) (k : String) (v : α) :
    mapSet (mapSet m k v) k v = mapSet m k v := by
  rw [mapSet, mapDelete_mapSet_self]
  rfl

theorem mapDelete_of_mapGet_none {α : Type} (m : List (String × α)) (k : String)
    (h : mapGet m k = none) : mapDelete m k = m := by
  induction m with
  | nil => rfl
  | cons kv rest ih =>
    obtain ⟨k1, v⟩ := kv
    by_cases h1 : k1 = k
    · simp [mapGet, h1] at h
    · simp only [mapGet, h1, if_false] at h
      have hstep : mapDelete ((k1, v) :: rest) k = (k1, v) :: mapDelete rest k := by
        simp [mapDelete, List.filter, h1]
      rw [hstep, ih h]

theorem not_mem_mapKeys_mapDelete {α : Type} (m : List (String × α)) (k : String) :
    k ∉ mapKeys (mapDelete m k) := by
  intro h
  obtain ⟨kv, hkv, hk⟩ := List.mem_map.mp h
  have hsome := mapGet_isSome_of_mem (mapDelete m k) kv hkv
  rw [hk, mapGet_mapDelete_self] at hsome
  cases hsome

/-- C18: after `addSubscription(topic, f)` at time `now` the registry maps
the topic to the closure `f` and to the timestamp `now`, whatever it held for
the topic before; the closure and the timestamp of every other topic and the
global timestamp are unchanged; and a second call with the same arguments at
the same time leaves the two maps as the first call made them. -/
theorem addSubscription_registry {F : Type} (now : Int) (topic other : String)
    (f : Closure) (s : State F) (hne : other ≠ topic) :
    mapGet (addSubscription now topic f s).subscription topic = some f ∧
    mapGet (addSubscription now topic f s).topicLastTimestamp topic = some now ∧
    mapGet (addSubscription now topic f s).subscription other
      = mapGet s.subscription other ∧
    mapGet (addSubscription now topic f s).topicLastTimestamp other
      = mapGet s.topicLastTimestamp other ∧
    (addSubscription now topic f s).lastTimestamp = s.lastTimestamp ∧
    (addSubscription now topic f (addSubscription now topic f s)).subscription
      = (addSubscription now topic f s).subscription ∧
    (addSubscription now topic f (addSubscription now topic f s)).topicLastTimestamp
      = (addSubscription now topic f s).topicLastTimestamp := by
  refine ⟨mapGet_mapSet_self _ _ _, mapGet_mapSet_self _ _ _,
    mapGet_mapSet_ne _ _ _ _ hne, mapGet_mapSet_ne _ _ _ _ hne, rfl, ?_, ?_⟩
  · exact mapSet_mapSet _ _ _
  · exact mapSet_mapSet _ _ _

/-- On the sample client, adding the ticker again at 30 seconds stamps it with
that time, keeps the entry of `BTC_ETH`, and is idempotent. -/
theorem addSubscription_registry_witness :
    mapGet (addSubscription (30 * Second) TICKER .ticker sampleClient).subscription TICKER
      = some .ticker ∧
    mapGet (addSubscription (30 * Second) TICKER .ticker sampleClient).topicLastTimestamp
      TICKER = some (30 * Second) ∧
    mapGet (addSubscription (30 * Second) TICKER .ticker sampleClient).subscription "BTC_ETH"
      = mapGet sampleClient.subscription "BTC_ETH" ∧
    mapGet (addSubscription (30 * Second) TICKER .ticker sampleClient).topicLastTimestamp
      "BTC_ETH" = mapGet sampleClient.topicLastTimestamp "BTC_ETH" ∧
    (addSubscription (30 * Second) TICKER .ticker sampleClient).lastTimestamp
      = sampleClient.lastTimestamp ∧
    (addSubscription (30 * Second) TICKER .ticker
        (addSubscription (30 * Second) TICKER .ticker sampleClient)).subscription
      = (addSubscription (30 * Second) TICKER .ticker sampleClient).subscription ∧
    (addSubscription (30 * Second) TICKER .ticker
        (addSubscription (30 * Second) TICKER .ticker sampleClient)).topicLastTimestamp
      = (addSubscription (30 * Second) TICKER .ticker sampleClient).topicLastTimestamp :=
  addSubscription_registry (30 * Second) TICKER "BTC_ETH" .ticker sampleClient (by decide)

theorem resubscribeStaleTrace_topic_mem (subscription : List (String × Closure))
    (subscribeOk : String → Bool) (t : String) :
    ∀ l : List (String × Int),
      (Action.resubscribe t ∈ resubscribeStaleTrace subscription subscribeOk l ∨
        Action.logStale t ∈ resubscribeStaleTrace subscription subscribeOk l) →
      t ∈ mapKeys l := by
  intro l
  induction l with
  | nil => intro h; simp [resubscribeStaleTrace] at h
  | cons kv rest ih =>
    obtain ⟨k1, ts⟩ := kv
    intro h
    cases hm : mapGet subscription k1 with
    | none =>
      simp only [resubscribeStaleTrace, hm, List.mem_singleton] at h
      rcases h with h | h
      · cases h
      · cases h
        simp [mapKeys]
    | some c =>
      simp only [resubscribeStaleTrace, hm, List.mem_cons] at h
      have hrest : t = k1 ∨ t ∈ mapKeys rest := by
        rcases h with (h | h | h | h) | (h | h | h | h)
        · cases h
        · cases h
          exact Or.inl rfl
        · cases h
        · exact Or.inr (ih (Or.inl h))
        · cases h
          exact Or.inl rfl
        · cases h
        · cases h
        · exact Or.inr (ih (Or.inr h))
      rcases hrest with h1 | h1
      · simp [mapKeys, h1]
      · simp only [mapKeys] at h1
        simp [mapKeys, h1]

theorem autoReconnectCycle_topic_pass_eq {F : Type} (conf : Conf) (timeout : Int)
    (env : CycleEnv) (fuel : Nat) (s : State F)
    (hfresh : ¬ (env.now - s.lastTimestamp > timeout)) :
    ∃ outcome, autoReconnectCycle conf timeout env fuel s
      = some ({ s with trace := (s.trace ++ resubscribeStaleTrace s.subscription
                  env.subscribeOk
                  (topicsError env.now (topicTimeout conf)
                    s.topicLastTimestamp)) },
              outcome) := by
  unfold autoReconnectCycle
  rw [if_neg hfresh]
  simp only [resubscribeStale_state]
  cases (topicsError env.now (topicTimeout conf) s.topicLastTimestamp).all
      (fun kv => (mapGet s.subscription kv.1).isSome)
  · exact ⟨.crashed, rfl⟩
  · exact ⟨.checked, rfl⟩

/-- C19: after `removeSubscription(topic)` the registry has neither a closure
nor a timestamp for the topic, the closure and the timestamp of every other
topic and the global timestamp are unchanged, and a monitor cycle that follows
and runs the per-topic pass neither reports the topic stale nor calls a
closure for it; when the topic was not registered the two maps are the same
as before. -/
theorem removeSubscription_registry {F : Type} (topic other : String) (s : State F)
    (conf : Conf) (timeout : Int) (env : CycleEnv) (fuel : Nat)
    (hne : other ≠ topic)
    (hfresh : ¬ (env.now - s.lastTimestamp > timeout)) :
    mapGet (removeSubscription topic s).subscription topic = none ∧
    mapGet (removeSubscription topic s).topicLastTimestamp topic = none ∧
    mapGet (removeSubscription topic s).subscription other = mapGet s.subscription other ∧
    mapGet (removeSubscription topic s).topicLastTimestamp other
      = mapGet s.topicLastTimestamp other ∧
    (removeSubscription topic s).lastTimestamp = s.lastTimestamp ∧
    (∃ new outcome,
      autoReconnectCycle conf timeout env fuel (removeSubscription topic s)
        = some ({ (removeSubscription topic s) with
                    trace := (removeSubscription topic s).trace ++ new }, outcome) ∧
      new.count (.resubscribe topic) = 0 ∧ new.count (.logStale topic) = 0) ∧
    (mapGet s.subscription topic = none → mapGet s.topicLastTimestamp topic = none →
      (removeSubscription topic s).subscription = s.subscription ∧
      (removeSubscription topic s).topicLastTimestamp = s.topicLastTimestamp) := by
  refine ⟨mapGet_mapDelete_self _ _, mapGet_mapDelete_self _ _,
    mapGet_mapDelete_ne _ _ _ hne, mapGet_mapDelete_ne _ _ _ hne, rfl, ?_, ?_⟩
  · obtain ⟨outcome, hc⟩ := autoReconnectCycle_topic_pass_eq conf timeout env fuel
      (removeSubscription topic s) hfresh
    have hnot : topic ∉ mapKeys (topicsError env.now (topicTimeout conf)
        (removeSubscription topic s).topicLastTimestamp) := by
      intro h
      have hsub : List.Sublist
          (mapKeys (topicsError env.now (topicTimeout conf)
            (removeSubscription topic s).topicLastTimestamp))
          (mapKeys (removeSubscription topic s).topicLastTimestamp) :=
        List.Sublist.map Prod.fst (List.filter_sublist _)
      exact not_mem_mapKeys_mapDelete s.topicLastTimestamp topic (hsub.subset h)
    refine ⟨_, outcome, hc, ?_, ?_⟩
    · apply List.count_eq_zero_of_not_mem
      intro h
      exact hnot (resubscribeStaleTrace_topic_mem _ _ _ _ (Or.inl h))
    · apply List.count_eq_zero_of_not_mem
      intro h
      exact hnot (resubscribeStaleTrace_topic_mem _ _ _ _ (Or.inr h))
  · intro h1 h2
    exact ⟨mapDelete_of_mapGet_none _ _ h1, mapDelete_of_mapGet_none _ _ h2⟩

/-- On the sample client, silent since time 0, the ticker is removed and the
cycle at 180 seconds (global timeout 200 seconds, topic timeout 2 minutes)
resubscribes the stale topics but not the ticker; the entry of `BTC_ETH` is
untouched. -/
theorem removeSubscription_registry_witness :
    mapGet (removeSubscription TICKER sampleClient).subscription TICKER = none ∧
    mapGet (removeSubscription TICKER sampleClient).topicLastTimestamp TICKER = none ∧
    mapGet (removeSubscription TICKER sampleClient).subscription "BTC_ETH"
      = mapGet sampleClient.subscription "BTC_ETH" ∧
    mapGet (removeSubscription TICKER sampleClient).topicLastTimestamp "BTC_ETH"
      = mapGet sampleClient.topicLastTimestamp "BTC_ETH" ∧
    (removeSubscription TICKER sampleClient).lastTimestamp = sampleClient.lastTimestamp ∧
    (∃ new outcome,
      autoReconnectCycle sampleConf (200 * Second) (sampleEnv (180 * Second)) 5
          (removeSubscription TICKER sampleClient)
        = some ({ (removeSubscription TICKER sampleClient) with
                    trace := (removeSubscription TICKER sampleClient).trace ++ new },
                outcome) ∧
      new.count (.resubscribe TICKER) = 0 ∧ new.count (.logStale TICKER) = 0) ∧
    (mapGet sampleClient.subscription TICKER = none →
      mapGet sampleClient.topicLastTimestamp TICKER = none →
      (removeSubscription TICKER sampleClient).subscription = sampleClient.subscription ∧
      (removeSubscription TICKER sampleClient).topicLastTimestamp
        = sampleClient.topicLastTimestamp) :=
  removeSubscription_registry TICKER "BTC_ETH" sampleClient sampleConf (200 * Second)
    (sampleEnv (180 * Second)) 5 (by decide) (by decide)

/-! ## Theorems: the date of a trade -/

theorem twoDigits_eq_some {a b : Char} {n : Nat} (h : twoDigits a b = some n) :
    ∃ x y, digitVal a = some x ∧ digitVal b = some y ∧ n = 10 * x + y := by
  unfold twoDigits at h
  split at h
  · rename_i x y hx hy
    cases h
    exact ⟨x, y, hx, hy, rfl⟩
  · cases h

theorem digitVal_ne_space {c : Char} {x : Nat} (h : digitVal c = some x) : c ≠ ' ' := by
  intro hc
  subst hc
  have h0 : digitVal ' ' = none := by decide
  rw [h0] at h
  cases h

theorem getnum_two (fixed : Bool) {a b : Char} {n : Nat} (rest : List Char)
    (h : twoDigits a b = some n) : getnum fixed (a :: b :: rest) = some (n, rest) := by
  obtain ⟨x, y, hx, hy, hn⟩ := twoDigits_eq_some h
  simp [getnum, hx, hy, hn]

theorem timeParseUnix_of_parseLayout (s : String) (t : Int) (h : parseLayout s = some t) :
    timeParseUnix s = some t := by
  unfold parseLayout at h
  split at h
  · rename_i y1 y2 y3 y4 m1 m2 d1 d2 h1 h2 n1 n2 s1 s2 hs
    split at h
    · rename_i yh yl m d hh n sec e1 e2 e3 e4 e5 e6 e7
      obtain ⟨x, y, hx, hy, hn⟩ := twoDigits_eq_some e5
      have hsp : h1 ≠ ' ' := digitVal_ne_space hx
      unfold timeParseUnix
      rw [hs]
      simp only [e1, e2, parseMonthDay, parseClock, unixOfDate, expectChar, if_true,
        Option.bind, getnum_two true _ e3, getnum_two true _ e4, getnum_two false _ e5,
        getnum_two true _ e6, getnum_two true _ e7, expectSpaces, cutspace, hsp, if_false,
        skipFraction]
      exact h
    · cases h
  · cases h

theorem daysFromCivil_epoch : daysFromCivil 1970 1 1 = 0 := by
  decide

theorem daysFromCivil_next_day (y m d : Nat) :
    daysFromCivil y m (d + 1) = daysFromCivil y m d + 1 := by
  simp only [daysFromCivil]
  push_cast
  omega

theorem daysFromCivil_next_month (y m : Nat) (h1 : 1 ≤ m) (h2 : m < 12) :
    daysFromCivil y (m + 1) 1 = daysFromCivil y m (daysIn y m) + 1 := by
  interval_cases m <;> simp [daysFromCivil, daysIn, isLeap] <;> omega

theorem daysFromCivil_next_year (y : Nat) :
    daysFromCivil (y + 1) 1 1 = daysFromCivil y 12 31 + 1 := by
  simp [daysFromCivil]
  omega

theorem NewTrade_UnmarshalJSON_no_date {F : Type} (ops : FloatOps F)
    (tradeID rate amount total typeOrder : String) (i : Int) (r a t : F)
    (hempty : ops.parseTimeUnix "" = none)
    (hi : quotedNumber ops.jsonInt64 tradeID = some i)
    (hr : quotedNumber ops.jsonFloat rate = some r)
    (ha : quotedNumber ops.jsonFloat amount = some a)
    (ht : quotedNumber ops.jsonFloat total = some t) :
    NewTrade.UnmarshalJSON ops (NewTrade.zero ops)
        (newTradeDataNoDate tradeID rate amount total typeOrder)
      = .error .timeParse := by
  have k3 : keyMatches "type" "type" = true := by decide
  have k4 : keyMatches "rate" "amount" = false := by decide
  have k6 : keyMatches "amount" "amount" = true := by decide
  have k7 : keyMatches "rate" "rate" = true := by decide
  have k8 : keyMatches "rate" "type" = false := by decide
  have k9 : keyMatches "Date" "amount" = false := by decide
  have k10 : keyMatches "tradeID" "amount" = false := by decide
  have k12 : keyMatches "Date" "rate" = false := by decide
  have k13 : keyMatches "tradeID" "rate" = false := by decide
  have k14 : keyMatches "Date" "total" = false := by decide
  have k15 : keyMatches "tradeID" "total" = false := by decide
  have k16 : keyMatches "rate" "total" = false := by decide
  have k17 : keyMatches "amount" "total" = false := by decide
  have k18 : keyMatches "total" "total" = true := by decide
  have k19 : keyMatches "Date" "tradeID" = false := by decide
  have k20 : keyMatches "tradeID" "tradeID" = true := by decide
  have k21 : keyMatches "Date" "type" = false := by decide
  have k22 : keyMatches "tradeID" "type" = false := by decide
  have k23 : keyMatches "amount" "type" = false := by decide
  have k24 : keyMatches "total" "type" = false := by decide
  obtain ⟨hi1, hi2⟩ := quotedNumber_eq_some hi
  obtain ⟨hr1, hr2⟩ := quotedNumber_eq_some hr
  obtain ⟨ha1, ha2⟩ := quotedNumber_eq_some ha
  obtain ⟨ht1, ht2⟩ := quotedNumber_eq_some ht
  simp [newTradeDataNoDate, NewTrade.zero, unmarshalStruct, decodeMembers, storeString,
    Result.bind, NewTrade.UnmarshalJSON, NewTradeAux.member, storeQuotedFloat,
    storeQuotedInt64, k3, k4, k6, k7, k8, k9, k10, k12, k13, k14, k15, k16, k17, k18,
    k19, k20, k21, k22, k23, k24, hi1, hi2, hr1, hr2, ha1, ha2, ht1, ht2, hempty]

/-- C20 as stated fails in its last part: the date `2020-01-01 00:00:00.5`,
with a fractional second, and the date `2020-01-01 5:04:05`, with a one-digit
hour, are not of the form `YYYY-MM-DD HH:MM:SS`, yet `time.Parse` accepts them
and the decode succeeds, with `Date` 1577836800 and 1577855045. -/
theorem NewTrade_UnmarshalJSON_accepts_other_layouts :
    parseLayout "2020-01-01 00:00:00.5" = none ∧
    NewTrade.UnmarshalJSON goTimeOps (NewTrade.zero goTimeOps)
        (newTradeData "9" "0.01" "5" "2020-01-01 00:00:00.5" "0.05" "buy")
      = .ok { TradeId := 9, Rate := ⟨1, 2⟩, Amount := ⟨5, 0⟩, Date := 1577836800,
              Total := ⟨5, 2⟩, TypeOrder := "buy" } ∧
    parseLayout "2020-01-01 5:04:05" = none ∧
    NewTrade.UnmarshalJSON goTimeOps (NewTrade.zero goTimeOps)
        (newTradeData "9" "0.01" "5" "2020-01-01 5:04:05" "0.05" "buy")
      = .ok { TradeId := 9, Rate := ⟨1, 2⟩, Amount := ⟨5, 0⟩, Date := 1577855045,
              Total := ⟨5, 2⟩, TypeOrder := "buy" } := by
  refine ⟨by decide, by decide, by decide, by decide⟩

/-- C20 (amended): for a trade `data` object whose other members are well
formed, if the `date` member is a string of the form `YYYY-MM-DD HH:MM:SS`
denoting a valid calendar date and time then `NewTrade.UnmarshalJSON` sets
`Date` to the number of seconds from 1970-01-01 00:00:00 UTC to that date-time
read as UTC; if `time.Parse` rejects the `date` member for the layout
`2006-01-02 15:04:05`, or the member is missing, the decode returns the parse
error. -/
theorem NewTrade_UnmarshalJSON_date_unix {F : Type} (ops : FloatOps F)
    (tradeID rate amount date total typeOrder : String) (i : Int) (r a t : F)
    (hops : ops.parseTimeUnix = timeParseUnix)
    (hi : quotedNumber ops.jsonInt64 tradeID = some i)
    (hr : quotedNumber ops.jsonFloat rate = some r)
    (ha : quotedNumber ops.jsonFloat amount = some a)
    (ht : quotedNumber ops.jsonFloat total = some t) :
    (∀ d, parseLayout date = some d →
      NewTrade.UnmarshalJSON ops (NewTrade.zero ops)
          (newTradeData tradeID rate amount date total typeOrder)
        = .ok { TradeId := i, Rate := r, Amount := a, Date := d, Total := t,
                TypeOrder := typeOrder }) ∧
    (timeParseUnix date = none →
      NewTrade.UnmarshalJSON ops (NewTrade.zero ops)
          (newTradeData tradeID rate amount date total typeOrder)
        = .error .timeParse) ∧
    NewTrade.UnmarshalJSON ops (NewTrade.zero ops)
        (newTradeDataNoDate tradeID rate amount total typeOrder)
      = .error .timeParse := by
  have hmain := NewTrade_UnmarshalJSON_date ops tradeID rate amount date total typeOrder
    i r a t hi hr ha ht
  have hempty : ops.parseTimeUnix "" = none := by
    rw [hops]
    decide
  refine ⟨?_, ?_, NewTrade_UnmarshalJSON_no_date ops tradeID rate amount total typeOrder
    i r a t hempty hi hr ha ht⟩
  · intro d hd
    have hp : ops.parseTimeUnix date = some d := by
      rw [hops]
      exact timeParseUnix_of_parseLayout date d hd
    simp only [newTradeData, NewTrade.zero]
    rw [hmain, hp]
  · intro hnone
    have hp : ops.parseTimeUnix date = none := by
      rw [hops]
      exact hnone
    simp only [newTradeData, NewTrade.zero]
    rw [hmain, hp]

/-- The trade of the API documentation, dated `2014-10-07 21:51:20`, decodes
with `Date` 1412718680, and dated `2020-01-01 00:00:00` with `Date` 1577836800;
the same trade dated `2014-10-07T21:51:20` or without a date fails to decode. -/
theorem NewTrade_UnmarshalJSON_date_unix_witness :
    NewTrade.UnmarshalJSON goTimeOps (NewTrade.zero goTimeOps)
        (newTradeData "364476" "0.00300888" "0.03580906" "2020-01-01 00:00:00"
          "0.00010775" "sell")
      = .ok { TradeId := 364476, Rate := ⟨300888, 8⟩, Amount := ⟨3580906, 8⟩,
              Date := 1577836800, Total := ⟨10775, 8⟩, TypeOrder := "sell" } ∧
    NewTrade.UnmarshalJSON goTimeOps (NewTrade.zero goTimeOps)
        (newTradeData "364476" "0.00300888" "0.03580906" "2014-10-07 21:51:20"
          "0.00010775" "sell")
      = .ok { TradeId := 364476, Rate := ⟨300888, 8⟩, Amount := ⟨3580906, 8⟩,
              Date := 1412718680, Total := ⟨10775, 8⟩, TypeOrder := "sell" } ∧
    NewTrade.UnmarshalJSON goTimeOps (NewTrade.zero goTimeOps)
        (newTradeData "364476" "0.00300888" "0.03580906" "2014-10-07T21:51:20"
          "0.00010775" "sell")
      = .error .timeParse ∧
    NewTrade.UnmarshalJSON goTimeOps (NewTrade.zero goTimeOps)
        (newTradeDataNoDate "364476" "0.00300888" "0.03580906" "0.00010775" "sell")
      = .error .timeParse :=
  ⟨(NewTrade_UnmarshalJSON_date_unix goTimeOps "364476" "0.00300888" "0.03580906"
      "2020-01-01 00:00:00" "0.00010775" "sell" 364476 ⟨300888, 8⟩ ⟨3580906, 8⟩
      ⟨10775, 8⟩ rfl (by decide) (by decide) (by decide) (by decide)).1 1577836800
      (by decide),
   (NewTrade_UnmarshalJSON_date_unix goTimeOps "364476" "0.00300888" "0.03580906"
      "2014-10-07 21:51:20" "0.00010775" "sell" 364476 ⟨300888, 8⟩ ⟨3580906, 8⟩
      ⟨10775, 8⟩ rfl (by decide) (by decide) (by decide) (by decide)).1 1412718680
      (by decide),
   (NewTrade_UnmarshalJSON_date_unix goTimeOps "364476" "0.00300888" "0.03580906"
      "2014-10-07T21:51:20" "0.00010775" "sell" 364476 ⟨300888, 8⟩ ⟨3580906, 8⟩
      ⟨10775, 8⟩ rfl (by decide) (by decide) (by decide) (by decide)).2.1 (by decide),
   (NewTrade_UnmarshalJSON_date_unix goTimeOps "364476" "0.00300888" "0.03580906"
      "2014-10-07 21:51:20" "0.00010775" "sell" 364476 ⟨300888, 8⟩ ⟨3580906, 8⟩
      ⟨10775, 8⟩ rfl (by decide) (by decide) (by decide) (by decide)).2.2⟩

/-! ## Theorems: delivery after the signal has fired -/

/-- C21: when the unsubscribed signal of a topic has fired and no consumer is
receiving on the channel of the topic, a handler that has an event to deliver
abandons it and returns: the outcome is `abandoned` and not `blocked`, the
state is the one left by the timestamp update, so the values sent on the
channel and the trace are as before.  Whatever the surroundings, a handler
whose signal has fired does not stay blocked. -/
theorem handle_abandons_after_signal {F : Type} (ops : FloatOps F) (t : Closure) (now : Int)
    (env : SelectEnv) (args : List (Value F)) (kwargs : List (String × Value F))
    (s : State F) (hfired : (signalOf t s).map Signal.closed = some true)
    (hconsumer : env.consumer = false)
    (hattempt : attemptsDelivery ops t args kwargs = true) :
    handle ops t now env args kwargs s = (updateTopicTimestamp now t.topic s, .abandoned) ∧
    sentOn t (handle ops t now env args kwargs s).1 = sentOn t s ∧
    (handle ops t now env args kwargs s).1.trace = s.trace ∧
    (∀ env1, (handle ops t now env1 args kwargs s).2 ≠ .blocked) := by
  cases t with
  | ticker =>
    have hc : s.tickerUnsubscribed.closed = true := by simpa [signalOf] using hfired
    cases hd : convertArgsToTick ops args with
    | ok tick =>
      refine ⟨?_, ?_, ?_, ?_⟩
      · simp [handle, tickerHandler, hd, updateTopicTimestamp, selectSend, hc, hconsumer,
          Closure.topic]
      · simp [handle, tickerHandler, hd, updateTopicTimestamp, selectSend, hc, hconsumer,
          sentOn]
      · simp [handle, tickerHandler, hd, updateTopicTimestamp, selectSend, hc, hconsumer]
      · intro env1
        cases hc1 : env1.consumer <;> cases hp : env1.pickSend <;>
          simp [handle, tickerHandler, hd, updateTopicTimestamp, selectSend, hc, hc1, hp]
    | error e => simp [attemptsDelivery, hd, Result.isOk] at hattempt
    | panic => simp [attemptsDelivery, hd, Result.isOk] at hattempt
  | trollbox =>
    have hc : s.trollboxUnsubscribed.closed = true := by simpa [signalOf] using hfired
    cases hd : convertArgsToTrollboxMessage ops args with
    | ok tbMsg =>
      refine ⟨?_, ?_, ?_, ?_⟩
      · simp [handle, trollboxHandler, hd, updateTopicTimestamp, selectSend, hc, hconsumer,
          Closure.topic]
      · simp [handle, trollboxHandler, hd, updateTopicTimestamp, selectSend, hc, hconsumer,
          sentOn]
      · simp [handle, trollboxHandler, hd, updateTopicTimestamp, selectSend, hc, hconsumer]
      · intro env1
        cases hc1 : env1.consumer <;> cases hp : env1.pickSend <;>
          simp [handle, trollboxHandler, hd, updateTopicTimestamp, selectSend, hc, hc1, hp]
    | error e => simp [attemptsDelivery, hd, Result.isOk] at hattempt
    | panic => simp [attemptsDelivery, hd, Result.isOk] at hattempt
  | market currencyPair =>
    cases hm : mapGet s.marketUpdaterInfos currencyPair with
    | none => simp [signalOf, hm] at hfired
    | some info =>
      have hc : info.unsubscribed.closed = true := by simpa [signalOf, hm] using hfired
      cases hk : mapGet kwargs "seq" with
      | none => simp [attemptsDelivery, hk] at hattempt
      | some v =>
        cases v with
        | num seq =>
          cases hd : convertArgsToMarketUpdateSlice ops args with
          | ok updates =>
            have hlen : args.length ≠ 0 := by
              simpa [attemptsDelivery, hk, hd, Result.isOk] using hattempt
            have hlen1 : ¬ (args = []) := fun h => hlen (by simp [h])
            refine ⟨?_, ?_, ?_, ?_⟩
            · simp [handle, marketHandler, hk, hd, hm, hlen1, updateTopicTimestamp, selectSend,
                hc, hconsumer, Closure.topic]
            · simp [handle, marketHandler, hk, hd, hm, hlen1, updateTopicTimestamp, selectSend,
                hc, hconsumer, sentOn]
            · simp [handle, marketHandler, hk, hd, hm, hlen1, updateTopicTimestamp, selectSend,
                hc, hconsumer]
            · intro env1
              cases hc1 : env1.consumer <;> cases hp : env1.pickSend <;>
                simp [handle, marketHandler, hk, hd, hm, hlen1, updateTopicTimestamp,
                  selectSend, hc, hc1, hp]
          | error e => simp [attemptsDelivery, hk, hd, Result.isOk] at hattempt
          | panic => simp [attemptsDelivery, hk, hd, Result.isOk] at hattempt
        | null => simp [attemptsDelivery, hk] at hattempt
        | bool b => simp [attemptsDelivery, hk] at hattempt
        | str x => simp [attemptsDelivery, hk] at hattempt
        | arr xs => simp [attemptsDelivery, hk] at hattempt
        | obj kvs => simp [attemptsDelivery, hk] at hattempt

/-- On the sample client unsubscribed from the ticker, a ticker message
handled at 10 seconds while nobody receives is abandoned. -/
theorem handle_abandons_after_signal_witness :
    handle decimalOps .ticker (10 * Second) { consumer := false, pickSend := false }
        samplePayload [] (UnsubscribeTicker true sampleClient).1
      = (updateTopicTimestamp (10 * Second) Closure.ticker.topic
          (UnsubscribeTicker true sampleClient).1, .abandoned) ∧
    sentOn .ticker (handle decimalOps .ticker (10 * Second)
        { consumer := false, pickSend := false } samplePayload []
        (UnsubscribeTicker true sampleClient).1).1
      = sentOn .ticker (UnsubscribeTicker true sampleClient).1 ∧
    (handle decimalOps .ticker (10 * Second) { consumer := false, pickSend := false }
        samplePayload [] (UnsubscribeTicker true sampleClient).1).1.trace
      = (UnsubscribeTicker true sampleClient).1.trace ∧
    (∀ env1, (handle decimalOps .ticker (10 * Second) env1 samplePayload []
        (UnsubscribeTicker true sampleClient).1).2 ≠ .blocked) :=
  handle_abandons_after_signal decimalOps .ticker (10 * Second)
    { consumer := false, pickSend := false } samplePayload []
    (UnsubscribeTicker true sampleClient).1 (by decide) (by decide) (by decide)

/-! ## Theorems: the key sets of the registry -/

theorem mapKeys_mapDelete {α : Type} (m : List (String × α)) (k : String) :
    mapKeys (mapDelete m k) = (mapKeys m).filter (fun x => decide (x ≠ k)) := by
  unfold mapDelete mapKeys
  rw [List.filter_map]
  rfl

/-- The calls `addSubscription` and `removeSubscription` keep the key sets of
the two registry maps equal. -/
theorem add_remove_keep_keys {F : Type} (s : State F) (now : Int) (topic : String)
    (subscribe : Closure)
    (h : mapKeys s.topicLastTimestamp = mapKeys s.subscription) :
    mapKeys (addSubscription now topic subscribe s).topicLastTimestamp
      = mapKeys (addSubscription now topic subscribe s).subscription ∧
    mapKeys (removeSubscription topic s).topicLastTimestamp
      = mapKeys (removeSubscription topic s).subscription := by
  constructor
  · simp only [addSubscription, record, mapSet]
    show mapKeys ((topic, now) :: mapDelete s.topicLastTimestamp topic)
      = mapKeys ((topic, subscribe) :: mapDelete s.subscription topic)
    have h1 := mapKeys_mapDelete s.topicLastTimestamp topic
    have h2 := mapKeys_mapDelete s.subscription topic
    unfold mapKeys at *
    simp only [List.map_cons]
    rw [h1, h2, h]
  · simp only [removeSubscription, record]
    show mapKeys (mapDelete s.topicLastTimestamp topic)
      = mapKeys (mapDelete s.subscription topic)
    rw [mapKeys_mapDelete, mapKeys_mapDelete, h]

/-- C27: the key sets of the two registry maps do not stay equal under
`updateTopicTimestamp`.  From the registry of `NewClient`, the calls
`addSubscription` for the trollbox at time 0, `updateTopicTimestamp` for the
ticker at 10 seconds and for the trollbox at 170 seconds give a state in which
the ticker has a timestamp and no closure; the per-topic pass of the monitor
cycle at 180 seconds finds the ticker stale, looks up its closure, finds none
and panics.  A single `updateTopicTimestamp` on the new client already
separates the key sets. -/
theorem registry_key_sets_diverge :
    mapKeys (applyCalls [.update (10 * Second) TICKER]
        (NewClient 0 : State Decimal)).topicLastTimestamp = [TICKER] ∧
    mapKeys (applyCalls [.update (10 * Second) TICKER]
        (NewClient 0 : State Decimal)).subscription = [] ∧
    mapKeys (applyCalls [.add 0 TROLLBOX .trollbox, .update (10 * Second) TICKER,
        .update (170 * Second) TROLLBOX] (NewClient 0 : State Decimal)).topicLastTimestamp
      = [TROLLBOX, TICKER] ∧
    mapKeys (applyCalls [.add 0 TROLLBOX .trollbox, .update (10 * Second) TICKER,
        .update (170 * Second) TROLLBOX] (NewClient 0 : State Decimal)).subscription
      = [TROLLBOX] ∧
    topicStale sampleConf (180 * Second)
      (applyCalls [.add 0 TROLLBOX .trollbox, .update (10 * Second) TICKER,
        .update (170 * Second) TROLLBOX] (NewClient 0 : State Decimal)) TICKER = true ∧
    mapGet (applyCalls [.add 0 TROLLBOX .trollbox, .update (10 * Second) TICKER,
        .update (170 * Second) TROLLBOX] (NewClient 0 : State Decimal)).subscription TICKER
      = none ∧
    (autoReconnectCycle sampleConf (60 * Second) (sampleEnv (180 * Second)) 5
        (applyCalls [.add 0 TROLLBOX .trollbox, .update (10 * Second) TICKER,
          .update (170 * Second) TROLLBOX] (NewClient 0 : State Decimal))).map Prod.snd
      = some .crashed := by
  refine ⟨by decide, by decide, by decide, by decide, by decide, by decide, by decide⟩

/-! ## Theorems: a rejected second subscription to a pair -/

/-- C28: when the bus subscribe call fails, `SubscribeMarket` deletes the entry
of the pair from `marketUpdaterInfos`, also when the entry was there before
the call.  On the sample client, subscribed to `BTC_ETH`, a second
`SubscribeMarket` for `BTC_ETH` that the bus rejects returns the error and
leaves no entry for the pair, while its closure stays registered; a message
for the pair handled afterwards finds a nil `updaterInfo` and panics, and so
does `UnsubscribeMarket`.  For a pair without an entry before the call the
keys are as before. -/
theorem SubscribeMarket_failure_deletes_entry :
    (mapGet sampleClient.marketUpdaterInfos "BTC_ETH").isSome = true ∧
    (SubscribeMarket 50 false "BTC_ETH" sampleClient).2
      = .error (.bus "turnpike.Client.Subscribe") ∧
    (mapGet (SubscribeMarket 50 false "BTC_ETH" sampleClient).1.marketUpdaterInfos
      "BTC_ETH").isSome = false ∧
    mapKeys sampleClient.marketUpdaterInfos = ["BTC_ETH"] ∧
    mapKeys (SubscribeMarket 50 false "BTC_ETH" sampleClient).1.marketUpdaterInfos = [] ∧
    mapGet (SubscribeMarket 50 false "BTC_ETH" sampleClient).1.subscription "BTC_ETH"
      = some (.market "BTC_ETH") ∧
    (marketHandler decimalOps "BTC_ETH" (60 * Second) { consumer := true, pickSend := true }
        [(SubEvent.orderBookRemove "0.05" "ask").toValue] [("seq", .num ⟨7, 0⟩)]
        (SubscribeMarket 50 false "BTC_ETH" sampleClient).1).2 = .crashed ∧
    (UnsubscribeMarket true "BTC_ETH"
        (SubscribeMarket 50 false "BTC_ETH" sampleClient).1).2 = .panic ∧
    mapKeys (SubscribeMarket 50 false "BTC_XMR" sampleClient).1.marketUpdaterInfos
      = mapKeys sampleClient.marketUpdaterInfos := by
  refine ⟨by decide, by decide, by decide, by decide, by decide, by decide, by decide,
    by decide, by decide⟩

/-! ## Theorems: the monitor cycle and the per-topic timestamps -/

theorem connectLoop_frame {F : Type} (connectOk : Nat → Bool) :
    ∀ (fuel attempt : Nat) (s s1 : State F) (n : Nat),
      connectLoop connectOk fuel attempt s = some (s1, n) →
      s1.topicLastTimestamp = s.topicLastTimestamp ∧ s1.subscription = s.subscription ∧
        s1.lastTimestamp = s.lastTimestamp := by
  intro fuel
  induction fuel with
  | zero => intro attempt s s1 n h; simp [connectLoop] at h
  | succ fuel ih =>
    intro attempt s s1 n h
    cases hc : connectOk attempt with
    | true =>
      simp only [connectLoop, hc, if_true, Option.some.injEq, Prod.mk.injEq] at h
      obtain ⟨h1, _⟩ := h
      subst h1
      exact ⟨rfl, rfl, rfl⟩
    | false =>
      have hstep : connectLoop connectOk (fuel + 1) attempt s
          = connectLoop connectOk fuel (attempt + 1) (record (.busConnect false) s) := by
        simp [connectLoop, hc]
      rw [hstep] at h
      exact ih (attempt + 1) (record (.busConnect false) s) s1 n h

theorem autoReconnectCycle_frame {F : Type} (conf : Conf) (timeout : Int) (env : CycleEnv)
    (fuel : Nat) (s : State F) (r : State F × CycleOutcome)
    (h : autoReconnectCycle conf timeout env fuel s = some r) :
    r.1.topicLastTimestamp = s.topicLastTimestamp ∧ r.1.subscription = s.subscription ∧
      ((∀ n, r.2 ≠ .reconnected n) → r.1.lastTimestamp = s.lastTimestamp) := by
  by_cases hstale : env.now - s.lastTimestamp > timeout
  · have hs1 : Client.Close env.closeOk (record .logReconnecting s)
        = { s with trace := s.trace ++ [.logReconnecting, .busClose env.closeOk] } := by
      simp [Close_state, record]
    unfold autoReconnectCycle at h
    rw [if_pos hstale] at h
    simp only [hs1] at h
    by_cases hlock : s.wampReaders = 0
    · rw [if_neg (by simpa using hlock)] at h
      cases hloop : connectLoop env.connectOk fuel 0
          ({ s with trace := s.trace ++ [.logReconnecting, .busClose env.closeOk] } :
            State F) with
      | none => simp [hloop] at h
      | some p =>
        obtain ⟨s2, attempts⟩ := p
        obtain ⟨f1, f2, _⟩ := connectLoop_frame env.connectOk fuel 0 _ s2 attempts hloop
        simp only [hloop, resubscribeAll_state, Option.some.injEq] at h
        subst h
        refine ⟨f1, f2, ?_⟩
        intro hn
        exact absurd rfl (hn attempts)
    · rw [if_pos (by simpa using hlock)] at h
      simp only [Option.some.injEq] at h
      subst h
      exact ⟨rfl, rfl, fun _ => rfl⟩
  · obtain ⟨outcome, ho⟩ := autoReconnectCycle_topic_pass_eq conf timeout env fuel s hstale
    rw [ho] at h
    simp only [Option.some.injEq] at h
    subst h
    exact ⟨rfl, rfl, fun _ => rfl⟩

/-- Repeated resubscription on a registry in which every topic with a
timestamp has a stored closure: for a topic found stale at the time of a
cycle, in every later state in which the timestamp of the topic is still the
same (no message for it was handled), a cycle that does not find the session
globally stale finds the topic stale again and calls its closure exactly
once. -/
theorem autoReconnectCycle_never_writes_topic_timestamp {F : Type} (conf : Conf)
    (timeout : Int) (env env2 : CycleEnv) (fuel fuel2 : Nat) (s s2 : State F)
    (topic : String)
    (hstale : topicStale conf env.now s topic = true)
    (hsame : mapGet s2.topicLastTimestamp topic = mapGet s.topicLastTimestamp topic)
    (hlater : env.now ≤ env2.now)
    (hfresh2 : ¬ (env2.now - s2.lastTimestamp > timeout))
    (hkeys2 : (mapKeys s2.topicLastTimestamp).Nodup)
    (hclosures2 : ∀ kv ∈ s2.topicLastTimestamp,
      (mapGet s2.subscription kv.1).isSome = true) :
    (∀ r, autoReconnectCycle conf timeout env fuel s = some r →
      r.1.topicLastTimestamp = s.topicLastTimestamp ∧ r.1.subscription = s.subscription ∧
      ((∀ n, r.2 ≠ .reconnected n) → r.1.lastTimestamp = s.lastTimestamp)) ∧
    topicStale conf env2.now s2 topic = true ∧
    ∃ new, autoReconnectCycle conf timeout env2 fuel2 s2
        = some ({ s2 with trace := s2.trace ++ new }, .checked) ∧
      new.count (.resubscribe topic) = 1 := by
  have hstale2 : topicStale conf env2.now s2 topic = true := by
    unfold topicStale at hstale ⊢
    rw [hsame]
    cases hm : mapGet s.topicLastTimestamp topic with
    | none => simp [hm] at hstale
    | some ts =>
      simp only [hm, decide_eq_true_eq] at hstale ⊢
      omega
  have hall : ∀ kv ∈ topicsError env2.now (topicTimeout conf)
      s2.topicLastTimestamp, (mapGet s2.subscription kv.1).isSome = true :=
    fun kv hkv => hclosures2 kv (List.mem_of_mem_filter hkv)
  refine ⟨fun r h => autoReconnectCycle_frame conf timeout env fuel s r h, hstale2,
    resubscribeStaleTrace s2.subscription env2.subscribeOk
      (topicsError env2.now (topicTimeout conf) s2.topicLastTimestamp),
    ?_, ?_⟩
  · unfold autoReconnectCycle
    rw [if_neg hfresh2]
    simp only [resubscribeStale_state]
    have hb : (topicsError env2.now (topicTimeout conf)
        s2.topicLastTimestamp).all
        (fun kv => (mapGet s2.subscription kv.1).isSome) = true :=
      List.all_eq_true.mpr hall
    rw [hb]
  · rw [count_resubscribeStaleTrace _ _ _ _ hall,
      count_topicsError conf env2.now s2 topic hkeys2, hstale2]
    rfl

/-- On the sample client whose ticker was active at 170 seconds, the cycle at
180 seconds finds the trollbox stale; after that cycle and a ticker message at
230 seconds, the cycle at 240 seconds finds the trollbox stale again and
calls its closure once more. -/
theorem autoReconnectCycle_never_writes_topic_timestamp_witness :
    (∀ r, autoReconnectCycle sampleConf (60 * Second) (sampleEnv (180 * Second)) 5
          (updateTopicTimestamp (170 * Second) TICKER sampleClient) = some r →
      r.1.topicLastTimestamp
        = (updateTopicTimestamp (170 * Second) TICKER sampleClient).topicLastTimestamp ∧
      r.1.subscription
        = (updateTopicTimestamp (170 * Second) TICKER sampleClient).subscription ∧
      ((∀ n, r.2 ≠ .reconnected n) → r.1.lastTimestamp
        = (updateTopicTimestamp (170 * Second) TICKER sampleClient).lastTimestamp)) ∧
    topicStale sampleConf (sampleEnv (240 * Second)).now
      (updateTopicTimestamp (230 * Second) TICKER
        (afterCycle sampleConf (60 * Second) (sampleEnv (180 * Second)) 5
          (updateTopicTimestamp (170 * Second) TICKER sampleClient))) TROLLBOX = true ∧
    ∃ new, autoReconnectCycle sampleConf (60 * Second) (sampleEnv (240 * Second)) 5
          (updateTopicTimestamp (230 * Second) TICKER
            (afterCycle sampleConf (60 * Second) (sampleEnv (180 * Second)) 5
              (updateTopicTimestamp (170 * Second) TICKER sampleClient)))
        = some ({ (updateTopicTimestamp (230 * Second) TICKER
            (afterCycle sampleConf (60 * Second) (sampleEnv (180 * Second)) 5
              (updateTopicTimestamp (170 * Second) TICKER sampleClient))) with
            trace := (updateTopicTimestamp (230 * Second) TICKER
              (afterCycle sampleConf (60 * Second) (sampleEnv (180 * Second)) 5
                (updateTopicTimestamp (170 * Second) TICKER sampleClient))).trace ++ new },
          .checked) ∧
      new.count (.resubscribe TROLLBOX) = 1 :=
  autoReconnectCycle_never_writes_topic_timestamp sampleConf (60 * Second)
    (sampleEnv (180 * Second)) (sampleEnv (240 * Second)) 5 5
    (updateTopicTimestamp (170 * Second) TICKER sampleClient)
    (updateTopicTimestamp (230 * Second) TICKER
      (afterCycle sampleConf (60 * Second) (sampleEnv (180 * Second)) 5
        (updateTopicTimestamp (170 * Second) TICKER sampleClient)))
    TROLLBOX (by decide) (by decide) (by decide) (by decide) (by decide) (by decide)

/-! ## Theorems: the per-topic pass on a timestamp without closure -/

/-- C8: the per-topic pass does not call the closure of every stale topic when
a topic has a timestamp and no closure.  The sample client unsubscribes from
the ticker, a ticker message still in flight is handled at 10 seconds and a
trollbox message at 170 seconds.  The monitor cycle at 180 seconds does not
find the session stale (timeout 60 seconds); the pair `BTC_ETH`, silent since
time 0 and registered with its closure, is older than the topic timeout of 2
minutes, and so is the ticker, which has no closure.  The cycle logs the
ticker as stale, calls its missing closure and panics: the only new action is
that log line and the closure of `BTC_ETH` is not called. -/
theorem autoReconnectCycle_topic_pass_panics_without_closure :
    ¬ ((sampleEnv (180 * Second)).now
        - (afterLateTicker (10 * Second) (170 * Second) sampleClient).lastTimestamp
      > 60 * Second) ∧
    topicStale sampleConf (180 * Second)
      (afterLateTicker (10 * Second) (170 * Second) sampleClient) "BTC_ETH" = true ∧
    mapGet (afterLateTicker (10 * Second) (170 * Second) sampleClient).subscription "BTC_ETH"
      = some (.market "BTC_ETH") ∧
    topicStale sampleConf (180 * Second)
      (afterLateTicker (10 * Second) (170 * Second) sampleClient) TICKER = true ∧
    mapGet (afterLateTicker (10 * Second) (170 * Second) sampleClient).subscription TICKER
      = none ∧
    (autoReconnectCycle sampleConf (60 * Second) (sampleEnv (180 * Second)) 5
        (afterLateTicker (10 * Second) (170 * Second) sampleClient)).map Prod.snd
      = some .crashed ∧
    (autoReconnectCycle sampleConf (60 * Second) (sampleEnv (180 * Second)) 5
        (afterLateTicker (10 * Second) (170 * Second) sampleClient)).map
      (fun r => r.1.trace.drop
        (afterLateTicker (10 * Second) (170 * Second) sampleClient).trace.length)
      = some [.logStale TICKER] ∧
    (autoReconnectCycle sampleConf (60 * Second) (sampleEnv (180 * Second)) 5
        (afterLateTicker (10 * Second) (170 * Second) sampleClient)).map
      (fun r => r.1.trace.count (.resubscribe "BTC_ETH"))
      = some ((afterLateTicker (10 * Second) (170 * Second) sampleClient).trace.count
          (.resubscribe "BTC_ETH")) := by
  refine ⟨by decide, by decide, by decide, by decide, by decide, by decide, by decide,
    by decide⟩

/-- C29: a monitor cycle writes no per-topic timestamp: whatever branch it
takes and however it ends, the state it returns has the same
`topicLastTimestamp` map and the same closures as before, and the same global
`lastTimestamp` unless it reconnected.  But a topic found stale is not
resubscribed in every following cycle.  On the sample client whose ticker was
active at 170 seconds the cycle at 180 seconds finds `BTC_ETH` stale and calls
its closure once.  The client then unsubscribes from the ticker, a ticker
message still in flight is handled at 190 seconds and a trollbox message at
300 seconds; `BTC_ETH` has received nothing and has the timestamp it had.  The
cycle at 320 seconds does not find the session stale and finds `BTC_ETH` stale
again, but it panics on the missing closure of the ticker and the closure of
`BTC_ETH` is not called. -/
theorem autoReconnectCycle_stale_topic_not_resubscribed {F : Type} (conf : Conf)
    (timeout : Int) (env : CycleEnv) (fuel : Nat) (s : State F) :
    (∀ r, autoReconnectCycle conf timeout env fuel s = some r →
      r.1.topicLastTimestamp = s.topicLastTimestamp ∧ r.1.subscription = s.subscription ∧
      ((∀ n, r.2 ≠ .reconnected n) → r.1.lastTimestamp = s.lastTimestamp)) ∧
    topicStale sampleConf (180 * Second) activeTickerClient "BTC_ETH" = true ∧
    (autoReconnectCycle sampleConf (60 * Second) (sampleEnv (180 * Second)) 5
        activeTickerClient).map Prod.snd = some .checked ∧
    (afterCycle sampleConf (60 * Second) (sampleEnv (180 * Second)) 5
        activeTickerClient).trace.count (.resubscribe "BTC_ETH")
      = activeTickerClient.trace.count (.resubscribe "BTC_ETH") + 1 ∧
    mapGet (afterLateTicker (190 * Second) (300 * Second)
        (afterCycle sampleConf (60 * Second) (sampleEnv (180 * Second)) 5
          activeTickerClient)).topicLastTimestamp "BTC_ETH"
      = mapGet activeTickerClient.topicLastTimestamp "BTC_ETH" ∧
    mapGet (afterLateTicker (190 * Second) (300 * Second)
        (afterCycle sampleConf (60 * Second) (sampleEnv (180 * Second)) 5
          activeTickerClient)).subscription "BTC_ETH" = some (.market "BTC_ETH") ∧
    ¬ ((sampleEnv (320 * Second)).now
        - (afterLateTicker (190 * Second) (300 * Second)
            (afterCycle sampleConf (60 * Second) (sampleEnv (180 * Second)) 5
              activeTickerClient)).lastTimestamp
      > 60 * Second) ∧
    topicStale sampleConf (320 * Second)
      (afterLateTicker (190 * Second) (300 * Second)
        (afterCycle sampleConf (60 * Second) (sampleEnv (180 * Second)) 5
          activeTickerClient)) "BTC_ETH" = true ∧
    (autoReconnectCycle sampleConf (60 * Second) (sampleEnv (320 * Second)) 5
        (afterLateTicker (190 * Second) (300 * Second)
          (afterCycle sampleConf (60 * Second) (sampleEnv (180 * Second)) 5
            activeTickerClient))).map Prod.snd = some .crashed ∧
    (autoReconnectCycle sampleConf (60 * Second) (sampleEnv (320 * Second)) 5
        (afterLateTicker (190 * Second) (300 * Second)
          (afterCycle sampleConf (60 * Second) (sampleEnv (180 * Second)) 5
            activeTickerClient))).map
      (fun r => r.1.trace.count (.resubscribe "BTC_ETH"))
      = some ((afterLateTicker (190 * Second) (300 * Second)
          (afterCycle sampleConf (60 * Second) (sampleEnv (180 * Second)) 5
            activeTickerClient)).trace.count (.resubscribe "BTC_ETH")) := by
  refine ⟨fun r h => autoReconnectCycle_frame conf timeout env fuel s r h, by decide,
    by decide, by decide, by decide, by decide, by decide, by decide, by decide, by decide⟩

end Pushapi

namespace Publicapi

open Pushapi

/-! ## Theorems: filtering a collection of currencies -/

theorem mapGet_eq_some_iff_mem {α : Type} (m : List (String × α)) (k : String) (v : α)
    (hm : (mapKeys m).Nodup) : mapGet m k = some v ↔ (k, v) ∈ m := by
  induction m with
  | nil => simp [mapGet]
  | cons kv rest ih =>
    obtain ⟨k1, v1⟩ := kv
    simp only [mapKeys, List.map_cons, List.nodup_cons] at hm
    have ih1 := ih hm.2
    by_cases hk : k1 = k
    · subst hk
      have hnot : (k1, v) ∉ rest := fun h => hm.1 (List.mem_map_of_mem Prod.fst h)
      simp only [mapGet, if_true, Option.some.injEq, List.mem_cons, Prod.mk.injEq, true_and]
      constructor
      · intro h
        exact Or.inl h.symm
      · intro h
        rcases h with h | h
        · exact h.symm
        · exact absurd h hnot
    · have hne : ¬ (k = k1) := fun h => hk h.symm
      simp only [mapGet, if_neg hk, List.mem_cons, Prod.mk.injEq, hne, false_and, false_or]
      exact ih1

theorem mapGet_congr_of_mem {α : Type} (m1 m2 : List (String × α)) (k : String)
    (h1 : (mapKeys m1).Nodup) (h2 : (mapKeys m2).Nodup)
    (hmem : ∀ kv, kv ∈ m1 ↔ kv ∈ m2) : mapGet m1 k = mapGet m2 k := by
  apply Option.ext
  intro v
  rw [Option.mem_def, Option.mem_def, mapGet_eq_some_iff_mem m1 k v h1,
    mapGet_eq_some_iff_mem m2 k v h2]
  exact hmem (k, v)

theorem mapGet_reverse {α : Type} (m : List (String × α)) (k : String)
    (hm : (mapKeys m).Nodup) : mapGet m.reverse k = mapGet m k := by
  apply mapGet_congr_of_mem _ _ _ _ hm
  · intro kv
    exact List.mem_reverse
  · unfold mapKeys at *
    rw [List.map_reverse]
    exact List.nodup_reverse.mpr hm

theorem Filter_fold {F : Type} (f : Currency F → Bool) :
    ∀ (c acc : Currencies F), (mapKeys c).Nodup →
      (∀ k ∈ mapKeys c, k ∉ mapKeys acc) →
      c.foldl (fun res kv => if f kv.2 then mapSet res kv.1 kv.2 else res) acc
        = (c.filter (fun kv => f kv.2)).reverse ++ acc := by
  intro c
  induction c with
  | nil => intro acc _ _; rfl
  | cons kv rest ih =>
    intro acc hnd hfresh
    obtain ⟨k1, v1⟩ := kv
    simp only [mapKeys, List.map_cons, List.nodup_cons] at hnd
    have hk1 : k1 ∉ mapKeys acc := hfresh k1 (by simp [mapKeys])
    have hdel : mapDelete acc k1 = acc :=
      mapDelete_of_mapGet_none acc k1 (mapGet_eq_none_of_not_mem acc k1 hk1)
    by_cases hf : f v1 = true
    · have hstep : (if f v1 = true then mapSet acc k1 v1 else acc) = (k1, v1) :: acc := by
        rw [if_pos hf, mapSet, hdel]
      simp only [List.foldl_cons, hstep]
      rw [ih ((k1, v1) :: acc) hnd.2]
      · simp [List.filter_cons, hf]
      · intro k hk
        have h1 : k ∉ mapKeys acc := hfresh k (by simp [mapKeys]; right; simpa [mapKeys] using hk)
        have h2 : k ≠ k1 := by
          intro e
          subst e
          exact hnd.1 (by simpa [mapKeys] using hk)
        simp only [mapKeys, List.map_cons, List.mem_cons, not_or]
        exact ⟨h2, by simpa [mapKeys] using h1⟩
    · have hstep : (if f v1 = true then mapSet acc k1 v1 else acc) = acc := by
        rw [if_neg hf]
      simp only [List.foldl_cons, hstep]
      rw [ih acc hnd.2]
      · simp [List.filter_cons, hf]
      · intro k hk
        exact hfresh k (by simp [mapKeys]; right; simpa [mapKeys] using hk)

theorem Filter_eq_reverse_filter {F : Type} (c : Currencies F) (f : Currency F → Bool)
    (hkeys : (mapKeys c).Nodup) :
    Currencies.Filter c f = (c.filter (fun kv => f kv.2)).reverse := by
  unfold Currencies.Filter
  rw [Filter_fold f c [] hkeys (by intro k _; simp [mapKeys])]
  simp

theorem nodup_mapKeys_Filter {F : Type} (c : Currencies F) (f : Currency F → Bool)
    (hkeys : (mapKeys c).Nodup) : (mapKeys (Currencies.Filter c f)).Nodup := by
  rw [Filter_eq_reverse_filter c f hkeys]
  have h := nodup_mapKeys_filter (fun kv => f kv.2) c hkeys
  unfold mapKeys at *
  rw [List.map_reverse]
  exact List.nodup_reverse.mpr h

theorem mapGet_Filter {F : Type} (c : Currencies F) (f : Currency F → Bool) (k : String)
    (hkeys : (mapKeys c).Nodup) :
    mapGet (Currencies.Filter c f) k = (mapGet c k).filter f := by
  rw [Filter_eq_reverse_filter c f hkeys,
    mapGet_reverse _ k (nodup_mapKeys_filter (fun kv => f kv.2) c hkeys),
    mapGet_filter (fun kv => f kv.2) c k hkeys]

theorem mem_mapKeys_iff_mapGet {α : Type} (m : List (String × α)) (k : String) :
    k ∈ mapKeys m ↔ ∃ v, mapGet m k = some v := by
  constructor
  · intro h
    cases hm : mapGet m k with
    | none =>
      exfalso
      unfold mapKeys at h
      obtain ⟨kv, hkv, hk⟩ := List.mem_map.mp h
      have := mapGet_isSome_of_mem m kv hkv
      rw [hk, hm] at this
      cases this
    | some v => exact ⟨v, rfl⟩
  · intro ⟨v, hv⟩
    exact mem_mapKeys_of_mapGet m k v hv

/-- C30: for a collection with one entry per key, `Filter(f)` returns a map
that holds for a key `k` the currency that the collection holds for `k` when
`f` is true of it and nothing otherwise, so its keys are exactly the keys of
the collection whose currency satisfies `f`, each once; filtering twice by
`f` gives the same map as filtering once, and filtering by `f` and then by `g`
gives the same map as filtering by the conjunction of `f` and `g`.  (Two maps
are the same when they hold the same value, or none, for every key; the
collection is an argument that the function only reads.) -/
theorem Currencies_Filter_spec {F : Type} (c : Currencies F) (f g : Currency F → Bool)
    (hkeys : (mapKeys c).Nodup) :
    (∀ k, mapGet (Currencies.Filter c f) k = (mapGet c k).filter f) ∧
    (mapKeys (Currencies.Filter c f)).Nodup ∧
    (∀ k, k ∈ mapKeys (Currencies.Filter c f) ↔ ∃ v, mapGet c k = some v ∧ f v = true) ∧
    (∀ k, mapGet (Currencies.Filter (Currencies.Filter c f) f) k
      = mapGet (Currencies.Filter c f) k) ∧
    (∀ k, mapGet (Currencies.Filter (Currencies.Filter c f) g) k
      = mapGet (Currencies.Filter c (fun x => f x && g x)) k) := by
  have hnd := nodup_mapKeys_Filter c f hkeys
  refine ⟨fun k => mapGet_Filter c f k hkeys, hnd, ?_, ?_, ?_⟩
  · intro k
    rw [mem_mapKeys_iff_mapGet, mapGet_Filter c f k hkeys]
    cases hm : mapGet c k with
    | none => simp [Option.filter]
    | some v =>
      by_cases hf : f v = true
      · simp [Option.filter, hf]
      · simp [Option.filter, hf]
  · intro k
    rw [mapGet_Filter _ f k hnd, mapGet_Filter c f k hkeys]
    cases hm : mapGet c k with
    | none => simp [Option.filter]
    | some v =>
      by_cases hf : f v = true
      · simp [Option.filter, hf]
      · simp [Option.filter, hf]
  · intro k
    rw [mapGet_Filter _ g k hnd, mapGet_Filter c f k hkeys,
      mapGet_Filter c (fun x => f x && g x) k hkeys]
    cases hm : mapGet c k with
    | none => simp [Option.filter]
    | some v =>
      by_cases hf : f v = true
      · by_cases hg : g v = true
        · simp [Option.filter, hf, hg]
        · simp [Option.filter, hf, hg]
      · simp [Option.filter, hf]
/-- On the sample collection, filtered by "not disabled" and then by "not
delisted". -/
theorem Currencies_Filter_spec_witness :
    (∀ k, mapGet (Currencies.Filter sampleCurrencies (fun x => !x.Disabled)) k
      = (mapGet sampleCurrencies k).filter (fun x => !x.Disabled)) ∧
    (mapKeys (Currencies.Filter sampleCurrencies (fun x => !x.Disabled))).Nodup ∧
    (∀ k, k ∈ mapKeys (Currencies.Filter sampleCurrencies (fun x => !x.Disabled))
      ↔ ∃ v, mapGet sampleCurrencies k = some v ∧ (fun x => !x.Disabled) v = true) ∧
    (∀ k, mapGet (Currencies.Filter
        (Currencies.Filter sampleCurrencies (fun x => !x.Disabled))
        (fun x => !x.Disabled)) k
      = mapGet (Currencies.Filter sampleCurrencies (fun x => !x.Disabled)) k) ∧
    (∀ k, mapGet (Currencies.Filter
        (Currencies.Filter sampleCurrencies (fun x => !x.Disabled))
        (fun x => !x.Delisted)) k
      = mapGet (Currencies.Filter sampleCurrencies
          (fun x => (fun x => !x.Disabled) x && (fun x => !x.Delisted) x)) k) :=
  Currencies_Filter_spec sampleCurrencies (fun x => !x.Disabled) (fun x => !x.Delisted)
    (by decide)

/-! ## Theorems: the period of a chart request -/

/-- C26: `GetChartData` returns the error "Wrong period parameter: " followed
by the decimal string of `period`, having handed no request to `client.do`,
exactly when `period` is none of 300, 900, 1800, 7200, 14400 and 86400.  For
each of these six values it hands exactly one request to `client.do`, whose
parameters are the command `returnChartData`, the currency pair in upper
case, the two Unix times and the decimal string of the period.  For the
pair `btc_xmr` and the period 14400 the parameters are those of the sample
call of the exchange. -/
theorem GetChartData_period {F : Type} (env : Surroundings F) (currencyPair : String)
    (start stop period : Int) :
    (((GetChartData env currencyPair start stop period).result
          = .error ("Wrong period parameter: " ++ Itoa period) ∧
        (GetChartData env currencyPair start stop period).requests = [])
      ↔ period ∉ validPeriods) ∧
    (period ∈ validPeriods →
      (GetChartData env currencyPair start stop period).requests
        = [[("command", "returnChartData"), ("currencyPair", env.ToUpper currencyPair),
            ("start", Itoa start), ("end", Itoa stop), ("period", Itoa period)]] ∧
      ∀ ps ∈ (GetChartData env currencyPair start stop period).requests,
        mapGet ps "period" = some (Itoa period) ∧
        mapGet ps "currencyPair" = some (env.ToUpper currencyPair)) ∧
    validPeriods.map Itoa = ["300", "900", "1800", "7200", "14400", "86400"] ∧
    (GetChartData sampleSurroundings "btc_xmr" 1405699200 9999999999 14400).requests
      = [[("command", "returnChartData"), ("currencyPair", "BTC_XMR"),
          ("start", "1405699200"), ("end", "9999999999"), ("period", "14400")]] ∧
    (GetChartData sampleSurroundings "btc_xmr" 1405699200 9999999999 600).requests = [] := by
  have hvalid : period ∈ validPeriods ↔ (period = 300 ∨ period = 900 ∨ period = 1800
      ∨ period = 7200 ∨ period = 14400 ∨ period = 86400) := by
    simp [validPeriods]
  have hreq : period ∈ validPeriods →
      (GetChartData env currencyPair start stop period).requests
        = [[("command", "returnChartData"), ("currencyPair", env.ToUpper currencyPair),
            ("start", Itoa start), ("end", Itoa stop), ("period", Itoa period)]] := by
    intro h
    have h1 := hvalid.mp h
    unfold GetChartData
    rw [if_pos h1]
    dsimp only
    cases env.clientDo _ with
    | error err => rfl
    | ok resp =>
      dsimp only
      cases env.unmarshalChartData resp with
      | error err => rfl
      | ok res => rfl
  refine ⟨⟨?_, ?_⟩, ?_, by decide, by decide, by decide⟩
  · intro ⟨_, hnone⟩ hmem
    rw [hreq hmem] at hnone
    cases hnone
  · intro hnot
    have h1 : ¬ (period = 300 ∨ period = 900 ∨ period = 1800 ∨ period = 7200
        ∨ period = 14400 ∨ period = 86400) := fun h => hnot (hvalid.mpr h)
    unfold GetChartData
    rw [if_neg h1]
    exact ⟨rfl, rfl⟩
  · intro hmem
    refine ⟨hreq hmem, ?_⟩
    intro ps hps
    rw [hreq hmem] at hps
    simp only [List.mem_singleton] at hps
    subst hps
    exact ⟨by simp [mapGet], by simp [mapGet]⟩

/-! ## Theorems: the frozen indicator of an order book -/

/-- C22: `OrderBook.UnmarshalJSON` maps the `isFrozen` wire string the other
way round than `Tick.UnmarshalJSON`.  For every order-book response of the
documented shape that decodes, `IsFrozen` is true exactly when the wire value
is "0", and for a ticker entry with the same wire value `IsFrozen` is true
exactly when the value is not "0".  On the sample response of the
documentation, whose `isFrozen` is "0" (market not frozen), the order book
gets `IsFrozen = true`, and with "1" it gets `IsFrozen = false`; the sample
ticker entry gets false for "0" and true for "1". -/
theorem OrderBook_UnmarshalJSON_inverts_isFrozen {F : Type} (ops : FloatOps F)
    (nops : NumberOps F) (asks bids : Value F) (w : String) (seq : F) :
    (∀ o r, OrderBook.UnmarshalJSON ops nops o (orderBookResponse asks bids w seq) = .ok r →
      r.IsFrozen = decide (w = "0")) ∧
    (∀ t r, Tick.UnmarshalJSON ops nops t (.obj [("isFrozen", .str w)]) = .ok r →
      r.IsFrozen = decide (w ≠ "0")) ∧
    orderBookFrozen decimalOps decimalNumberOps (sampleOrderBook "0") = some true ∧
    orderBookFrozen decimalOps decimalNumberOps (sampleOrderBook "1") = some false ∧
    tickFrozen decimalOps decimalNumberOps (sampleTick "0") = some false ∧
    tickFrozen decimalOps decimalNumberOps (sampleTick "1") = some true := by
  have e1 : fieldMatches "IsFrozen" "asks" = false := by decide
  have e2 : fieldMatches "asks" "asks" = true := by decide
  have e3 : fieldMatches "IsFrozen" "bids" = false := by decide
  have e4 : fieldMatches "asks" "bids" = false := by decide
  have e5 : fieldMatches "bids" "bids" = true := by decide
  have e6 : fieldMatches "IsFrozen" "isFrozen" = true := by decide
  have e7 : fieldMatches "IsFrozen" "seq" = false := by decide
  have e8 : fieldMatches "asks" "seq" = false := by decide
  have e9 : fieldMatches "bids" "seq" = false := by decide
  have e10 : fieldMatches "Seq" "seq" = true := by decide
  refine ⟨?_, ?_, by decide, by decide, by decide, by decide⟩
  · intro o r h
    simp only [OrderBook.UnmarshalJSON, orderBookResponse, unmarshalStruct, decodeMembers,
      OrderBookAux.member, e1, e2, e3, e4, e5, e6, e7, e8, e9, e10, storeString] at h
    cases ha : storeOrders ops "asks" asks with
    | error e => simp [ha, Result.bind] at h
    | panic => simp [ha, Result.bind] at h
    | ok as =>
      cases hb : storeOrders ops "bids" bids with
      | error e => simp [ha, hb, Result.bind] at h
      | panic => simp [ha, hb, Result.bind] at h
      | ok bs =>
        cases hs : storeInt nops "Seq" o.Seq (.num seq) with
        | error e => simp [ha, hb, hs, Result.bind] at h
        | panic => simp [ha, hb, hs, Result.bind] at h
        | ok n =>
          by_cases hw : w = "0"
          · simp [ha, hb, hs, Result.bind, hw] at h
            rw [← h]
            simp [hw]
          · simp [ha, hb, hs, Result.bind, hw] at h
            rw [← h]
            simp [hw]
  · intro t r h
    simp only [Tick.UnmarshalJSON, unmarshalStruct, decodeMembers, TickAux.member, e6,
      storeString] at h
    by_cases hw : w = "0"
    · simp [Result.bind, hw] at h
      rw [← h]
      simp [hw]
    · simp [Result.bind, hw] at h
      rw [← h]
      simp [hw]

end Publicapi

namespace Tradingapi

open Pushapi

/-! ## Theorems: the signature and the nonce of a trading request -/

theorem mem_insertKey (k x : String) (l : List String) :
    x ∈ insertKey k l ↔ x = k ∨ x ∈ l := by
  induction l with
  | nil => simp [insertKey]
  | cons y ys ih =>
    simp only [insertKey]
    split
    · simp
    · simp only [List.mem_cons, ih]
      tauto

theorem mem_sortStrings (x : String) (l : List String) : x ∈ sortStrings l ↔ x ∈ l := by
  induction l with
  | nil => simp [sortStrings]
  | cons y ys ih => simp [sortStrings, mem_insertKey, ih]

theorem mem_joinAmp (x : String) (l : List String) (h : x ∈ l) :
    ∃ pre post, joinAmp l = pre ++ x ++ post := by
  induction l with
  | nil => cases h
  | cons y ys ih =>
    cases ys with
    | nil =>
      simp only [List.mem_singleton] at h
      subst h
      exact ⟨"", "", by simp [joinAmp]⟩
    | cons z zs =>
      rcases List.mem_cons.mp h with h1 | h1
      · subst h1
        exact ⟨"", "&" ++ joinAmp (z :: zs), by simp [joinAmp, String.append_assoc]⟩
      · obtain ⟨pre, post, e⟩ := ih h1
        exact ⟨y ++ "&" ++ pre, post, by simp [joinAmp, e, String.append_assoc]⟩

theorem hexDigit_mem (n : Nat) : hexDigit n ∈ "0123456789abcdef".toList := by
  unfold hexDigit
  rcases Nat.lt_or_ge n 16 with h | h
  · interval_cases n <;> decide
  · rw [List.getD_eq_default _ _ (by simpa using h)]
    decide

theorem EncodeToString_length (bytes : List Nat) :
    (EncodeToString bytes).length = 2 * bytes.length := by
  unfold EncodeToString
  rw [String.length_mk]
  induction bytes with
  | nil => rfl
  | cons b bs ih =>
    simp only [List.flatMap_cons, List.length_append, List.length_cons, List.length_nil, ih]
    omega

theorem EncodeToString_chars (bytes : List Nat) :
    ∀ ch ∈ (EncodeToString bytes).toList, ch ∈ "0123456789abcdef".toList := by
  intro ch h
  have h1 : ch ∈ bytes.flatMap (fun b => [hexDigit (b / 16), hexDigit (b % 16)]) := h
  simp only [List.mem_flatMap, List.mem_cons, List.mem_singleton] at h1
  obtain ⟨b, _, hb⟩ := h1
  rcases hb with hb | hb | hb
  · rw [hb]
    exact hexDigit_mem _
  · rw [hb]
    exact hexDigit_mem _
  · cases hb

theorem nonce_mem_parameters (escape : String → String) (form : Values) (value : String) :
    (escape "nonce" ++ "=" ++ escape value)
      ∈ Values.parameters escape (Values.Add form "nonce" value) := by
  unfold Values.parameters
  rw [List.mem_flatMap]
  refine ⟨"nonce", ?_, ?_⟩
  · unfold sortedKeys
    rw [mem_sortStrings]
    simp [Values.Add, mapSet, mapKeys]
  · have h : mapGet (Values.Add form "nonce" value) "nonce"
        = some ((mapGet form "nonce").getD [] ++ [value]) := by
      unfold Values.Add
      exact mapGet_mapSet_self _ _ _
    rw [h]
    simp

theorem signForm_ok {F : Type} (lib : Library F)
    (hwrite : ∀ key message, lib.hmacWrite key message = none) (form : Values)
    (apiSecret : String) :
    signForm lib form apiSecret
      = .ok (EncodeToString (lib.hmacSum apiSecret (Values.Encode lib.QueryEscape form))) := by
  unfold signForm
  rw [hwrite]

theorem doCall_sent {F : Type} (lib : Library F) (c : Client) (env : CallEnv) (form : Values)
    (hrequest : env.newRequestErr = none)
    (hwrite : ∀ key message, lib.hmacWrite key message = none) :
    (Client.doCall lib c env form).sent
      = some { method := "POST", url := env.APIUrl,
               body := Values.Encode lib.QueryEscape (Values.Add form "nonce" (Itoa env.now)),
               header := [("Content-Type", "application/x-www-form-urlencoded"),
                          ("Accept", "application/json"), ("Key", c.apiKey),
                          ("Sign", EncodeToString (lib.hmacSum c.apiSecret
                            (Values.Encode lib.QueryEscape
                              (Values.Add form "nonce" (Itoa env.now)))))] } := by
  unfold Client.doCall
  simp only [hrequest, signForm_ok lib hwrite]
  cases env.exchange _ with
  | failed err => rfl
  | answered statusCode status body readErr =>
    cases readErr with
    | some err => rfl
    | none =>
      dsimp only
      by_cases hs : statusCode = 200
      · simp only [hs, ne_eq, not_true_eq_false, if_false]
        cases checkAPIError lib body <;> rfl
      · simp only [ne_eq, hs, not_false_eq_true, if_true]
        rfl

/-- C24: when `http.NewRequest` accepts the configured URL, `do` hands to the
HTTP client a request whose body is the encoding of the form with the nonce
added, and whose `Sign` header is the hexadecimal encoding of the HMAC-SHA512
digest, under the API secret, of exactly that body; the signature has 128
characters, all of them lower-case hexadecimal digits; the parameter `nonce`
with the decimal string of the clock reading is one of the encoded parameters
and so a part of the body; and `signForm` returns a signature and no error for
every form and secret.  The library contracts used are that `Write` of a hash
never returns an error and that the digest has 64 bytes. -/
theorem doCall_signs_the_body {F : Type} (lib : Library F) (c : Client) (env : CallEnv)
    (form : Values)
    (hrequest : env.newRequestErr = none)
    (hwrite : ∀ key message, lib.hmacWrite key message = none)
    (hsum : ∀ key message, (lib.hmacSum key message).length = 64) :
    ∃ req, (Client.doCall lib c env form).sent = some req ∧
      req.body = Values.Encode lib.QueryEscape (Values.Add form "nonce" (Itoa env.now)) ∧
      mapGet req.header "Sign" = some (EncodeToString (lib.hmacSum c.apiSecret req.body)) ∧
      (EncodeToString (lib.hmacSum c.apiSecret req.body)).length = 128 ∧
      (∀ ch ∈ (EncodeToString (lib.hmacSum c.apiSecret req.body)).toList,
        ch ∈ "0123456789abcdef".toList) ∧
      (lib.QueryEscape "nonce" ++ "=" ++ lib.QueryEscape (Itoa env.now))
        ∈ Values.parameters lib.QueryEscape (Client.doCall lib c env form).form ∧
      (∃ pre post, req.body
        = pre ++ (lib.QueryEscape "nonce" ++ "=" ++ lib.QueryEscape (Itoa env.now)) ++ post) ∧
      (∀ form2 apiSecret, ∃ sig, signForm lib form2 apiSecret = .ok sig) := by
  have hform : (Client.doCall lib c env form).form = Values.Add form "nonce" (Itoa env.now) := by
    unfold Client.doCall
    simp only [hrequest, signForm_ok lib hwrite]
    cases env.exchange _ with
    | failed err => rfl
    | answered statusCode status body readErr =>
      cases readErr with
      | some err => rfl
      | none =>
        dsimp only
        by_cases hs : statusCode = 200
        · simp only [hs, ne_eq, not_true_eq_false, if_false]
          cases checkAPIError lib body <;> rfl
        · simp only [ne_eq, hs, not_false_eq_true, if_true]
  refine ⟨_, doCall_sent lib c env form hrequest hwrite, rfl, ?_, ?_, ?_, ?_, ?_, ?_⟩
  · simp [mapGet]
  · rw [EncodeToString_length, hsum]
  · exact EncodeToString_chars _
  · rw [hform]
    exact nonce_mem_parameters lib.QueryEscape form (Itoa env.now)
  · exact mem_joinAmp _ _ (nonce_mem_parameters lib.QueryEscape form (Itoa env.now))
  · intro form2 apiSecret
    exact ⟨_, signForm_ok lib hwrite form2 apiSecret⟩
set_option maxRecDepth 100000 in
/-- The request of the sample client for the command `returnBalances` at the
clock reading 1500000000000000000. -/
theorem doCall_signs_the_body_witness :
    ∃ req, (Client.doCall sampleLibrary sampleTrader
          (sampleCall 1500000000000000000 "\x7b\"BTC\":\"1.0\"\x7d") sampleForm).sent
        = some req ∧
      req.body = Values.Encode sampleLibrary.QueryEscape
        (Values.Add sampleForm "nonce"
          (Itoa (sampleCall 1500000000000000000 "\x7b\"BTC\":\"1.0\"\x7d").now)) ∧
      mapGet req.header "Sign"
        = some (EncodeToString (sampleLibrary.hmacSum sampleTrader.apiSecret req.body)) ∧
      (EncodeToString (sampleLibrary.hmacSum sampleTrader.apiSecret req.body)).length = 128 ∧
      (∀ ch ∈ (EncodeToString (sampleLibrary.hmacSum sampleTrader.apiSecret req.body)).toList,
        ch ∈ "0123456789abcdef".toList) ∧
      (sampleLibrary.QueryEscape "nonce" ++ "=" ++ sampleLibrary.QueryEscape
          (Itoa (sampleCall 1500000000000000000 "\x7b\"BTC\":\"1.0\"\x7d").now))
        ∈ Values.parameters sampleLibrary.QueryEscape
          (Client.doCall sampleLibrary sampleTrader
            (sampleCall 1500000000000000000 "\x7b\"BTC\":\"1.0\"\x7d") sampleForm).form ∧
      (∃ pre post, req.body
        = pre ++ (sampleLibrary.QueryEscape "nonce" ++ "=" ++ sampleLibrary.QueryEscape
            (Itoa (sampleCall 1500000000000000000 "\x7b\"BTC\":\"1.0\"\x7d").now)) ++ post) ∧
      (∀ form2 apiSecret, ∃ sig, signForm sampleLibrary form2 apiSecret = .ok sig) :=
  doCall_signs_the_body sampleLibrary sampleTrader
    (sampleCall 1500000000000000000 "\x7b\"BTC\":\"1.0\"\x7d") sampleForm rfl
    (fun _ _ => rfl) (fun _ _ => by simp [sampleLibrary, sampleDigest])
theorem doCall_nonce_form {F : Type} (lib : Library F) (c : Client) (env : CallEnv)
    (form : Values) :
    (Client.doCall lib c env form).nonce = env.now ∧
    (Client.doCall lib c env form).form = Values.Add form "nonce" (Itoa env.now) := by
  unfold Client.doCall
  cases env.newRequestErr with
  | some err => exact ⟨rfl, rfl⟩
  | none =>
    dsimp only
    cases signForm lib (Values.Add form "nonce" (Itoa env.now)) c.apiSecret with
    | error err => exact ⟨rfl, rfl⟩
    | ok sig =>
      dsimp only
      cases env.exchange _ with
      | failed err => exact ⟨rfl, rfl⟩
      | answered statusCode status body readErr =>
        cases readErr with
        | some err => exact ⟨rfl, rfl⟩
        | none =>
          dsimp only
          by_cases hs : statusCode = 200
          · simp only [hs, ne_eq, not_true_eq_false, if_false]
            cases checkAPIError lib body <;> exact ⟨rfl, rfl⟩
          · simp only [ne_eq, hs, not_false_eq_true, if_true]
            exact ⟨trivial, trivial⟩

/-- C25: the nonce is not always greater than the one used before: it is the
reading of the wall clock and `do` keeps no record of the nonce it used.  Two
successive calls of the sample client that read the same clock value place
the same nonce in their requests; and after a call that reads
1500000000000000000, a call that reads 1499999999999000000 (the clock was set
back by a millisecond) places a smaller nonce. -/
theorem doCall_nonce_not_increasing :
    (Client.doCall sampleLibrary sampleTrader
        (sampleCall 1500000000000000000 "\x7b\"BTC\":\"1.0\"\x7d") sampleForm).sent.map
      Request.body = some "command=returnBalances&nonce=1500000000000000000" ∧
    ¬ ((Client.doCall sampleLibrary sampleTrader
          (sampleCall 1500000000000000000 "\x7b\"BTC\":\"1.0\"\x7d") sampleForm).nonce
        < (Client.doCall sampleLibrary sampleTrader
          (sampleCall 1500000000000000000 "\x7b\"BTC\":\"1.0\"\x7d") sampleForm).nonce) ∧
    (Client.doCall sampleLibrary sampleTrader
        (sampleCall 1499999999999000000 "\x7b\"BTC\":\"1.0\"\x7d") sampleForm).sent.map
      Request.body = some "command=returnBalances&nonce=1499999999999000000" ∧
    (Client.doCall sampleLibrary sampleTrader
        (sampleCall 1499999999999000000 "\x7b\"BTC\":\"1.0\"\x7d") sampleForm).nonce
      < (Client.doCall sampleLibrary sampleTrader
        (sampleCall 1500000000000000000 "\x7b\"BTC\":\"1.0\"\x7d") sampleForm).nonce := by
  refine ⟨by decide, by decide, by decide, by decide⟩

/-- The nonce that a call of `do` places in its request is the reading of
`time.Now().UnixNano()` taken by that call: it is added to the form as the
last value of the key `nonce`, as a decimal string.  So of two calls the
second places a strictly greater nonce than the first exactly when it reads a
strictly later clock value. -/
theorem doCall_nonce_is_clock_reading {F : Type} (lib : Library F) (c : Client)
    (env1 env2 : CallEnv) (form1 form2 : Values) :
    (Client.doCall lib c env1 form1).nonce = env1.now ∧
    (Client.doCall lib c env2 form2).nonce = env2.now ∧
    (mapGet (Client.doCall lib c env2 form2).form "nonce").bind List.getLast?
      = some (Itoa (Client.doCall lib c env2 form2).nonce) ∧
    ((Client.doCall lib c env1 form1).nonce < (Client.doCall lib c env2 form2).nonce
      ↔ env1.now < env2.now) := by
  obtain ⟨n1, _⟩ := doCall_nonce_form lib c env1 form1
  obtain ⟨n2, f2⟩ := doCall_nonce_form lib c env2 form2
  refine ⟨n1, n2, ?_, ?_⟩
  · rw [f2, n2]
    unfold Values.Add
    rw [mapGet_mapSet_self]
    simp
  · rw [n1, n2]
/-! ## Theorems: error responses of the trading API -/

theorem decodeMembers_append {F σ : Type} (step : σ → String × Value F → Result σ) :
    ∀ (l1 l2 : List (String × Value F)) (st : σ),
      decodeMembers step st (l1 ++ l2)
        = (decodeMembers step st l1).bind (fun st1 => decodeMembers step st1 l2) := by
  intro l1
  induction l1 with
  | nil => intro l2 st; simp [decodeMembers, Result.bind]
  | cons kv rest ih =>
    intro l2 st
    simp only [List.cons_append, decodeMembers]
    cases step st kv with
    | ok st1 => simp [Result.bind, ih]
    | error e => simp [Result.bind]
    | panic => simp [Result.bind]

theorem decodeMembers_APIError_skip {F : Type} (ae : APIError) :
    ∀ l : List (String × Value F), (∀ kv ∈ l, keyMatches "error" kv.1 = false) →
      decodeMembers APIError.member ae l = .ok ae := by
  intro l
  induction l with
  | nil => intro _; rfl
  | cons kv rest ih =>
    intro h
    have h1 : keyMatches "error" kv.1 = false := h kv (List.mem_cons_self _ _)
    have h2 := ih (fun x hx => h x (List.mem_cons_of_mem _ hx))
    simp [decodeMembers, APIError.member, h1, Result.bind, h2]

/-- C23, as stated, fails in both directions: `checkAPIError` looks for the
text `"error":` in the body before it decodes.  A body that is a JSON object
with a top-level `error` member written with a space before the colon gives
nil; a body without a top-level `error` member that has the text in a nested
object gives the error "API error: " with an empty message. -/
theorem checkAPIError_follows_the_text :
    jsonRead "\x7b\"error\" : \"Invalid command.\"\x7d"
      = some (.obj [("error", .str "Invalid command.")]) ∧
    checkAPIError sampleLibrary "\x7b\"error\" : \"Invalid command.\"\x7d" = none ∧
    jsonRead "\x7b\"result\":\x7b\"error\":\"Order not found\"\x7d,\"success\":0\x7d"
      = some (.obj [("result", .obj [("error", .str "Order not found")]),
                    ("success", .num ⟨0, 0⟩)]) ∧
    checkAPIError sampleLibrary
        "\x7b\"result\":\x7b\"error\":\"Order not found\"\x7d,\"success\":0\x7d"
      = some "API error: " := by
  refine ⟨by rfl, by decide, by rfl, by decide⟩

/-- C23, amended: `checkAPIError` returns nil for every body that does not
contain the text `"error":`.  For a body that contains it and is a JSON object
with one top-level `error` member, whose value is a string, it returns the
error "API error: " followed by that string; and a call of `do` whose response
has status 200 and such a body returns that error and no body. -/
theorem checkAPIError_documented_format {F : Type} (lib : Library F) (c : Client)
    (env : CallEnv) (form : Values) (body msg status : String)
    (pre post : List (String × Value F))
    (hcontains : Contains body "\"error\":" = true)
    (hread : lib.Unmarshal body = some (.obj (pre ++ [("error", .str msg)] ++ post)))
    (hother : ∀ kv ∈ pre ++ post, keyMatches "error" kv.1 = false)
    (hrequest : env.newRequestErr = none)
    (hwrite : ∀ key message, lib.hmacWrite key message = none)
    (hexchange : ∀ req, env.exchange req = .answered 200 status body none) :
    checkAPIError lib body = some ("API error: " ++ msg) ∧
    (Client.doCall lib c env form).body = none ∧
    (Client.doCall lib c env form).err = some ("API error: " ++ msg) ∧
    (∀ body2, Contains body2 "\"error\":" = false → checkAPIError lib body2 = none) := by
  have hpre : ∀ kv ∈ pre, keyMatches "error" kv.1 = false :=
    fun kv h => hother kv (List.mem_append_left _ h)
  have hpost : ∀ kv ∈ post, keyMatches "error" kv.1 = false :=
    fun kv h => hother kv (List.mem_append_right _ h)
  have hkey : keyMatches "error" "error" = true := by decide
  have hdecode : unmarshalStruct "APIError" APIError.member ({ Err := "" } : APIError)
      (Value.obj (pre ++ [("error", Value.str msg)] ++ post) : Value F)
        = .ok { Err := msg } := by
    simp only [unmarshalStruct]
    rw [decodeMembers_append, decodeMembers_append, decodeMembers_APIError_skip _ pre hpre]
    simp only [Result.bind, decodeMembers, APIError.member, hkey, if_true, storeString]
    exact decodeMembers_APIError_skip _ post hpost
  have hcheck : checkAPIError lib body = some ("API error: " ++ msg) := by
    unfold checkAPIError
    simp only [hcontains, not_true_eq_false, if_false, hread, hdecode]
  refine ⟨hcheck, ?_, ?_, ?_⟩
  · unfold Client.doCall
    simp [hrequest, signForm, hwrite, hexchange, hcheck]
  · unfold Client.doCall
    simp [hrequest, signForm, hwrite, hexchange, hcheck]
  · intro body2 h2
    unfold checkAPIError
    simp [h2]

/-- The documented error response with the message "Invalid command.",
received by the sample client. -/
theorem checkAPIError_documented_format_witness :
    checkAPIError sampleLibrary "\x7b\"error\":\"Invalid command.\"\x7d"
      = some ("API error: " ++ "Invalid command.") ∧
    (Client.doCall sampleLibrary sampleTrader
        (sampleCall 1500000000000000000 "\x7b\"error\":\"Invalid command.\"\x7d")
        sampleForm).body = none ∧
    (Client.doCall sampleLibrary sampleTrader
        (sampleCall 1500000000000000000 "\x7b\"error\":\"Invalid command.\"\x7d")
        sampleForm).err = some ("API error: " ++ "Invalid command.") ∧
    (∀ body2, Contains body2 "\"error\":" = false →
      checkAPIError sampleLibrary body2 = none) :=
  checkAPIError_documented_format sampleLibrary sampleTrader
    (sampleCall 1500000000000000000 "\x7b\"error\":\"Invalid command.\"\x7d") sampleForm
    "\x7b\"error\":\"Invalid command.\"\x7d" "Invalid command." "200 OK" [] []
    (by decide) (by rfl) (by decide) rfl (fun _ _ => rfl) (fun _ => rfl)

end Tradingapi
